import Mathlib

/-!
# eGUI: widget tree, pending count, redraw pass and touch dispatch

A shallow embedding of `00-GUI_LIBRARY/gui.c`, of the macros of
`00-GUI_LIBRARY/gui.h`, of the drawing functions `GUI_DRAW_SetPixel`,
`GUI_DRAW_Fill`, `GUI_DRAW_Line`, `GUI_DRAW_RoundedRectangle`,
`GUI_DRAW_FilledRoundedRectangle` and `GUI_DRAW_WriteText` of
`00-GUI_LIBRARY/gui_draw.c`, and of the LED widget of
`00-GUI_LIBRARY/widgets/gui_led.c`.

* The widget tree is an inductive type; the child list of a container is a
  `List`, in z-order (first child = lowest).
* A pointer to a widget (`GUI_HANDLE_t`) is the natural number stored in the
  field `Handle` of the widget it points to.
* Callbacks (`WidgetDraw`, `TouchDown`, `TouchUp`, `TouchMove`) are external
  code. Every invocation is recorded in a list of `GUI_Call`s; a callback is
  taken not to write to the GUI state.
* `uint32_t` counters are natural numbers reduced modulo `2 ^ 32` after every
  addition.
-/

namespace EGUI

/-! ## Data model -/

/-- The bits of `h->Flags` that `gui.c` reads or writes. The masks
`GUI_FLAG_REDRAW`, `GUI_FLAG_ACTIVE` and `GUI_FLAG_FOCUS` are declared in
`gui_widget.h`; each is one bit of the flag word, kept here as one boolean. -/
structure GUI_Flags where
  REDRAW : Bool
  ACTIVE : Bool
  FOCUS : Bool
deriving DecidableEq

/-- Result of a touch handler (`__GUI_TouchStatus_t`). -/
inductive __GUI_TouchStatus_t where
  | touchCONTINUE
  | touchHANDLED
  | touchHANDLEDNOFOCUS
deriving DecidableEq

/-- One touch sample (`GUI_TouchData_t`): position and `Status`, which is
`true` for a pressed sample (non-zero) and `false` for
`GUI_TouchState_RELEASED`. -/
structure GUI_TouchData_t where
  X : Int
  Y : Int
  Status : Bool
deriving DecidableEq

/-- The widget kind descriptor (`GUI_WIDGET_t`), as far as `gui.c` uses it.
`WidgetDraw`, `TouchUp` and `TouchMove` say whether the function pointer is
non-null (their results are not used by the callers); `TouchDown` is `none`
for a null pointer and otherwise the status the handler returns for a sample.
`MetaData.AllowChildren` is carried by the constructor of `Widget`. -/
structure GUI_WIDGET_t where
  WidgetDraw : Bool
  TouchDown : Option (GUI_TouchData_t → __GUI_TouchStatus_t)
  TouchUp : Bool
  TouchMove : Bool

/-- The common part of every widget (`GUI_HANDLE`): identity, geometry
relative to the parent, flags and kind. -/
structure GUI_HANDLE where
  Handle : Nat
  Id : Nat
  X : Int
  Y : Int
  Width : Nat
  Height : Nat
  Flags : GUI_Flags
  Widget : GUI_WIDGET_t

/-- Modelled from the spec: the linked list of `utils/gui_linkedlist.h`, which
is not part of the sources at hand. The children of a parent form an ordered
sequence, z-order being list order; `__GUI_LINKEDLIST_GetNextWidget` yields
the direct children first to last and `__GUI_LINKEDLIST_GetPrevWidget` last to
first. A widget of a kind with `MetaData.AllowChildren` set
(`GUI_HANDLE_ROOT_t`) owns a child list; a widget of any other kind has
none. -/
inductive Widget where
  | leaf (h : GUI_HANDLE)
  | container (h : GUI_HANDLE) (children : List Widget)

/-- The clip region (`GUI_Display_t`). -/
structure GUI_Display_t where
  X1 : Int
  Y1 : Int
  X2 : Int
  Y2 : Int
deriving DecidableEq

/-- One display layer, as far as `gui.c` writes it. -/
structure GUI_Layer_t where
  Pending : Bool
deriving DecidableEq

/-- The display settings (`GUI_LCD_t`), as far as `gui.c` uses them.
`WAIT_LAYER_CONFIRM` is the bit `GUI_FLAG_LCD_WAIT_LAYER_CONFIRM` of
`GUI.LCD.Flags`. -/
structure GUI_LCD_t where
  Width : Nat
  Height : Nat
  LayersCount : Nat
  ActiveLayer : Nat
  DrawingLayer : Nat
  WAIT_LAYER_CONFIRM : Bool
  Layers : List GUI_Layer_t
deriving DecidableEq

/-- The global object `GUI` (`GUI_t`). `Root` is the child list of the root
linked list; the three widget pointers are `none` when null. -/
structure GUI_t where
  LCD : GUI_LCD_t
  Display : GUI_Display_t
  WindowActive : Option Nat
  FocusedWidget : Option Nat
  ActiveWidget : Option Nat
  Root : List Widget

/-- An invocation of a widget callback, with the handle it was given, or a
request to the display driver: `Copy drawing active` is the call `GUI.LL.Copy`
from the layer `active` into the layer `drawing` (line 260), and
`SetActiveLayer layer` the command `GUI_LL_Command_SetActiveLayer` passed to
`GUI_LL_Control` (line 280). -/
inductive GUI_Call where
  | WidgetDraw (h : Nat)
  | TouchDown (h : Nat)
  | TouchUp (h : Nat)
  | TouchMove (h : Nat)
  | Copy (drawing active : Nat)
  | SetActiveLayer (layer : Nat)
deriving DecidableEq

/-- The header of a widget. -/
def Widget.hdr : Widget → GUI_HANDLE
  | .leaf h => h
  | .container h _ => h

/-- The value of `h->Widget->MetaData.AllowChildren`. -/
def Widget.AllowChildren : Widget → Bool
  | .leaf _ => false
  | .container _ _ => true

/-- The assignment `h->Flags |= GUI_FLAG_REDRAW`. -/
def GUI_HANDLE.setREDRAW (h : GUI_HANDLE) : GUI_HANDLE :=
  { h with Flags := { h.Flags with REDRAW := true } }

/-- The assignment `h->Flags &= ~GUI_FLAG_REDRAW`. -/
def GUI_HANDLE.clearREDRAW (h : GUI_HANDLE) : GUI_HANDLE :=
  { h with Flags := { h.Flags with REDRAW := false } }

/-- The assignment `h->Flags |= GUI_FLAG_REDRAW` on a widget of the tree. -/
def Widget.setREDRAW : Widget → Widget
  | .leaf h => .leaf h.setREDRAW
  | .container h cs => .container h.setREDRAW cs

mutual
/-- A widget and every widget below it, each with the chain of its ancestors
(nearest first), a container before its children. -/
def Widget.walk (anc : List GUI_HANDLE) : Widget → List (List GUI_HANDLE × GUI_HANDLE)
  | .leaf h => [(anc, h)]
  | .container h cs => (anc, h) :: Widget.walkList (h :: anc) cs
/-- The widgets of a child list and below, first child first. -/
def Widget.walkList (anc : List GUI_HANDLE) : List Widget → List (List GUI_HANDLE × GUI_HANDLE)
  | [] => []
  | w :: rest => Widget.walk anc w ++ Widget.walkList anc rest
end

mutual
/-- The number of widgets without a child list in a widget and below. -/
def Widget.leaves : Widget → Nat
  | .leaf _ => 1
  | .container _ cs => Widget.leavesList cs
/-- The number of widgets without a child list in a child list and below. -/
def Widget.leavesList : List Widget → Nat
  | [] => 0
  | w :: rest => Widget.leaves w + Widget.leavesList rest
end

/-! ## `__GetNumberOfPendingWidgets` (gui.c, lines 55–70) -/

mutual
/-- One round of the loop of `__GetNumberOfPendingWidgets` at the child `h`
(lines 63–67): the amount added to `cnt`, and the widget as the round leaves
it. For a container this is the call `__GetNumberOfPendingWidgets(h)`
(lines 59–69): `1` when `h` has `GUI_FLAG_REDRAW`, else the count over its
children. -/
def __GetNumberOfPendingWidgets_h : Widget → Nat × Widget
  | .leaf h => (if h.Flags.REDRAW then 1 else 0, .leaf h)
  | .container h cs =>
    if h.Flags.REDRAW then (1, .container h cs)
    else
      let r := __GetNumberOfPendingWidgets_for 0 cs
      (r.1, .container h r.2)
/-- The loop of `__GetNumberOfPendingWidgets` over a child list
(`__GUI_LINKEDLIST_GetNextWidget`, first child first), started with the
counter `cnt`: the final counter and the child list as the loop leaves it. -/
def __GetNumberOfPendingWidgets_for (cnt : Nat) : List Widget → Nat × List Widget
  | [] => (cnt, [])
  | w :: rest =>
    let r := __GetNumberOfPendingWidgets_h w
    let r2 := __GetNumberOfPendingWidgets_for ((cnt + r.1) % 2 ^ 32) rest
    (r2.1, r.2 :: r2.2)
end

/-- The call `__GetNumberOfPendingWidgets(NULL)`: the loop over the root list,
with the value returned and the state the call leaves. -/
def __GetNumberOfPendingWidgets (GUI : GUI_t) : Nat × GUI_t :=
  let r := __GetNumberOfPendingWidgets_for 0 GUI.Root
  (r.1, { GUI with Root := r.2 })

/-! ## Geometry (gui.h, lines 146–155, and the widget helpers) -/

/-- The macro `__GUI_RECT_MATCH(x1, y1, w1, h1, x2, y2, w2, h2)` of `gui.h`,
over integers without overflow. -/
def __GUI_RECT_MATCH (x1 y1 w1 h1 x2 y2 w2 h2 : Int) : Bool :=
  !(decide (x1 > x2 + w2) ||
    decide (x2 > x1 + w1) ||
    decide (y1 > y2 + h2) ||
    decide (y2 > y1 + h1))

/-- Modelled from the spec: `__GUI_WIDGET_GetAbsoluteX` of the widget module,
which is not part of the sources at hand. The absolute position of a node is
the sum of its own offset and every ancestor's offset; `anc` holds the offsets
`(X, Y)` of the ancestors that the parent pointers of `h` lead through,
nearest first. -/
def __GUI_WIDGET_GetAbsoluteX (anc : List (Int × Int)) (h : GUI_HANDLE) : Int :=
  h.X + (anc.map Prod.fst).sum

/-- Modelled from the spec: `__GUI_WIDGET_GetAbsoluteY` of the widget module,
which is not part of the sources at hand; see `__GUI_WIDGET_GetAbsoluteX`. -/
def __GUI_WIDGET_GetAbsoluteY (anc : List (Int × Int)) (h : GUI_HANDLE) : Int :=
  h.Y + (anc.map Prod.snd).sum

/-- Modelled from the spec: `__GUI_WIDGET_IsInsideClippingRegion` of the widget
module, which is not part of the sources at hand. A widget is inside when its
bounding rectangle intersects the clip region, by the clipping test of
`__GUI_RECT_MATCH`; the clip region enters as `gui_draw.c` passes it to that
macro (lines 414–417). -/
def __GUI_WIDGET_IsInsideClippingRegion (disp : GUI_Display_t) (anc : List (Int × Int))
    (h : GUI_HANDLE) : Bool :=
  __GUI_RECT_MATCH
    disp.X1 disp.Y1 (disp.X2 - disp.X1) (disp.Y2 - disp.Y1)
    (__GUI_WIDGET_GetAbsoluteX anc h) (__GUI_WIDGET_GetAbsoluteY anc h) h.Width h.Height

/-! ## `__RedrawWidgets` (gui.c, lines 73–103) -/

/-- What a redraw walk hands back: the counter, the widgets as the walk leaves
them, and the draw callbacks it invoked, in order. -/
structure Redrawn (α : Type) where
  cnt : Nat
  after : α
  calls : List GUI_Call

/-- The draw of lines 82–84 and 94–96: the callback runs when `WidgetDraw` is
set and the widget is inside the clip region. -/
def RedrawWidgets_draw (disp : GUI_Display_t) (anc : List (Int × Int)) (h : GUI_HANDLE) :
    List GUI_Call :=
  if h.Widget.WidgetDraw && __GUI_WIDGET_IsInsideClippingRegion disp anc h then
    [GUI_Call.WidgetDraw h.Handle]
  else []

mutual
/-- One round of the second loop of `__RedrawWidgets` at the child `h`
(lines 89–99). `force` says that the parent was redrawn, in which case its
first loop (lines 79–81) has set `GUI_FLAG_REDRAW` on `h` before this round
reads the flag; `RedrawWidgets_for_force` shows that this is the second loop
run after the first. For a container the round is the call
`__RedrawWidgets(h)` (lines 77–102). -/
def __RedrawWidgets_h (disp : GUI_Display_t) (anc : List (Int × Int)) (force : Bool) :
    Widget → Redrawn Widget
  | .leaf h =>
    let h1 := if force then h.setREDRAW else h
    if h1.Flags.REDRAW then
      { cnt := 1, after := .leaf h1.clearREDRAW, calls := RedrawWidgets_draw disp anc h1 }
    else
      { cnt := 0, after := .leaf h1, calls := [] }
  | .container h cs =>
    let h1 := if force then h.setREDRAW else h
    if h1.Flags.REDRAW then
      let r := __RedrawWidgets_for disp ((h.X, h.Y) :: anc) true 0 cs
      { cnt := r.cnt, after := .container h1.clearREDRAW r.after,
        calls := RedrawWidgets_draw disp anc h1 ++ r.calls }
    else
      let r := __RedrawWidgets_for disp ((h.X, h.Y) :: anc) false 0 cs
      { cnt := r.cnt, after := .container h1 r.after, calls := r.calls }
/-- The second loop of `__RedrawWidgets` (lines 88–100) over a child list,
first child first, started with the counter `cnt`. -/
def __RedrawWidgets_for (disp : GUI_Display_t) (anc : List (Int × Int)) (force : Bool)
    (cnt : Nat) : List Widget → Redrawn (List Widget)
  | [] => { cnt := cnt, after := [], calls := [] }
  | w :: rest =>
    let r := __RedrawWidgets_h disp anc force w
    let r2 := __RedrawWidgets_for disp anc force ((cnt + r.cnt) % 2 ^ 32) rest
    { cnt := r2.cnt, after := r.after :: r2.after, calls := r.calls ++ r2.calls }
end

/-- The call `__RedrawWidgets(NULL)`: the second loop over the root list under
the clip region `GUI.Display`. -/
def __RedrawWidgets (GUI : GUI_t) : Redrawn GUI_t :=
  let r := __RedrawWidgets_for GUI.Display [] false 0 GUI.Root
  { cnt := r.cnt, after := { GUI with Root := r.after }, calls := r.calls }

/-! ## `__ProcessTouch` (gui.c, lines 105–169) -/

mutual
/-- A write `p->Flags = ...` through a widget pointer: the header of the
widget with handle `p` is replaced by `f` of it. -/
def Widget.update (p : Nat) (f : GUI_HANDLE → GUI_HANDLE) : Widget → Widget
  | .leaf h => .leaf (if h.Handle = p then f h else h)
  | .container h cs =>
    .container (if h.Handle = p then f h else h) (Widget.updateList p f cs)
/-- The write through a widget pointer, on a child list. -/
def Widget.updateList (p : Nat) (f : GUI_HANDLE → GUI_HANDLE) : List Widget → List Widget
  | [] => []
  | w :: rest => Widget.update p f w :: Widget.updateList p f rest
end

mutual
/-- The move of the widget with handle `p` to the end of the child list that
holds it, below a widget. -/
def Widget.moveDown (p : Nat) : Widget → Widget
  | .leaf h => .leaf h
  | .container h cs => .container h (Widget.moveDownList p cs)
/-- The move of the widget with handle `p` to the end of the child list that
holds it, in a child list and below. -/
def Widget.moveDownList (p : Nat) : List Widget → List Widget
  | [] => []
  | w :: rest =>
    if w.hdr.Handle = p then Widget.moveDownList p rest ++ [w]
    else Widget.moveDown p w :: Widget.moveDownList p rest
end

/-- Modelled from the spec: `__GUI_WIDGET_Invalidate` of the widget module,
which is not part of the sources at hand. `invalidate(node)` sets the REDRAW
flag on the node. What it does to the clip region is not described by the
spec, and `Display` is left as it is. -/
def __GUI_WIDGET_Invalidate (p : Nat) (GUI : GUI_t) : GUI_t :=
  { GUI with Root := Widget.updateList p GUI_HANDLE.setREDRAW GUI.Root }

/-- Modelled from the spec: `__GUI_LINKEDLIST_MoveDown_Widget` of
`utils/gui_linkedlist.h`, which is not part of the sources at hand.
`moveToEnd(node)` relocates a node to the end of its parent's child
sequence. -/
def __GUI_LINKEDLIST_MoveDown_Widget (p : Nat) (GUI : GUI_t) : GUI_t :=
  { GUI with Root := Widget.moveDownList p GUI.Root }

/-- The write `p->Flags = f (p->Flags)` on the global state. -/
def GUI_t.setFlags (p : Nat) (f : GUI_Flags → GUI_Flags) (GUI : GUI_t) : GUI_t :=
  { GUI with Root := Widget.updateList p (fun h => { h with Flags := f h.Flags }) GUI.Root }

/-- The state a touch walk threads: the global object and the handler
invocations so far, oldest first. -/
structure TouchRun where
  GUI : GUI_t
  calls : List GUI_Call

/-- Lines 131–134 and 142–145: a focused widget loses `GUI_FLAG_FOCUS` and is
invalidated. -/
def ProcessTouch_unfocus (GUI : GUI_t) : GUI_t :=
  match GUI.FocusedWidget with
  | some p =>
    __GUI_WIDGET_Invalidate p (GUI.setFlags p (fun fl => { fl with FOCUS := false }))
  | none => GUI

/-- The test of line 125: the touch point lies in the rectangle of `h`, both
bounds included on either axis. -/
def ProcessTouch_inside (touch : GUI_TouchData_t) (anc : List (Int × Int)) (h : GUI_HANDLE) :
    Bool :=
  let x := __GUI_WIDGET_GetAbsoluteX anc h
  let y := __GUI_WIDGET_GetAbsoluteY anc h
  decide (touch.X ≥ x) && decide (touch.X ≤ x + h.Width) &&
    decide (touch.Y ≥ y) && decide (touch.Y ≤ y + h.Height)

/-- Lines 121–166 for the widget `h`, whose children (if any) are done. The
result is `none` when the code writes through a null pointer (line 148, reached
with `GUI.FocusedWidget` just set to null). Otherwise it is the status with
which the function returns from inside the loop, or `touchCONTINUE` when the
loop goes on to the next widget. -/
def ProcessTouch_widget (touch touchLast : GUI_TouchData_t) (anc : List (Int × Int))
    (h : GUI_HANDLE) (s : TouchRun) : Option (__GUI_TouchStatus_t × TouchRun) :=
  if ProcessTouch_inside touch anc h then
    if touch.Status && !touchLast.Status then
      match h.Widget.TouchDown with
      | some handler =>
        let tStat := handler touch
        let calls := s.calls ++ [GUI_Call.TouchDown h.Handle]
        if tStat ≠ .touchCONTINUE then
          if tStat = .touchHANDLED then
            let G1 := ProcessTouch_unfocus s.GUI
            let G2 := { G1 with FocusedWidget := G1.ActiveWidget }
            let G3 := { G2 with ActiveWidget := some h.Handle }
            let G4 := __GUI_LINKEDLIST_MoveDown_Widget h.Handle G3
            let G5 := G4.setFlags h.Handle (fun fl => { fl with ACTIVE := true })
            let G6 := __GUI_WIDGET_Invalidate h.Handle G5
            some (tStat, { GUI := G6, calls := calls })
          else
            let G1 := ProcessTouch_unfocus s.GUI
            let G2 := { G1 with FocusedWidget := none }
            if G2.ActiveWidget.isSome then none
            else some (tStat, { GUI := { G2 with ActiveWidget := none }, calls := calls })
        else some (.touchCONTINUE, { GUI := s.GUI, calls := calls })
      | none => some (.touchCONTINUE, s)
    else if !touch.Status && touchLast.Status then
      let calls := if h.Widget.TouchUp then s.calls ++ [GUI_Call.TouchUp h.Handle] else s.calls
      if s.GUI.ActiveWidget = some h.Handle then
        let G1 := s.GUI.setFlags h.Handle (fun fl => { fl with ACTIVE := false })
        let G2 := __GUI_WIDGET_Invalidate h.Handle G1
        some (.touchCONTINUE, { GUI := { G2 with ActiveWidget := none }, calls := calls })
      else some (.touchCONTINUE, { GUI := s.GUI, calls := calls })
    else some (.touchCONTINUE, s)
  else some (.touchCONTINUE, s)

mutual
/-- One round of the loop of `__ProcessTouch` at the child `h` (lines 111–166):
for a container first the call `__ProcessTouch(touch, touchLast, h)` on its
children, then the widget itself. The walk follows the tree as it is when the
call starts; the writes go to the state `s`. -/
def __ProcessTouch_h (touch touchLast : GUI_TouchData_t) (anc : List (Int × Int))
    (s : TouchRun) : Widget → Option (__GUI_TouchStatus_t × TouchRun)
  | .leaf h => ProcessTouch_widget touch touchLast anc h s
  | .container h cs =>
    match __ProcessTouch_for touch touchLast ((h.X, h.Y) :: anc) s cs with
    | none => none
    | some (tStat, s1) =>
      if tStat ≠ .touchCONTINUE then some (tStat, s1)
      else ProcessTouch_widget touch touchLast anc h s1
/-- The loop of `__ProcessTouch` over a child list, last child first
(`__GUI_LINKEDLIST_GetPrevWidget`, line 110), ended by the first round that
returns. -/
def __ProcessTouch_for (touch touchLast : GUI_TouchData_t) (anc : List (Int × Int))
    (s : TouchRun) : List Widget → Option (__GUI_TouchStatus_t × TouchRun)
  | [] => some (.touchCONTINUE, s)
  | w :: rest =>
    match __ProcessTouch_for touch touchLast anc s rest with
    | none => none
    | some (tStat, s1) =>
      if tStat ≠ .touchCONTINUE then some (tStat, s1)
      else __ProcessTouch_h touch touchLast anc s1 w
end

/-- The call `__ProcessTouch(touch, touchLast, NULL)` on the global state. -/
def __ProcessTouch (touch touchLast : GUI_TouchData_t) (GUI : GUI_t) :
    Option (__GUI_TouchStatus_t × TouchRun) :=
  __ProcessTouch_for touch touchLast [] { GUI := GUI, calls := [] } GUI.Root

/-! ## `GUI_Process` and `GUI_LCD_ConfirmActiveLayer` (gui.c, lines 215–296) -/

mutual
/-- The widget a pointer `p` leads to, looked up below a widget. -/
def Widget.find (p : Nat) : Widget → Option GUI_HANDLE
  | .leaf h => if h.Handle = p then some h else none
  | .container h cs => if h.Handle = p then some h else Widget.findList p cs
/-- The widget a pointer `p` leads to, looked up in a child list and below. -/
def Widget.findList (p : Nat) : List Widget → Option GUI_HANDLE
  | [] => none
  | w :: rest =>
    match Widget.find p w with
    | some h => some h
    | none => Widget.findList p rest
end

/-- The static variables of `GUI_Process` (lines 216–217). -/
structure GUI_Statics where
  first : Bool
  touchLast : GUI_TouchData_t

/-- The state the loop of `GUI_Process` threads: the global object, the static
`touchLast`, and the callbacks and driver requests so far, oldest first. -/
structure ProcessRun where
  GUI : GUI_t
  touchLast : GUI_TouchData_t
  calls : List GUI_Call

/-- Lines 241–248: after a released sample a widget that is still active loses
`GUI_FLAG_ACTIVE` and is invalidated, and `GUI.ActiveWidget` becomes null. -/
def GUI_Process_release (touch : GUI_TouchData_t) (GUI : GUI_t) : GUI_t :=
  if !touch.Status then
    let G1 :=
      match GUI.ActiveWidget with
      | some p =>
        __GUI_WIDGET_Invalidate p (GUI.setFlags p (fun fl => { fl with ACTIVE := false }))
      | none => GUI
    { G1 with ActiveWidget := none }
  else GUI

/-- One round of the loop of `GUI_Process` for the sample `touch`
(lines 228–249). With an active widget and both samples pressed the sample
goes to the touch-move handler of the active widget (lines 229–233),
otherwise to `__ProcessTouch` (line 236). The result is `none` when
`GUI.ActiveWidget` leads to no widget of the tree, or when `__ProcessTouch`
writes through a null pointer. -/
def GUI_Process_sample (touch : GUI_TouchData_t) (r : ProcessRun) : Option ProcessRun :=
  let dispatched : Option (GUI_t × List GUI_Call) :=
    match (if touch.Status && r.touchLast.Status then r.GUI.ActiveWidget else none) with
    | some p =>
      match Widget.findList p r.GUI.Root with
      | some h =>
        some (r.GUI, if h.Widget.TouchMove then r.calls ++ [GUI_Call.TouchMove p] else r.calls)
      | none => none
    | none =>
      match __ProcessTouch touch r.touchLast r.GUI with
      | some (_, s) => some (s.GUI, r.calls ++ s.calls)
      | none => none
  match dispatched with
  | some (G, calls) =>
    some { GUI := GUI_Process_release touch G, touchLast := touch, calls := calls }
  | none => none

/-- Modelled from the spec: `__GUI_INPUT_ReadTouch` of the input module, which is
not part of the sources at hand. The touch source is polled until exhausted;
`samples` are the samples it hands out during the call, in order. The loop of
`GUI_Process` (lines 227–250) runs one round for each. -/
def GUI_Process_while : List GUI_TouchData_t → ProcessRun → Option ProcessRun
  | [], r => some r
  | touch :: rest, r =>
    match GUI_Process_sample touch r with
    | some r1 => GUI_Process_while rest r1
    | none => none

/-- The conversion of the `uint32_t` count to the `int32_t` that `GUI_Process`
returns. -/
def toInt32 (n : Nat) : Int :=
  if n % 2 ^ 32 < 2 ^ 31 then (n % 2 ^ 32 : Nat) else (n % 2 ^ 32 : Nat) - 2 ^ 32

/-- What a call of `GUI_Process` hands back: the value returned, the global
object and the static variables as the call leaves them, and the callbacks and
driver requests of the call, oldest first. -/
structure Processed where
  cnt : Int
  GUI : GUI_t
  statics : GUI_Statics
  calls : List GUI_Call

/-- Lines 253–288 of `GUI_Process`: the redraw pass and the layer hand-over,
started only when no confirmation is outstanding and the pending count is not
zero. The result is `none` when `GUI.LCD.ActiveLayer` or
`GUI.LCD.DrawingLayer` is no index of `GUI.LCD.Layers`. -/
def GUI_Process_redraw (GUI : GUI_t) : Option (Int × GUI_t × List GUI_Call) :=
  if GUI.LCD.WAIT_LAYER_CONFIRM then some (0, GUI, [])
  else
    let pending := __GetNumberOfPendingWidgets GUI
    if pending.1 = 0 then some (0, pending.2, [])
    else
      let G0 := pending.2
      let active := G0.LCD.ActiveLayer
      let drawing := G0.LCD.DrawingLayer
      if active < G0.LCD.Layers.length ∧ drawing < G0.LCD.Layers.length then
        let rd := __RedrawWidgets G0
        let G1 := { rd.after with Display := { X1 := 0xFFFF, Y1 := 0xFFFF, X2 := 0, Y2 := 0 } }
        let G2 := { G1 with LCD := { G1.LCD with
                      Layers := G1.LCD.Layers.set drawing { Pending := true } } }
        let G3 := { G2 with LCD := { G2.LCD with WAIT_LAYER_CONFIRM := true } }
        let G4 := { G3 with LCD := { G3.LCD with ActiveLayer := drawing } }
        let G5 := { G4 with LCD := { G4.LCD with DrawingLayer := active } }
        some (toInt32 rd.cnt, G5,
          [GUI_Call.Copy drawing active] ++ rd.calls ++ [GUI_Call.SetActiveLayer drawing])
      else none

/-- The function `GUI_Process` (lines 215–289), called with the static
variables `st` while the touch source holds `samples`. -/
def GUI_Process (samples : List GUI_TouchData_t) (st : GUI_Statics) (GUI : GUI_t) :
    Option Processed :=
  let touchLast : GUI_TouchData_t :=
    if st.first then { X := 0, Y := 0, Status := false } else st.touchLast
  match GUI_Process_while samples { GUI := GUI, touchLast := touchLast, calls := [] } with
  | some r =>
    match GUI_Process_redraw r.GUI with
    | some (cnt, G, calls) =>
      some { cnt := cnt, GUI := G, statics := { first := false, touchLast := r.touchLast },
             calls := r.calls ++ calls }
    | none => none
  | none => none

/-- The function `GUI_LCD_ConfirmActiveLayer` (lines 291–296). The result is
`none` when `layer_num` is no index of `GUI.LCD.Layers`. -/
def GUI_LCD_ConfirmActiveLayer (layer_num : Nat) (GUI : GUI_t) : Option GUI_t :=
  if GUI.LCD.WAIT_LAYER_CONFIRM then
    if layer_num < GUI.LCD.Layers.length then
      some { GUI with LCD := { GUI.LCD with
        Layers := GUI.LCD.Layers.set layer_num { Pending := false },
        WAIT_LAYER_CONFIRM := false } }
    else none
  else some GUI

/-- A call from outside into the library after `GUI_Init`. -/
inductive GUI_Input where
  | Process (samples : List GUI_TouchData_t)
  | Confirm (layer_num : Nat)

/-- The global object together with the static variables of `GUI_Process`. -/
structure GUI_World where
  GUI : GUI_t
  statics : GUI_Statics

/-- The effect of one call from outside. -/
def GUI_World.step (W : GUI_World) : GUI_Input → Option GUI_World
  | .Process samples =>
    match GUI_Process samples W.statics W.GUI with
    | some P => some { GUI := P.GUI, statics := P.statics }
    | none => none
  | .Confirm layer_num =>
    match GUI_LCD_ConfirmActiveLayer layer_num W.GUI with
    | some G => some { GUI := G, statics := W.statics }
    | none => none

/-- The effect of a sequence of calls from outside, first call first. -/
def GUI_World.run : List GUI_Input → GUI_World → Option GUI_World
  | [], W => some W
  | i :: rest, W =>
    match W.step i with
    | some W1 => GUI_World.run rest W1
    | none => none

/-! ## `GUI_Init` (gui.c, lines 183–213) -/

/-- Result of `GUI_Init` (`GUI_Result_t`). -/
inductive GUI_Result_t where
  | guiOK
  | guiERROR
deriving DecidableEq

/-- A call of a drawing routine of the display driver through `GUI.LL`:
`Fill layer xSize ySize offLine color` is `GUI.LL.Fill` on the start address of
the layer, `SetPixel layer x y color` is `GUI.LL.SetPixel`, and
`FillRect layer x y width height color` is `GUI.LL.FillRect`. -/
inductive GUI_LL_Request where
  | Fill (layer xSize ySize offLine color : Nat)
  | SetPixel (layer : Nat) (x y : Int) (color : Nat)
  | FillRect (layer : Nat) (x y width height : Int) (color : Nat)
deriving DecidableEq

/-- The object `GUI` after `memset((void *)&GUI, 0x00, sizeof(GUI_t))`
(line 184): every number zero, every pointer null, no widget. -/
def GUI_t.zero : GUI_t :=
  { LCD := { Width := 0, Height := 0, LayersCount := 0, ActiveLayer := 0, DrawingLayer := 0,
             WAIT_LAYER_CONFIRM := false, Layers := [] },
    Display := { X1 := 0, Y1 := 0, X2 := 0, Y2 := 0 },
    WindowActive := none, FocusedWidget := none, ActiveWidget := none,
    Root := [] }

/-- The function `GUI_Init` (lines 183–213). The low-level driver
(`GUI_LL_Init` of `gui_ll.h` and the `Init` routine it installs) and the two
initialisers `__GUI_INPUT_Init` and `__GUI_WIDGET_Init` are not part of the
sources at hand and are parameters: the driver fills in the display settings,
the initialisers act on the global object. The result is `none` when the layer
whose start address line 196 or 200 reads is no index of `GUI.LCD.Layers`. -/
def GUI_Init (GUI_LL_Init LL_Init : GUI_LCD_t → GUI_LCD_t)
    (__GUI_INPUT_Init __GUI_WIDGET_Init : GUI_t → GUI_t) :
    Option (GUI_Result_t × GUI_t × List GUI_LL_Request) :=
  let G0 := GUI_t.zero
  let G1 := { G0 with LCD := LL_Init (GUI_LL_Init G0.LCD) }
  if G1.LCD.LayersCount = 1 then
    let G2 := { G1 with LCD := { G1.LCD with ActiveLayer := 0 } }
    let G3 := { G2 with LCD := { G2.LCD with DrawingLayer := 0 } }
    if G3.LCD.DrawingLayer < G3.LCD.Layers.length then
      some (.guiOK, __GUI_WIDGET_Init (__GUI_INPUT_Init G3),
        [GUI_LL_Request.Fill G3.LCD.DrawingLayer G3.LCD.Width G3.LCD.Height 0 0xFFFFFFFF])
    else none
  else if G1.LCD.LayersCount > 1 then
    let G2 := { G1 with LCD := { G1.LCD with ActiveLayer := 0 } }
    let G3 := { G2 with LCD := { G2.LCD with DrawingLayer := 0 } }
    if G3.LCD.DrawingLayer < G3.LCD.Layers.length then
      let G4 := { G3 with LCD := { G3.LCD with DrawingLayer := 1 } }
      some (.guiOK, __GUI_WIDGET_Init (__GUI_INPUT_Init G4),
        [GUI_LL_Request.Fill G3.LCD.DrawingLayer G3.LCD.Width G3.LCD.Height 0 0xFFFFFFFF])
    else none
  else
    some (.guiERROR, G1, [])

/-! ## `GUI_DRAW_SetPixel` (gui_draw.c, lines 206–213) -/

/-- The macro `GUI_USE_CLIPPING` (gui_draw.c, line 40). -/
def GUI_USE_CLIPPING : Bool := true

/-- The function `GUI_DRAW_SetPixel`, with the requests it passes to the
driver; coordinates are integers without overflow. -/
def GUI_DRAW_SetPixel (GUI : GUI_t) (disp : GUI_Display_t) (x y : Int) (color : Nat) :
    List GUI_LL_Request :=
  if GUI_USE_CLIPPING &&
      (decide (y < disp.Y1) || decide (y > disp.Y2) ||
       decide (x < disp.X1) || decide (x > disp.X2)) then
    []
  else
    [GUI_LL_Request.SetPixel GUI.LCD.DrawingLayer x y color]

/-! ## Widget memory (gui.h, lines 94–102) -/

/-- The library call `memset(p, c, n)` on a block of bytes: the first `n` bytes
become `c`. The result is `none` when `n` exceeds the block, a write past its
end. -/
def memset (block : List Nat) (c n : Nat) : Option (List Nat) :=
  if n ≤ block.length then some (List.replicate n c ++ block.drop n) else none

/-- The macro `__GUI_MEMWIDALLOC(p, size)`. `malloc size` is null (`none`) or
a block of bytes holding whatever the heap held; `sizeofSize` is the value of
`sizeof(size)`, the size of the type of the argument expression. The result is
the pointer `p` with the block it points to, inside `some`; `none` stands for
a write past the end of the block. -/
def __GUI_MEMWIDALLOC (malloc : Nat → Option (List Nat)) (sizeofSize size : Nat) :
    Option (Option (List Nat)) :=
  match malloc size with
  | some block => (memset block 0x00 sizeofSize).map some
  | none => some none

/-! ## The LED widget (widgets/gui_led.c) -/

/-- Index into the colour table of an LED (`GUI_LED_COLOR_t`), with the four
members `gui_led.c` names. -/
inductive GUI_LED_COLOR_t where
  | GUI_LED_COLOR_ON
  | GUI_LED_COLOR_OFF
  | GUI_LED_COLOR_ON_BORDER
  | GUI_LED_COLOR_OFF_BORDER
deriving DecidableEq

/-- The fields of `GUI_LED_t` behind the common part `C`, as `gui_led.c` uses
them: the colour table, the shape `Type` (a `GUI_LED_TYPE_t`, kept as its
number; `Type_` here, `Type` being reserved) and the bit `GUI_LED_FLAG_ON` of
`Flags`. -/
structure GUI_LED_t where
  Color : GUI_LED_COLOR_t → Nat
  Type_ : Nat
  ON : Bool

/-- The global object together with the LED fields of the widget memory:
`LED p` holds what `__GL(p)` reads for the handle `p`. -/
structure GUI_LED_World where
  GUI : GUI_t
  LED : Nat → GUI_LED_t

/-- The kind descriptor `Widget` of the LED (lines 49–60): a draw function, a
touch-down handler that answers `touchHANDLEDNOFOCUS` (lines 92–94), no other
handler. -/
def GUI_LED_Widget : GUI_WIDGET_t :=
  { WidgetDraw := true, TouchDown := some (fun _ => .touchHANDLEDNOFOCUS), TouchUp := false,
    TouchMove := false }

/-- The handle of the parent of the widget `p`: the nearest ancestor of the
first widget with that handle, `none` for a widget of the root list or one
that is not in the tree. -/
def GUI_t.parentOf (p : Nat) (GUI : GUI_t) : Option Nat :=
  match (Widget.walkList [] GUI.Root).find? (fun x => decide (x.2.Handle = p)) with
  | some x => x.1.head?.map (fun a => a.Handle)
  | none => none

/-- Modelled from the spec: `__GUI_WIDGET_InvalidateWithParent` of
`widgets/gui_widget.h`, which is not part of the sources at hand.
`invalidateWithParent(node)` does what `invalidate(node)` does and marks the
parent dirty too. -/
def __GUI_WIDGET_InvalidateWithParent (p : Nat) (GUI : GUI_t) : GUI_t :=
  let G1 := __GUI_WIDGET_Invalidate p GUI
  match GUI.parentOf p with
  | some q => __GUI_WIDGET_Invalidate q G1
  | none => G1

/-- The write `__GL(p)->... = ...` on the LED fields of the widget `p`. -/
def GUI_LED_World.setLED (p : Nat) (f : GUI_LED_t → GUI_LED_t) (W : GUI_LED_World) :
    GUI_LED_World :=
  { W with LED := Function.update W.LED p (f (W.LED p)) }

/-- The function `GUI_LED_Create` (lines 101–118), with the pointer it
returns. `__GUI_WIDGET_Create` is not part of the sources at hand and is a
parameter, as are the four colour constants of `gui_defs.h`. The macro
`__GUI_ASSERTACTIVEWIN` (gui.h, lines 135–140) returns `NULL` first when
`GUI.WindowActive` is null. -/
def GUI_LED_Create
    (__GUI_WIDGET_Create : GUI_WIDGET_t → Nat → Int → Int → Nat → Nat → GUI_LED_World →
      Option Nat × GUI_LED_World)
    (GUI_COLOR_LIGHTBLUE GUI_COLOR_DARKBLUE GUI_COLOR_GRAY GUI_COLOR_BLACK : Nat)
    (id : Nat) (x y : Int) (width height : Nat) (W : GUI_LED_World) :
    Option Nat × GUI_LED_World :=
  if W.GUI.WindowActive.isNone then (none, W)
  else
    match __GUI_WIDGET_Create GUI_LED_Widget id x y width height W with
    | (some ptr, W1) =>
      let W2 := W1.setLED ptr (fun l =>
        { l with Color := Function.update l.Color .GUI_LED_COLOR_ON GUI_COLOR_LIGHTBLUE })
      let W3 := W2.setLED ptr (fun l =>
        { l with Color := Function.update l.Color .GUI_LED_COLOR_OFF GUI_COLOR_DARKBLUE })
      let W4 := W3.setLED ptr (fun l =>
        { l with Color := Function.update l.Color .GUI_LED_COLOR_ON_BORDER GUI_COLOR_GRAY })
      let W5 := W4.setLED ptr (fun l =>
        { l with Color := Function.update l.Color .GUI_LED_COLOR_OFF_BORDER GUI_COLOR_BLACK })
      (some ptr, W5)
    | (none, W1) => (none, W1)

/-- The function `GUI_LED_Remove` (lines 120–127). The argument is a pointer
to a handle: `none` for a null pointer, `some none` for a pointer to a null
handle; the first part of the result is the pointer with the handle it points
to afterwards. `__GUI_WIDGET_Remove` is not part of the sources at hand and is
a parameter. The macro `__GUI_ASSERTPARAMSVOID(h && *h)` (gui.h, lines
123–128) returns first when the condition is false. -/
def GUI_LED_Remove (__GUI_WIDGET_Remove : Nat → GUI_LED_World → Option Nat × GUI_LED_World)
    (h : Option (Option Nat)) (W : GUI_LED_World) : Option (Option Nat) × GUI_LED_World :=
  match h with
  | none => (none, W)
  | some none => (some none, W)
  | some (some p) =>
    let r := __GUI_WIDGET_Remove p W
    (some r.1, r.2)

/-- The function `GUI_LED_SetColor` (lines 129–140). The macro
`__GUI_ASSERTPARAMS(h)` (gui.h, lines 113–118) returns 0 first when `h` is
null. -/
def GUI_LED_SetColor (h : Option Nat) (index : GUI_LED_COLOR_t) (color : Nat)
    (W : GUI_LED_World) : Option Nat × GUI_LED_World :=
  match h with
  | none => (none, W)
  | some p =>
    if (W.LED p).Color index ≠ color then
      let W1 := W.setLED p (fun l => { l with Color := Function.update l.Color index color })
      (some p, { W1 with GUI := __GUI_WIDGET_Invalidate p W1.GUI })
    else (some p, W)

/-- The function `GUI_LED_SetType` (lines 142–153). -/
def GUI_LED_SetType (h : Option Nat) (type : Nat) (W : GUI_LED_World) :
    Option Nat × GUI_LED_World :=
  match h with
  | none => (none, W)
  | some p =>
    if (W.LED p).Type_ ≠ type then
      let W1 := W.setLED p (fun l => { l with Type_ := type })
      (some p, { W1 with GUI := __GUI_WIDGET_InvalidateWithParent p W1.GUI })
    else (some p, W)

/-- The function `GUI_LED_Off` (lines 155–166). -/
def GUI_LED_Off (h : Option Nat) (W : GUI_LED_World) : Option Nat × GUI_LED_World :=
  match h with
  | none => (none, W)
  | some p =>
    if (W.LED p).ON then
      let W1 := W.setLED p (fun l => { l with ON := false })
      (some p, { W1 with GUI := __GUI_WIDGET_Invalidate p W1.GUI })
    else (some p, W)

/-- The function `GUI_LED_On` (lines 168–179). -/
def GUI_LED_On (h : Option Nat) (W : GUI_LED_World) : Option Nat × GUI_LED_World :=
  match h with
  | none => (none, W)
  | some p =>
    if !(W.LED p).ON then
      let W1 := W.setLED p (fun l => { l with ON := true })
      (some p, { W1 with GUI := __GUI_WIDGET_Invalidate p W1.GUI })
    else (some p, W)

/-- The function `GUI_LED_Toggle` (lines 181–190). -/
def GUI_LED_Toggle (h : Option Nat) (W : GUI_LED_World) : Option Nat × GUI_LED_World :=
  match h with
  | none => (none, W)
  | some p =>
    let W1 := W.setLED p (fun l => { l with ON := !l.ON })
    (some p, { W1 with GUI := __GUI_WIDGET_Invalidate p W1.GUI })

/-- The function `GUI_LED_Set` (lines 192–206); `state` is a `GUI_Byte`. -/
def GUI_LED_Set (h : Option Nat) (state : Nat) (W : GUI_LED_World) :
    Option Nat × GUI_LED_World :=
  match h with
  | none => (none, W)
  | some p =>
    if state ≠ 0 ∧ (W.LED p).ON = false then
      let W1 := W.setLED p (fun l => { l with ON := true })
      (some p, { W1 with GUI := __GUI_WIDGET_Invalidate p W1.GUI })
    else if state = 0 ∧ (W.LED p).ON = true then
      let W1 := W.setLED p (fun l => { l with ON := false })
      (some p, { W1 with GUI := __GUI_WIDGET_Invalidate p W1.GUI })
    else (some p, W)

/-! ## Drawing primitives (gui_draw.c) -/

/-- Modelled from the spec: the display unit `GUI_Dim_t` of `gui_defs.h`, which
is not part of the sources at hand, is an unsigned integer of 16 bits (the
clip region is reset to its maximal bound `0xFFFF`, and `GUI_DRAW_Line` keeps
coordinates in `int16_t`). `toDim v` is the value `v` converted to
`GUI_Dim_t`. -/
def toDim (v : Int) : Int := v % 65536

/-- The value `v` stored in an `int16_t`, a value out of range wrapping
around. -/
def toInt16 (v : Int) : Int := (v + 32768) % 65536 - 32768

/-- The macro `__GUI_ABS(x)` (gui.h, line 144). -/
def __GUI_ABS (x : Int) : Int := if x ≥ 0 then x else -x

/-- The function `GUI_DRAW_Fill` (gui_draw.c, lines 174–204), with the request
it passes to the driver; coordinates and sizes are integers without
overflow. -/
def GUI_DRAW_Fill (GUI : GUI_t) (disp : GUI_Display_t) (x y width height : Int)
    (color : Nat) : List GUI_LL_Request :=
  if GUI_USE_CLIPPING then
    if decide (x + width < disp.X1) || decide (y + height < disp.Y1) ||
        decide (x > disp.X2) || decide (y > disp.Y2) then
      []
    else
      let width1 := if x < disp.X1 then width - (disp.X1 - x) else width
      let x1 := if x < disp.X1 then disp.X1 else x
      let height1 := if y < disp.Y1 then height - (disp.Y1 - y) else height
      let y1 := if y < disp.Y1 then disp.Y1 else y
      let width2 := if x1 + width1 > disp.X2 then disp.X2 - x1 else width1
      let height2 := if y1 + height1 > disp.Y2 then disp.Y2 - y1 else height1
      [GUI_LL_Request.FillRect GUI.LCD.DrawingLayer x1 y1 width2 height2 color]
  else
    [GUI_LL_Request.FillRect GUI.LCD.DrawingLayer x y width height color]

/-- The body of the loop of `GUI_DRAW_Line` (lines 299–308), run `n` times
from the values `x`, `y`, `num` of the `int16_t` variables: the coordinates
passed to `GUI_DRAW_SetPixel`, in order. -/
def GUI_DRAW_Line_for (den numadd xinc1 xinc2 yinc1 yinc2 : Int) :
    Nat → Int → Int → Int → List (Int × Int)
  | 0, _, _, _ => []
  | n + 1, x, y, num =>
    let num1 := toInt16 (num + numadd)
    let num2 := if num1 ≥ den then toInt16 (num1 - den) else num1
    let xa := if num1 ≥ den then toInt16 (x + xinc1) else x
    let ya := if num1 ≥ den then toInt16 (y + yinc1) else y
    (toDim x, toDim y) ::
      GUI_DRAW_Line_for den numadd xinc1 xinc2 yinc1 yinc2 n
        (toInt16 (xa + xinc2)) (toInt16 (ya + yinc2)) num2

/-- The function `GUI_DRAW_Line` (lines 256–309): the coordinates of the calls
of `GUI_DRAW_SetPixel` it makes, in order. The end points are `GUI_Dim_t`
values; every local variable is an `int16_t`. The result is `none` when the
loop does not end, which is the case for `numpixels = 32767`, the counter
`curpixel` wrapping around before it exceeds it. -/
def GUI_DRAW_Line (x1 y1 x2 y2 : Int) : Option (List (Int × Int)) :=
  let deltax := toInt16 (__GUI_ABS (x2 - x1))
  let deltay := toInt16 (__GUI_ABS (y2 - y1))
  let x := toInt16 x1
  let y := toInt16 y1
  let xinc : Int := if x2 ≥ x1 then 1 else -1
  let yinc : Int := if y2 ≥ y1 then 1 else -1
  let xinc1 : Int := if deltax ≥ deltay then 0 else xinc
  let xinc2 : Int := if deltax ≥ deltay then xinc else 0
  let yinc1 : Int := if deltax ≥ deltay then yinc else 0
  let yinc2 : Int := if deltax ≥ deltay then 0 else yinc
  let den := if deltax ≥ deltay then deltax else deltay
  let num := if deltax ≥ deltay then toInt16 (Int.tdiv deltax 2) else toInt16 (Int.tdiv deltay 2)
  let numadd := if deltax ≥ deltay then deltay else deltax
  let numpixels := if deltax ≥ deltay then deltax else deltay
  if numpixels = 32767 then none
  else
    some (GUI_DRAW_Line_for den numadd xinc1 xinc2 yinc1 yinc2 (numpixels + 1).toNat x y num)

/-- The corner a quarter circle is drawn for (`GUI_DRAW_CIRCLE_TL` and its
siblings). -/
inductive GUI_DRAW_CIRCLE where
  | GUI_DRAW_CIRCLE_TL
  | GUI_DRAW_CIRCLE_TR
  | GUI_DRAW_CIRCLE_BL
  | GUI_DRAW_CIRCLE_BR
deriving DecidableEq

/-- A call from one drawing function of `gui_draw.c` to another, with its
arguments as `GUI_Dim_t` values: `Char x y ch` is the call of `__DRAW_Char` at
`(x, y)` for the character `ch` of the string. -/
inductive GUI_DRAW_Call where
  | HLine (x y length : Int) (color : Nat)
  | VLine (x y length : Int) (color : Nat)
  | Rectangle (x y width height : Int) (color : Nat)
  | FilledRectangle (x y width height : Int) (color : Nat)
  | CircleCorner (x y r : Int) (c : GUI_DRAW_CIRCLE) (color : Nat)
  | FilledCircleCorner (x y r : Int) (c : GUI_DRAW_CIRCLE) (color : Nat)
  | Char (x y ch : Int)
deriving DecidableEq

/-- The function `GUI_DRAW_RoundedRectangle` (lines 347–364), with the calls
it makes. -/
def GUI_DRAW_RoundedRectangle (x y width height r : Int) (color : Nat) : List GUI_DRAW_Call :=
  let r := if r ≥ height / 2 then toDim (height / 2) else r
  if r ≠ 0 then
    [.HLine (toDim (x + r)) y (toDim (width - 2 * r)) color,
     .VLine (toDim (x + width - 1)) (toDim (y + r)) (toDim (height - 2 * r)) color,
     .HLine (toDim (x + r)) (toDim (y + height - 1)) (toDim (width - 2 * r)) color,
     .VLine x (toDim (y + r)) (toDim (height - 2 * r)) color,
     .CircleCorner (toDim (x + r)) (toDim (y + r)) r .GUI_DRAW_CIRCLE_TL color,
     .CircleCorner (toDim (x + width - r - 1)) (toDim (y + r)) r .GUI_DRAW_CIRCLE_TR color,
     .CircleCorner (toDim (x + r)) (toDim (y + height - r - 1)) r .GUI_DRAW_CIRCLE_BL color,
     .CircleCorner (toDim (x + width - r - 1)) (toDim (y + height - r - 1)) r
       .GUI_DRAW_CIRCLE_BR color]
  else
    [.Rectangle x y width height color]

/-- The function `GUI_DRAW_FilledRoundedRectangle` (lines 366–382), with the
calls it makes. -/
def GUI_DRAW_FilledRoundedRectangle (x y width height r : Int) (color : Nat) :
    List GUI_DRAW_Call :=
  let r := if r ≥ height / 2 then toDim (height / 2 - 1) else r
  if r ≠ 0 then
    [.FilledRectangle (toDim (x + r)) y (toDim (width - 2 * r)) height color,
     .FilledRectangle x (toDim (y + r)) r (toDim (height - 2 * r)) color,
     .FilledRectangle (toDim (x + width - r)) (toDim (y + r)) r (toDim (height - 2 * r)) color,
     .FilledCircleCorner (toDim (x + r)) (toDim (y + r)) r .GUI_DRAW_CIRCLE_TL color,
     .FilledCircleCorner (toDim (x + width - r - 1)) (toDim (y + r)) r .GUI_DRAW_CIRCLE_TR color,
     .FilledCircleCorner (toDim (x + r)) (toDim (y + height - r - 1)) r
       .GUI_DRAW_CIRCLE_BL color,
     .FilledCircleCorner (toDim (x + width - r - 1)) (toDim (y + height - r - 1)) r
       .GUI_DRAW_CIRCLE_BR color]
  else
    [.FilledRectangle x y width height color]

/-- One entry of the character table of a font (`GUI_FONT_CharInfo_t`), as far
as `__StringWidth` and `GUI_DRAW_WriteText` read it. -/
structure GUI_FONT_CharInfo_t where
  xSize : Nat
  xMargin : Nat
deriving DecidableEq

/-- A font (`GUI_FONT_t`), as far as `__StringWidth` and `GUI_DRAW_WriteText`
read it; `Data i` is the table entry `font->Data[i]`. -/
structure GUI_FONT_t where
  Size : Nat
  StartChar : Int
  Data : Int → GUI_FONT_CharInfo_t

/-- The drawing box of a text (`GUI_DRAW_FONT_t`), as far as
`GUI_DRAW_WriteText` reads it. The four booleans are the bits
`GUI_VALIGN_CENTER`, `GUI_VALIGN_BOTTOM`, `GUI_HALIGN_CENTER` and
`GUI_HALIGN_RIGHT` of `Align`. -/
structure GUI_DRAW_FONT_t where
  X : Nat
  Y : Nat
  Width : Nat
  Height : Nat
  VALIGN_CENTER : Bool
  VALIGN_BOTTOM : Bool
  HALIGN_CENTER : Bool
  HALIGN_RIGHT : Bool
deriving DecidableEq

/-- The loop of `__StringWidth` (lines 57–61) over the characters of the
string, from the value `out` of the `GUI_Dim_t` accumulator. -/
def __StringWidth_while (font : GUI_FONT_t) : List Int → Int → Int
  | [], out => out
  | ch :: rest, out =>
    let out1 := toDim (out + (font.Data (ch - font.StartChar)).xSize)
    let out2 := toDim (out1 + (font.Data (ch - font.StartChar)).xMargin)
    __StringWidth_while font rest out2

/-- The function `__StringWidth` (lines 55–64); a string is the list of its
characters before the terminating zero. -/
def __StringWidth (font : GUI_FONT_t) (str : List Int) : Int :=
  __StringWidth_while font str 0

/-- What `GUI_DRAW_WriteText` has done when it returns: the calls of
`__DRAW_Char` in order, and the value of the counter `w`. -/
structure GUI_DRAW_Written where
  calls : List GUI_DRAW_Call
  w : Int

/-- The loop of `GUI_DRAW_WriteText` (lines 546–558) over the characters of
the string, from the values `x` and `w` of the `GUI_Dim_t` variables. -/
def GUI_DRAW_WriteText_while (font : GUI_FONT_t) (y : Int) :
    List Int → Int → Int → GUI_DRAW_Written
  | [], _, w => { calls := [], w := w }
  | ch :: rest, x, w =>
    let c := font.Data (ch - font.StartChar)
    if w < (c.xSize : Int) + c.xMargin then { calls := [], w := w }
    else
      let r := GUI_DRAW_WriteText_while font y rest
        (toDim (x + ((c.xSize : Int) + c.xMargin))) (toDim (w - ((c.xSize : Int) + c.xMargin)))
      { calls := GUI_DRAW_Call.Char x y ch :: r.calls, w := r.w }

/-- The function `GUI_DRAW_WriteText` (lines 521–559). -/
def GUI_DRAW_WriteText (font : GUI_FONT_t) (str : List Int) (draw : GUI_DRAW_FONT_t) :
    GUI_DRAW_Written :=
  let w := __StringWidth font str
  let w := if w > draw.Width then (draw.Width : Int) else w
  let x : Int := draw.X
  let y : Int := draw.Y
  let y :=
    if draw.VALIGN_CENTER then toDim (y + Int.tdiv ((draw.Height : Int) - font.Size) 2)
    else if draw.VALIGN_BOTTOM then toDim (y + ((draw.Height : Int) - font.Size))
    else y
  let x :=
    if draw.HALIGN_CENTER then toDim (x + Int.tdiv ((draw.Width : Int) - w) 2)
    else if draw.HALIGN_RIGHT then toDim (x + ((draw.Width : Int) - w))
    else x
  GUI_DRAW_WriteText_while font y str x w

/-! ## Auxiliary notions for the statements -/

/-- The offsets `(X, Y)` of a chain of ancestors. -/
def GUI_HANDLE.offsets (anc : List GUI_HANDLE) : List (Int × Int) :=
  anc.map (fun a => (a.X, a.Y))

mutual
/-- No container in the widget or below it has `GUI_FLAG_REDRAW` set. -/
def Widget.containersClean : Widget → Bool
  | .leaf _ => true
  | .container h cs => !h.Flags.REDRAW && Widget.containersCleanList cs
/-- No container in the child list or below it has `GUI_FLAG_REDRAW` set. -/
def Widget.containersCleanList : List Widget → Bool
  | [] => true
  | w :: rest => Widget.containersClean w && Widget.containersCleanList rest
end

mutual
/-- The widget with `GUI_FLAG_REDRAW` set on it and on everything below it. -/
def Widget.setREDRAWAll : Widget → Widget
  | .leaf h => .leaf h.setREDRAW
  | .container h cs => .container h.setREDRAW (Widget.setREDRAWAllList cs)
/-- The child list with `GUI_FLAG_REDRAW` set on every widget in it and below. -/
def Widget.setREDRAWAllList : List Widget → List Widget
  | [] => []
  | w :: rest => Widget.setREDRAWAll w :: Widget.setREDRAWAllList rest
end

/-- The draw call of a widget found by `Widget.walk`, when its kind has a draw
callback and its bounding rectangle intersects the clip region. -/
def drawCallOf (disp : GUI_Display_t) (x : List GUI_HANDLE × GUI_HANDLE) : Option GUI_Call :=
  if x.2.Widget.WidgetDraw &&
      __GUI_WIDGET_IsInsideClippingRegion disp (GUI_HANDLE.offsets x.1) x.2 then
    some (GUI_Call.WidgetDraw x.2.Handle)
  else none

/-- A widget is due in a redraw pass when `GUI_FLAG_REDRAW` is set on it or on
one of its ancestors. -/
def dueForRedraw (x : List GUI_HANDLE × GUI_HANDLE) : Bool :=
  x.2.Flags.REDRAW || x.1.any (fun a => a.Flags.REDRAW)

/-- The touch point lies in the rectangle that starts at the absolute position
of the widget (its own offset plus the offsets of all its ancestors) and spans
its width and height, bounds included. -/
def hitByTouch (touch : GUI_TouchData_t) (x : List GUI_HANDLE × GUI_HANDLE) : Bool :=
  decide (x.2.X + (x.1.map (fun a => a.X)).sum ≤ touch.X ∧
    touch.X ≤ x.2.X + (x.1.map (fun a => a.X)).sum + x.2.Width ∧
    x.2.Y + (x.1.map (fun a => a.Y)).sum ≤ touch.Y ∧
    touch.Y ≤ x.2.Y + (x.1.map (fun a => a.Y)).sum + x.2.Height)

/-- The handler a touch edge invokes on a hit widget, if the kind has it:
touch-down for a pressed sample, touch-up for a released one. -/
def touchCallOf (touch : GUI_TouchData_t) (x : List GUI_HANDLE × GUI_HANDLE) :
    Option GUI_Call :=
  if touch.Status then
    if x.2.Widget.TouchDown.isSome then some (GUI_Call.TouchDown x.2.Handle) else none
  else
    if x.2.Widget.TouchUp then some (GUI_Call.TouchUp x.2.Handle) else none

mutual
/-- The headers of a widget and of every widget below it, a container before
its children. -/
def Widget.hdrs : Widget → List GUI_HANDLE
  | .leaf h => [h]
  | .container h cs => h :: Widget.hdrsList cs
/-- The headers of the widgets of a child list and below, first child first. -/
def Widget.hdrsList : List Widget → List GUI_HANDLE
  | [] => []
  | w :: rest => Widget.hdrs w ++ Widget.hdrsList rest
end

/-- A callback of the touch dispatch, as opposed to a draw callback or a
request to the display driver. -/
def GUI_Call.isTouch : GUI_Call → Bool
  | .TouchDown _ => true
  | .TouchUp _ => true
  | .TouchMove _ => true
  | _ => false

/-- The global object after the branch of lines 130–140 for the hit widget
`p`: focus moved on from the active widget, `p` active, moved to the end of
its child list, flagged active and invalidated. -/
def touchHandledGUI (p : Nat) (GUI : GUI_t) : GUI_t :=
  let G1 := ProcessTouch_unfocus GUI
  __GUI_WIDGET_Invalidate p
    ((__GUI_LINKEDLIST_MoveDown_Widget p
        { G1 with FocusedWidget := G1.ActiveWidget, ActiveWidget := some p }).setFlags p
      (fun fl => { fl with ACTIVE := true }))

/-- The global object after the branch of lines 141–152, when it does not
write through a null pointer. -/
def touchNoFocusGUI (GUI : GUI_t) : GUI_t :=
  { ProcessTouch_unfocus GUI with FocusedWidget := none, ActiveWidget := none }

/-- The global object after lines 160–164 for the hit widget `p`. -/
def touchUpGUI (p : Nat) (GUI : GUI_t) : GUI_t :=
  if GUI.ActiveWidget = some p then
    { __GUI_WIDGET_Invalidate p (GUI.setFlags p (fun fl => { fl with ACTIVE := false })) with
      ActiveWidget := none }
  else GUI

/-- The header of a widget after `h->Flags &= ~GUI_FLAG_ACTIVE` and the
invalidation that follows it. -/
def GUI_HANDLE.released (y : GUI_HANDLE) : GUI_HANDLE :=
  { y with Flags := { y.Flags with ACTIVE := false, REDRAW := true } }

/-- The header of a widget after the branch of lines 130–140 for the hit
widget `p`, `focused` being `GUI.FocusedWidget` before: the focused widget has
lost `GUI_FLAG_FOCUS` and is invalidated, `p` is flagged active and
invalidated. -/
def GUI_HANDLE.handled (p : Nat) (focused : Option Nat) (y : GUI_HANDLE) : GUI_HANDLE :=
  { y with Flags :=
      { REDRAW := y.Flags.REDRAW || decide (y.Handle = p) || decide (focused = some y.Handle),
        ACTIVE := y.Flags.ACTIVE || decide (y.Handle = p),
        FOCUS := y.Flags.FOCUS && !decide (focused = some y.Handle) } }

mutual
/-- Below this widget, a widget with the handle `p` is the last of the child
list that holds it. -/
def Widget.heldLast (p : Nat) : Widget → Bool
  | .leaf _ => true
  | .container _ cs => Widget.heldLastList p cs
/-- In this child list and below, a widget with the handle `p` is the last of
the child list that holds it. -/
def Widget.heldLastList (p : Nat) : List Widget → Bool
  | [] => true
  | w :: rest =>
    (decide (w.hdr.Handle ≠ p) || rest.isEmpty) && Widget.heldLast p w &&
      Widget.heldLastList p rest
end

/-- From the state `G` to the state `G1` the display settings are untouched
and no widget has lost `GUI_FLAG_REDRAW`: a widget that carried the flag in
`G` has a widget with its handle in `G1` that carries it. -/
def GUI_t.keepsRedraw (G G1 : GUI_t) : Prop :=
  G1.LCD = G.LCD ∧
  ∀ y ∈ Widget.hdrsList G.Root, y.Flags.REDRAW = true →
    ∃ y1 ∈ Widget.hdrsList G1.Root, y1.Handle = y.Handle ∧ y1.Flags.REDRAW = true

/-- The flags and the pointers of the state agree: no widget is focused and
none carries `GUI_FLAG_FOCUS`, a widget that carries `GUI_FLAG_ACTIVE` is the
one `GUI.ActiveWidget` points to, and no two widgets share a handle. -/
def GUI_t.consistent (G : GUI_t) : Prop :=
  G.FocusedWidget = none ∧
  (∀ y ∈ Widget.hdrsList G.Root, y.Flags.FOCUS = false) ∧
  (∀ y ∈ Widget.hdrsList G.Root, y.Flags.ACTIVE = true → G.ActiveWidget = some y.Handle) ∧
  ((Widget.hdrsList G.Root).map (fun y => y.Handle)).Nodup

/-- A state as `GUI_Init` and the creation of the widgets leave it, before the
first call of `GUI_Process`: the active and the focused pointer are null, no
widget carries `GUI_FLAG_ACTIVE` or `GUI_FLAG_FOCUS`, and the widgets are
distinct objects. -/
def GUI_World.initial (W : GUI_World) : Prop :=
  W.statics.first = true ∧
  W.GUI.ActiveWidget = none ∧ W.GUI.FocusedWidget = none ∧
  (∀ y ∈ Widget.hdrsList W.GUI.Root, y.Flags.ACTIVE = false ∧ y.Flags.FOCUS = false) ∧
  ((Widget.hdrsList W.GUI.Root).map (fun y => y.Handle)).Nodup

mutual
/-- The number of widgets without a child list, in a widget and below, that
are due in a redraw pass: `GUI_FLAG_REDRAW` is set on the widget or on one of
its ancestors (`force` says that it is on an ancestor). -/
def Widget.dueLeaves (force : Bool) : Widget → Nat
  | .leaf h => if force || h.Flags.REDRAW then 1 else 0
  | .container h cs => Widget.dueLeavesList (force || h.Flags.REDRAW) cs
/-- The number of due widgets without a child list in a child list and below. -/
def Widget.dueLeavesList (force : Bool) : List Widget → Nat
  | [] => 0
  | w :: rest => Widget.dueLeaves force w + Widget.dueLeavesList force rest
end

/-- An invocation of a draw callback. -/
def GUI_Call.isWidgetDraw : GUI_Call → Bool
  | .WidgetDraw _ => true
  | _ => false

/-- A request to the driver to change the active layer. -/
def GUI_Call.isSetActiveLayer : GUI_Call → Bool
  | .SetActiveLayer _ => true
  | _ => false

/-- A layer copy by the driver. -/
def GUI_Call.isCopy : GUI_Call → Bool
  | .Copy _ _ => true
  | _ => false

/-- The call of `GUI_Process` has performed a redraw pass: the block of lines
254–286 starts with the layer copy of line 260, which nothing else issues. -/
def Processed.passed (P : Processed) : Bool :=
  P.calls.any GUI_Call.isCopy

/-- The value of the static `touchLast` when the loop of `GUI_Process` starts
(lines 221–225). -/
def GUI_Statics.start (st : GUI_Statics) : GUI_TouchData_t :=
  if st.first then { X := 0, Y := 0, Status := false } else st.touchLast

/-- The pixel `(px, py)` is among those a driver request draws: the one pixel
of `SetPixel`, the columns `x .. x + width - 1` and rows `y .. y + height - 1`
of `FillRect`, and the first `xSize` columns and `ySize` rows of `Fill`. -/
def GUI_LL_Request.covers (px py : Int) : GUI_LL_Request → Bool
  | .SetPixel _ x y _ => decide (px = x ∧ py = y)
  | .FillRect _ x y width height _ =>
    decide (x ≤ px ∧ px < x + width ∧ y ≤ py ∧ py < y + height)
  | .Fill _ xSize ySize _ _ => decide (0 ≤ px ∧ px < xSize ∧ 0 ≤ py ∧ py < ySize)

/-- The advance of a character: `xSize + xMargin` of its table entry. -/
def GUI_FONT_t.advance (font : GUI_FONT_t) (ch : Int) : Nat :=
  (font.Data (ch - font.StartChar)).xSize + (font.Data (ch - font.StartChar)).xMargin

/-- The character a call of `__DRAW_Char` draws. -/
def GUI_DRAW_Call.char : GUI_DRAW_Call → Option Int
  | .Char _ _ ch => some ch
  | _ => none

/-- The radius a call draws a quarter circle with. -/
def GUI_DRAW_Call.radius : GUI_DRAW_Call → Option Int
  | .CircleCorner _ _ r _ _ => some r
  | .FilledCircleCorner _ _ r _ _ => some r
  | _ => none

/-- The number of rounds, among the first `i` of the loop of `GUI_DRAW_Line`,
in which the error term `num` has reached `den`. -/
def lineCarries (den numadd : Int) (i : Nat) : Int :=
  (den / 2 + i * numadd) / den

/-- The error term `num` of the loop of `GUI_DRAW_Line` after `i` rounds. -/
def lineNum (den numadd : Int) (i : Nat) : Int :=
  (den / 2 + i * numadd) % den

/-! ## Sample widgets -/

/-- A kind with a draw callback and no touch handlers. -/
def sampleKind : GUI_WIDGET_t :=
  { WidgetDraw := true, TouchDown := none, TouchUp := false, TouchMove := false }

/-- A widget header of `sampleKind` at the given place. -/
def sampleHandle (p : Nat) (x y : Int) (w h : Nat) (redraw : Bool) : GUI_HANDLE :=
  { Handle := p, Id := p, X := x, Y := y, Width := w, Height := h,
    Flags := { REDRAW := redraw, ACTIVE := false, FOCUS := false }, Widget := sampleKind }

/-- A global state with the given root list and the clip region
`(0, 0)–(100, 100)`. -/
def sampleGUI (root : List Widget) : GUI_t :=
  { LCD := { Width := 480, Height := 272, LayersCount := 2, ActiveLayer := 0,
             DrawingLayer := 1, WAIT_LAYER_CONFIRM := false,
             Layers := [{ Pending := false }, { Pending := false }] },
    Display := { X1 := 0, Y1 := 0, X2 := 100, Y2 := 100 },
    WindowActive := none, FocusedWidget := none, ActiveWidget := none,
    Root := root }

/-- A window with `GUI_FLAG_REDRAW` set that holds two clean leaves. -/
def sampleDirtyWindow : Widget :=
  .container (sampleHandle 1 0 0 50 50 true)
    [.leaf (sampleHandle 2 5 5 10 10 false), .leaf (sampleHandle 3 20 5 10 10 false)]

/-- A window with `GUI_FLAG_REDRAW` clear that holds a panel and a leaf, the
panel holding one more leaf; none of them has the flag set. -/
def sampleNested : List Widget :=
  [.container (sampleHandle 2 10 10 30 30 false) [.leaf (sampleHandle 3 2 2 5 5 false)],
   .leaf (sampleHandle 4 200 200 5 5 false)]

/-- A kind with touch-down and touch-up handlers, the touch-down handler
answering every sample with `status`. -/
def sampleTouchKind (status : __GUI_TouchStatus_t) : GUI_WIDGET_t :=
  { WidgetDraw := true, TouchDown := some (fun _ => status), TouchUp := true,
    TouchMove := false }

/-- A widget header of `sampleTouchKind status` at the given place. -/
def sampleTouchHandle (p : Nat) (x y : Int) (w h : Nat) (status : __GUI_TouchStatus_t) :
    GUI_HANDLE :=
  { Handle := p, Id := p, X := x, Y := y, Width := w, Height := h,
    Flags := { REDRAW := false, ACTIVE := false, FOCUS := false },
    Widget := sampleTouchKind status }

/-- A window at `(10, 10)` holding a leaf at the relative place `(2, 2)` of
size `5 × 5`, next to a leaf at `(200, 200)`; every touch-down handler
answers `touchCONTINUE`. -/
def sampleTouchTree : List Widget :=
  [.container (sampleTouchHandle 1 10 10 30 30 .touchCONTINUE)
     [.leaf (sampleTouchHandle 2 2 2 5 5 .touchCONTINUE)],
   .leaf (sampleTouchHandle 3 200 200 5 5 .touchCONTINUE)]

/-- Three overlapping sibling leaves `A < B < C`: the handler of `C` answers
`touchCONTINUE`, those of `B` and `A` answer `touchHANDLED`. -/
def sampleA : GUI_HANDLE := sampleTouchHandle 11 0 0 20 20 .touchHANDLED

/-- The middle sibling of the three overlapping leaves. -/
def sampleB : GUI_HANDLE := sampleTouchHandle 12 5 5 20 20 .touchHANDLED

/-- The topmost sibling of the three overlapping leaves. -/
def sampleC : GUI_HANDLE := sampleTouchHandle 13 10 10 20 20 .touchCONTINUE

/-- A pressed sample at `(12, 12)`. -/
def samplePressed : GUI_TouchData_t := { X := 12, Y := 12, Status := true }

/-- A released sample at `(12, 12)`. -/
def sampleReleased : GUI_TouchData_t := { X := 12, Y := 12, Status := false }

/-- A window at the origin whose touch-down handler answers `touchHANDLED`. -/
def sampleWindowP : GUI_HANDLE := sampleTouchHandle 20 0 0 40 40 .touchHANDLED

/-- A child of `sampleWindowP` that contains the point `(12, 12)` and answers
`touchHANDLED`. -/
def sampleChildC : GUI_HANDLE := sampleTouchHandle 21 5 5 20 20 .touchHANDLED

/-- A later child of `sampleWindowP` that contains the point `(12, 12)` and
answers `touchCONTINUE`. -/
def sampleChildPost : GUI_HANDLE := sampleTouchHandle 22 10 10 10 10 .touchCONTINUE

/-- An earlier child of `sampleWindowP` that answers `touchHANDLED`. -/
def sampleChildPre : GUI_HANDLE := sampleTouchHandle 23 0 0 30 30 .touchHANDLED

/-- A widget away from the point `(12, 12)` that carries `GUI_FLAG_ACTIVE`. -/
def sampleActive : GUI_HANDLE :=
  { Handle := 31, Id := 31, X := 100, Y := 100, Width := 10, Height := 10,
    Flags := { REDRAW := false, ACTIVE := true, FOCUS := false },
    Widget := { WidgetDraw := true, TouchDown := some (fun _ => .touchCONTINUE),
                TouchUp := true, TouchMove := true } }

/-- A leaf at `(5, 5)` of size `20 × 20` whose touch-down handler answers
`touchHANDLEDNOFOCUS`, as the handler of the LED widget does. -/
def sampleLed : GUI_HANDLE := sampleTouchHandle 32 5 5 20 20 .touchHANDLEDNOFOCUS

/-- A state with the active widget `sampleActive`, no focused widget, and the
given widgets after `sampleActive` in the root list. -/
def sampleActiveGUI (rest : List Widget) : GUI_t :=
  { sampleGUI (.leaf sampleActive :: rest) with ActiveWidget := some 31 }

/-- A widget away from the point `(12, 12)` that carries `GUI_FLAG_FOCUS`. -/
def sampleFocused : GUI_HANDLE :=
  { Handle := 41, Id := 41, X := 100, Y := 100, Width := 10, Height := 10,
    Flags := { REDRAW := false, ACTIVE := false, FOCUS := true },
    Widget := sampleTouchKind .touchCONTINUE }

/-- A state with the focused widget `sampleFocused`, no active widget, and the
three overlapping leaves after it in the root list. -/
def sampleFocusedGUI : GUI_t :=
  { sampleGUI [.leaf sampleFocused, .leaf sampleA, .leaf sampleB, .leaf sampleC] with
    FocusedWidget := some 41 }

/-- The static variables of `GUI_Process` before its first call. -/
def sampleStatics : GUI_Statics :=
  { first := true, touchLast := { X := 0, Y := 0, Status := false } }

/-- The leaf `sampleB` with `GUI_FLAG_REDRAW` set. -/
def sampleDirtyB : GUI_HANDLE := sampleB.setREDRAW

/-- A state with one dirty leaf in which a swap confirmation is outstanding. -/
def sampleWaitGUI : GUI_t :=
  { sampleGUI [.leaf sampleDirtyB] with
    LCD := { (sampleGUI []).LCD with WAIT_LAYER_CONFIRM := true } }

/-- What `GUI_Process` hands back for a pressed sample in `sampleWaitGUI`. -/
def sampleWaitProcessed : Processed :=
  match GUI_Process [samplePressed] sampleStatics sampleWaitGUI with
  | some P => P
  | none => { cnt := 0, GUI := sampleWaitGUI, statics := sampleStatics, calls := [] }

/-- What the first call of `GUI_Process` hands back in a state with one dirty
leaf and no sample queued: a redraw pass has run. -/
def samplePassProcessed : Processed :=
  match GUI_Process [] sampleStatics (sampleGUI [.leaf sampleDirtyB]) with
  | some P => P
  | none => { cnt := 0, GUI := sampleGUI [], statics := sampleStatics, calls := [] }

/-- The three overlapping leaves before the first call of `GUI_Process`. -/
def sampleWorld : GUI_World :=
  { GUI := sampleGUI [.leaf sampleA, .leaf sampleB, .leaf sampleC], statics := sampleStatics }

/-- The calls of a press, a drag and a confirmation. -/
def sampleInputs : List GUI_Input :=
  [.Process [samplePressed], .Process [samplePressed], .Confirm 1]

/-- The state `sampleInputs` lead to from `sampleWorld`. -/
def sampleWorldAfter : GUI_World :=
  match GUI_World.run sampleInputs sampleWorld with
  | some W => W
  | none => sampleWorld

/-- A driver that reports a display of two layers. -/
def sampleDriver (lcd : GUI_LCD_t) : GUI_LCD_t :=
  { lcd with Width := 480, Height := 272, LayersCount := 2,
             Layers := [{ Pending := false }, { Pending := false }] }

/-- The LED fields of a round LED that is off. -/
def sampleLedFields : GUI_LED_t :=
  { Color := fun _ => 0, Type_ := 1, ON := false }

/-- A state without an active window, the widget memory holding
`sampleLedFields` everywhere. -/
def sampleLedWorld : GUI_LED_World :=
  { GUI := sampleGUI [], LED := fun _ => sampleLedFields }

/-- A widget factory that always allocates: it appends a leaf with the handle
50 to the root list and returns its address. -/
def sampleCreate (kind : GUI_WIDGET_t) (id : Nat) (x y : Int) (width height : Nat)
    (W : GUI_LED_World) : Option Nat × GUI_LED_World :=
  (some 50,
   { W with GUI := { W.GUI with Root := W.GUI.Root ++
       [.leaf { Handle := 50, Id := id, X := x, Y := y, Width := width, Height := height,
                Flags := { REDRAW := true, ACTIVE := false, FOCUS := false },
                Widget := kind }] } })

/-- An allocator whose blocks hold the byte `0xAA` everywhere. -/
def sampleMalloc (size : Nat) : Option (List Nat) :=
  some (List.replicate size 0xAA)

/-- What the first call of `GUI_Process` hands back for `sampleDirtyWindow`
with no sample queued. -/
def sampleWindowProcessed : Processed :=
  match GUI_Process [] sampleStatics (sampleGUI [sampleDirtyWindow]) with
  | some P => P
  | none => { cnt := 0, GUI := sampleGUI [], statics := sampleStatics, calls := [] }

/-- The state the loop of `GUI_Process` reaches from `sampleWorldAfter` after a
released sample. -/
def sampleReleasedRun : ProcessRun :=
  match GUI_Process_while [sampleReleased]
      { GUI := sampleWorldAfter.GUI, touchLast := sampleWorldAfter.statics.start,
        calls := [] } with
  | some r => r
  | none => { GUI := sampleWorldAfter.GUI, touchLast := sampleWorldAfter.statics.start,
              calls := [] }

/-- A font whose characters are all 255 wide with a margin of 255. -/
def sampleWideFont : GUI_FONT_t :=
  { Size := 8, StartChar := 32, Data := fun _ => { xSize := 255, xMargin := 255 } }

/-- A font whose characters are all 6 wide with a margin of 2. -/
def sampleFont : GUI_FONT_t :=
  { Size := 8, StartChar := 32, Data := fun _ => { xSize := 6, xMargin := 2 } }

/-- A drawing box at `(10, 20)` of the given width, 16 high, aligned to the
top left. -/
def sampleBox (width : Nat) : GUI_DRAW_FONT_t :=
  { X := 10, Y := 20, Width := width, Height := 16, VALIGN_CENTER := false,
    VALIGN_BOTTOM := false, HALIGN_CENTER := false, HALIGN_RIGHT := false }

/-! ## Induction over the widget tree -/

/-- Simultaneous induction over a widget and a child list. -/
theorem Widget.induct {P : Widget → Prop} {Q : List Widget → Prop}
    (hleaf : ∀ h, P (.leaf h))
    (hcont : ∀ h cs, Q cs → P (.container h cs))
    (hnil : Q [])
    (hcons : ∀ w rest, P w → Q rest → Q (w :: rest)) :
    (∀ w, P w) ∧ (∀ l, Q l) :=
  ⟨fun w => @Widget.rec P Q hleaf hcont hnil hcons w,
   fun l => @Widget.rec_1 P Q hleaf hcont hnil hcons l⟩

/-! ## The pending count -/

theorem pending_after :
    (∀ w, (__GetNumberOfPendingWidgets_h w).2 = w) ∧
    (∀ l, ∀ cnt, (__GetNumberOfPendingWidgets_for cnt l).2 = l) := by
  apply Widget.induct
  · intro h
    simp [__GetNumberOfPendingWidgets_h]
  · intro h cs ih
    unfold __GetNumberOfPendingWidgets_h
    split
    · rfl
    · simp [ih 0]
  · intro cnt
    simp [__GetNumberOfPendingWidgets_for]
  · intro w rest ihw ihl cnt
    simp [__GetNumberOfPendingWidgets_for, ihw, ihl]

theorem pending_for_append (l1 l2 : List Widget) : ∀ cnt,
    (__GetNumberOfPendingWidgets_for cnt (l1 ++ l2)).1 =
      (__GetNumberOfPendingWidgets_for (__GetNumberOfPendingWidgets_for cnt l1).1 l2).1 := by
  induction l1 with
  | nil => intro cnt; simp [__GetNumberOfPendingWidgets_for]
  | cons w rest ih => intro cnt; simp [__GetNumberOfPendingWidgets_for, ih]

/-- C1: `__GetNumberOfPendingWidgets` is a pure query. Called on NULL it leaves
the global state (every flag, the child order, the root state) as it was, and
called on any widget it leaves that widget and everything below it as it was;
a second call therefore returns the value of the first. -/
theorem C1_pending_count_is_read_only (GUI : GUI_t) (w : Widget) :
    (__GetNumberOfPendingWidgets GUI).2 = GUI ∧
    (__GetNumberOfPendingWidgets_h w).2 = w ∧
    (__GetNumberOfPendingWidgets (__GetNumberOfPendingWidgets GUI).2).1 =
      (__GetNumberOfPendingWidgets GUI).1 ∧
    (__GetNumberOfPendingWidgets_h (__GetNumberOfPendingWidgets_h w).2).1 =
      (__GetNumberOfPendingWidgets_h w).1 := by
  have hG : (__GetNumberOfPendingWidgets GUI).2 = GUI := by
    simp [__GetNumberOfPendingWidgets, pending_after.2]
  have hw : (__GetNumberOfPendingWidgets_h w).2 = w := pending_after.1 w
  exact ⟨hG, hw, by rw [hG], by rw [hw]⟩

/-- C3: a container with `GUI_FLAG_REDRAW` set counts as exactly 1, whatever
its children are and whatever flags they carry: the call on it returns 1, and
in the loop over any sibling list it adds 1 to the counter that the siblings
before it have reached. -/
theorem C3_dirty_container_counts_one (h : GUI_HANDLE) (cs pre post : List Widget) (cnt : Nat)
    (hR : h.Flags.REDRAW = true) :
    (__GetNumberOfPendingWidgets_h (.container h cs)).1 = 1 ∧
    (__GetNumberOfPendingWidgets_for cnt (pre ++ Widget.container h cs :: post)).1 =
      (__GetNumberOfPendingWidgets_for
        (((__GetNumberOfPendingWidgets_for cnt pre).1 + 1) % 2 ^ 32) post).1 := by
  have h1 : (__GetNumberOfPendingWidgets_h (.container h cs)).1 = 1 := by
    simp [__GetNumberOfPendingWidgets_h, hR]
  refine ⟨h1, ?_⟩
  rw [pending_for_append]
  simp [__GetNumberOfPendingWidgets_for, h1]

theorem C3_dirty_container_counts_one_witness :
    (sampleHandle 1 0 0 50 50 true).Flags.REDRAW = true ∧
    ((__GetNumberOfPendingWidgets_h
        (.container (sampleHandle 1 0 0 50 50 true) [.leaf (sampleHandle 2 5 5 10 10 true)])).1 = 1 ∧
     (__GetNumberOfPendingWidgets_for 0
        ([.leaf (sampleHandle 4 0 0 1 1 true)] ++
          Widget.container (sampleHandle 1 0 0 50 50 true)
            [.leaf (sampleHandle 2 5 5 10 10 true)] :: [])).1 =
      (__GetNumberOfPendingWidgets_for
        (((__GetNumberOfPendingWidgets_for 0 [.leaf (sampleHandle 4 0 0 1 1 true)]).1 + 1)
          % 2 ^ 32) []).1) :=
  ⟨rfl, C3_dirty_container_counts_one (sampleHandle 1 0 0 50 50 true)
    [.leaf (sampleHandle 2 5 5 10 10 true)] [.leaf (sampleHandle 4 0 0 1 1 true)] [] 0 rfl⟩

/-! ## The redraw pass -/

/-- The claim C2 fails on a window with `GUI_FLAG_REDRAW` set that holds two
leaves: the pending count is 1, the redraw pass counts 2. -/
theorem C2_counterexample :
    (__GetNumberOfPendingWidgets (sampleGUI [sampleDirtyWindow])).1 = 1 ∧
    (__RedrawWidgets (sampleGUI [sampleDirtyWindow])).cnt = 2 ∧
    ¬ ((__GetNumberOfPendingWidgets (sampleGUI [sampleDirtyWindow])).1 =
        (__RedrawWidgets (sampleGUI [sampleDirtyWindow])).cnt) := by
  decide

theorem pending_eq_redraw_of_clean :
    (∀ w, Widget.containersClean w = true → ∀ disp anc,
      (__RedrawWidgets_h disp anc false w).cnt = (__GetNumberOfPendingWidgets_h w).1) ∧
    (∀ l, Widget.containersCleanList l = true → ∀ disp anc cnt,
      (__RedrawWidgets_for disp anc false cnt l).cnt =
        (__GetNumberOfPendingWidgets_for cnt l).1) := by
  apply Widget.induct
  · intro h _ disp anc
    unfold __RedrawWidgets_h __GetNumberOfPendingWidgets_h
    by_cases hR : h.Flags.REDRAW = true <;> simp [hR]
  · intro h cs ih hc disp anc
    simp only [Widget.containersClean, Bool.and_eq_true, Bool.not_eq_true'] at hc
    unfold __RedrawWidgets_h __GetNumberOfPendingWidgets_h
    simp [hc.1, ih hc.2]
  · intro _ disp anc cnt
    simp [__RedrawWidgets_for, __GetNumberOfPendingWidgets_for]
  · intro w rest ihw ihl hc disp anc cnt
    simp only [Widget.containersCleanList, Bool.and_eq_true] at hc
    simp [__RedrawWidgets_for, __GetNumberOfPendingWidgets_for, ihw hc.1, ihl hc.2]

/-- C2, amended: when no container of the tree has `GUI_FLAG_REDRAW` set, the
value `__GetNumberOfPendingWidgets(NULL)` returns equals the count that
`__RedrawWidgets(NULL)` returns on the same tree. -/
theorem C2_pending_count_eq_redraw_count (GUI : GUI_t)
    (hclean : Widget.containersCleanList GUI.Root = true) :
    (__GetNumberOfPendingWidgets GUI).1 = (__RedrawWidgets GUI).cnt := by
  simp [__GetNumberOfPendingWidgets, __RedrawWidgets,
    pending_eq_redraw_of_clean.2 GUI.Root hclean]

theorem C2_pending_count_eq_redraw_count_witness :
    Widget.containersCleanList
      (sampleGUI [.container (sampleHandle 1 0 0 50 50 false)
        [.leaf (sampleHandle 2 5 5 10 10 true), .leaf (sampleHandle 3 20 5 10 10 false)]]).Root
      = true ∧
    (__GetNumberOfPendingWidgets (sampleGUI [.container (sampleHandle 1 0 0 50 50 false)
        [.leaf (sampleHandle 2 5 5 10 10 true), .leaf (sampleHandle 3 20 5 10 10 false)]])).1 =
      (__RedrawWidgets (sampleGUI [.container (sampleHandle 1 0 0 50 50 false)
        [.leaf (sampleHandle 2 5 5 10 10 true), .leaf (sampleHandle 3 20 5 10 10 false)]])).cnt :=
  ⟨rfl, C2_pending_count_eq_redraw_count _ rfl⟩

theorem RedrawWidgets_draw_eq (disp : GUI_Display_t) (chain : List GUI_HANDLE) (h : GUI_HANDLE) :
    RedrawWidgets_draw disp (GUI_HANDLE.offsets chain) h = (drawCallOf disp (chain, h)).toList := by
  unfold RedrawWidgets_draw drawCallOf
  split <;> rfl

theorem RedrawWidgets_draw_setREDRAW (disp : GUI_Display_t) (anc : List (Int × Int))
    (h : GUI_HANDLE) :
    RedrawWidgets_draw disp anc h.setREDRAW = RedrawWidgets_draw disp anc h := rfl

theorem RedrawWidgets_h_force (disp : GUI_Display_t) (anc : List (Int × Int)) (w : Widget) :
    __RedrawWidgets_h disp anc true w = __RedrawWidgets_h disp anc false w.setREDRAW := by
  cases w with
  | leaf h => simp [__RedrawWidgets_h, Widget.setREDRAW]
  | container h cs =>
    simp only [__RedrawWidgets_h, Widget.setREDRAW]
    rfl

/-- The two loops of a redrawn parent in sequence (lines 79–81, then 88–100)
are the loop run with `force` set. -/
theorem RedrawWidgets_for_force (disp : GUI_Display_t) (anc : List (Int × Int))
    (l : List Widget) : ∀ cnt,
    __RedrawWidgets_for disp anc true cnt l =
      __RedrawWidgets_for disp anc false cnt (l.map Widget.setREDRAW) := by
  induction l with
  | nil => intro cnt; rfl
  | cons w rest ih =>
    intro cnt
    simp only [__RedrawWidgets_for, List.map_cons, RedrawWidgets_h_force, ih]

theorem RedrawWidgets_h_leaf_dirty (disp : GUI_Display_t) (anc : List (Int × Int))
    (force : Bool) (h : GUI_HANDLE) (hR : force = true ∨ h.Flags.REDRAW = true) :
    __RedrawWidgets_h disp anc force (.leaf h) =
      { cnt := 1, after := .leaf h.clearREDRAW, calls := RedrawWidgets_draw disp anc h } := by
  cases force
  · have hR1 : h.Flags.REDRAW = true := by simpa using hR
    simp [__RedrawWidgets_h, hR1]
  · simp only [__RedrawWidgets_h, GUI_HANDLE.setREDRAW, if_true]
    rfl

theorem RedrawWidgets_h_leaf_clean (disp : GUI_Display_t) (anc : List (Int × Int))
    (h : GUI_HANDLE) (hR : h.Flags.REDRAW = false) :
    __RedrawWidgets_h disp anc false (.leaf h) = { cnt := 0, after := .leaf h, calls := [] } := by
  simp [__RedrawWidgets_h, hR]

theorem RedrawWidgets_h_container_dirty (disp : GUI_Display_t) (anc : List (Int × Int))
    (force : Bool) (h : GUI_HANDLE) (cs : List Widget)
    (hR : force = true ∨ h.Flags.REDRAW = true) :
    __RedrawWidgets_h disp anc force (.container h cs) =
      { cnt := (__RedrawWidgets_for disp ((h.X, h.Y) :: anc) true 0 cs).cnt,
        after := .container h.clearREDRAW
          (__RedrawWidgets_for disp ((h.X, h.Y) :: anc) true 0 cs).after,
        calls := RedrawWidgets_draw disp anc h ++
          (__RedrawWidgets_for disp ((h.X, h.Y) :: anc) true 0 cs).calls } := by
  cases force
  · have hR1 : h.Flags.REDRAW = true := by simpa using hR
    simp [__RedrawWidgets_h, hR1]
  · simp only [__RedrawWidgets_h, GUI_HANDLE.setREDRAW, if_true]
    rfl

theorem RedrawWidgets_h_container_clean (disp : GUI_Display_t) (anc : List (Int × Int))
    (h : GUI_HANDLE) (cs : List Widget) (hR : h.Flags.REDRAW = false) :
    __RedrawWidgets_h disp anc false (.container h cs) =
      { cnt := (__RedrawWidgets_for disp ((h.X, h.Y) :: anc) false 0 cs).cnt,
        after := .container h (__RedrawWidgets_for disp ((h.X, h.Y) :: anc) false 0 cs).after,
        calls := (__RedrawWidgets_for disp ((h.X, h.Y) :: anc) false 0 cs).calls } := by
  simp [__RedrawWidgets_h, hR]

/-- A widget reached by the pass is either dirty (forced, or flagged itself)
or reached unforced with its flag clear. -/
theorem dirty_or_clean (force : Bool) (h : GUI_HANDLE) :
    (force = true ∨ h.Flags.REDRAW = true) ∨ (force = false ∧ h.Flags.REDRAW = false) := by
  cases force <;> cases h.Flags.REDRAW <;> simp

theorem redraw_cnt_lt :
    (∀ w, ∀ disp anc force, (__RedrawWidgets_h disp anc force w).cnt < 2 ^ 32) ∧
    (∀ l, ∀ disp anc force cnt, cnt < 2 ^ 32 →
      (__RedrawWidgets_for disp anc force cnt l).cnt < 2 ^ 32) := by
  apply Widget.induct
  · intro h disp anc force
    rcases dirty_or_clean force h with hd | ⟨hf, hc⟩
    · rw [RedrawWidgets_h_leaf_dirty _ _ _ _ hd]; norm_num
    · subst hf; rw [RedrawWidgets_h_leaf_clean _ _ _ hc]; norm_num
  · intro h cs ih disp anc force
    have h0 : (0 : Nat) < 2 ^ 32 := by norm_num
    rcases dirty_or_clean force h with hd | ⟨hf, hc⟩
    · rw [RedrawWidgets_h_container_dirty _ _ _ _ _ hd]; exact ih _ _ _ _ h0
    · subst hf; rw [RedrawWidgets_h_container_clean _ _ _ _ hc]; exact ih _ _ _ _ h0
  · intro disp anc force cnt hc
    simpa [__RedrawWidgets_for] using hc
  · intro w rest _ ihl disp anc force cnt _
    simp only [__RedrawWidgets_for]
    exact ihl _ _ _ _ (Nat.mod_lt _ (by norm_num))

theorem redraw_cnt_forced :
    (∀ w, ∀ disp anc, (__RedrawWidgets_h disp anc true w).cnt = Widget.leaves w % 2 ^ 32) ∧
    (∀ l, ∀ disp anc cnt, cnt < 2 ^ 32 →
      (__RedrawWidgets_for disp anc true cnt l).cnt = (cnt + Widget.leavesList l) % 2 ^ 32) := by
  apply Widget.induct
  · intro h disp anc
    rw [RedrawWidgets_h_leaf_dirty _ _ _ _ (Or.inl rfl)]
    simp [Widget.leaves]
  · intro h cs ih disp anc
    have h0 : (0 : Nat) < 2 ^ 32 := by norm_num
    rw [RedrawWidgets_h_container_dirty _ _ _ _ _ (Or.inl rfl)]
    simp only [Widget.leaves]
    rw [ih _ _ 0 h0, Nat.zero_add]
  · intro disp anc cnt hc
    simp only [__RedrawWidgets_for, Widget.leavesList, Nat.add_zero]
    exact (Nat.mod_eq_of_lt hc).symm
  · intro w rest ihw ihl disp anc cnt _
    simp only [__RedrawWidgets_for, Widget.leavesList]
    rw [ihl _ _ _ (Nat.mod_lt _ (by norm_num)), ihw]
    omega

theorem redraw_after_clear :
    (∀ w, ∀ disp anc force chain, ∀ x ∈ Widget.walk chain (__RedrawWidgets_h disp anc force w).after,
      x.2.Flags.REDRAW = false) ∧
    (∀ l, ∀ disp anc force cnt chain,
      ∀ x ∈ Widget.walkList chain (__RedrawWidgets_for disp anc force cnt l).after,
      x.2.Flags.REDRAW = false) := by
  apply Widget.induct
  · intro h disp anc force chain x hx
    rcases dirty_or_clean force h with hd | ⟨hf, hc⟩
    · rw [RedrawWidgets_h_leaf_dirty _ _ _ _ hd] at hx
      simp only [Widget.walk, List.mem_singleton] at hx
      subst hx; rfl
    · subst hf
      rw [RedrawWidgets_h_leaf_clean _ _ _ hc] at hx
      simp only [Widget.walk, List.mem_singleton] at hx
      subst hx; exact hc
  · intro h cs ih disp anc force chain x hx
    rcases dirty_or_clean force h with hd | ⟨hf, hc⟩
    · rw [RedrawWidgets_h_container_dirty _ _ _ _ _ hd] at hx
      simp only [Widget.walk, List.mem_cons] at hx
      rcases hx with hx | hx
      · subst hx; rfl
      · exact ih _ _ _ _ _ x hx
    · subst hf
      rw [RedrawWidgets_h_container_clean _ _ _ _ hc] at hx
      simp only [Widget.walk, List.mem_cons] at hx
      rcases hx with hx | hx
      · subst hx; exact hc
      · exact ih _ _ _ _ _ x hx
  · intro disp anc force cnt chain x hx
    simp [__RedrawWidgets_for, Widget.walkList] at hx
  · intro w rest ihw ihl disp anc force cnt chain x hx
    simp only [__RedrawWidgets_for, Widget.walkList, List.mem_append] at hx
    rcases hx with hx | hx
    · exact ihw _ _ _ _ x hx
    · exact ihl _ _ _ _ _ x hx

/-! ### The draw calls of a pass -/

theorem filterMap_cons_toList {α β : Type} (f : α → Option β) (a : α) (l : List α) :
    (f a).toList ++ l.filterMap f = (a :: l).filterMap f := by
  rw [List.filterMap_cons]
  cases f a <;> rfl

theorem filterMap_sublist_map {α β : Type} (f : α → Option β) (g : α → β)
    (hf : ∀ x, f x = none ∨ f x = some (g x)) (l : List α) :
    (l.filterMap f).Sublist (l.map g) := by
  induction l with
  | nil => exact List.Sublist.slnil
  | cons a rest ih =>
    rw [List.filterMap_cons, List.map_cons]
    rcases hf a with h | h <;> rw [h]
    · exact List.Sublist.cons _ ih
    · exact List.Sublist.cons₂ _ ih

theorem walk_chain_suffix :
    (∀ w, ∀ chain, ∀ x ∈ Widget.walk chain w, ∃ pre, x.1 = pre ++ chain) ∧
    (∀ l, ∀ chain, ∀ x ∈ Widget.walkList chain l, ∃ pre, x.1 = pre ++ chain) := by
  apply Widget.induct
  · intro h chain x hx
    simp only [Widget.walk, List.mem_singleton] at hx
    exact ⟨[], by rw [hx]; rfl⟩
  · intro h cs ih chain x hx
    simp only [Widget.walk, List.mem_cons] at hx
    rcases hx with hx | hx
    · exact ⟨[], by rw [hx]; rfl⟩
    · obtain ⟨pre, hpre⟩ := ih (h :: chain) x hx
      exact ⟨pre ++ [h], by rw [hpre]; simp⟩
  · intro chain x hx
    simp [Widget.walkList] at hx
  · intro w rest ihw ihl chain x hx
    simp only [Widget.walkList, List.mem_append] at hx
    rcases hx with hx | hx
    · exact ihw chain x hx
    · exact ihl chain x hx

theorem redraw_calls_forced :
    (∀ w, ∀ disp chain,
      (__RedrawWidgets_h disp (GUI_HANDLE.offsets chain) true w).calls =
        (Widget.walk chain w).filterMap (drawCallOf disp)) ∧
    (∀ l, ∀ disp chain cnt,
      (__RedrawWidgets_for disp (GUI_HANDLE.offsets chain) true cnt l).calls =
        (Widget.walkList chain l).filterMap (drawCallOf disp)) := by
  apply Widget.induct
  · intro h disp chain
    rw [RedrawWidgets_h_leaf_dirty _ _ _ _ (Or.inl rfl)]
    simp only [Widget.walk, RedrawWidgets_draw_eq]
    rw [← filterMap_cons_toList]
    simp
  · intro h cs ih disp chain
    rw [RedrawWidgets_h_container_dirty _ _ _ _ _ (Or.inl rfl)]
    have hch : ((h.X, h.Y) :: GUI_HANDLE.offsets chain) = GUI_HANDLE.offsets (h :: chain) := rfl
    simp only [Widget.walk, RedrawWidgets_draw_eq, hch, ih]
    rw [filterMap_cons_toList]
  · intro disp chain cnt
    simp [__RedrawWidgets_for, Widget.walkList]
  · intro w rest ihw ihl disp chain cnt
    simp only [__RedrawWidgets_for, Widget.walkList, List.filterMap_append, ihw, ihl]

theorem redraw_calls_unforced :
    (∀ w, ∀ disp chain, chain.any (fun a => a.Flags.REDRAW) = false →
      (__RedrawWidgets_h disp (GUI_HANDLE.offsets chain) false w).calls =
        (Widget.walk chain w).filterMap
          (fun x => if dueForRedraw x then drawCallOf disp x else none)) ∧
    (∀ l, ∀ disp chain cnt, chain.any (fun a => a.Flags.REDRAW) = false →
      (__RedrawWidgets_for disp (GUI_HANDLE.offsets chain) false cnt l).calls =
        (Widget.walkList chain l).filterMap
          (fun x => if dueForRedraw x then drawCallOf disp x else none)) := by
  apply Widget.induct
  · intro h disp chain hch
    by_cases hR : h.Flags.REDRAW = true
    · rw [RedrawWidgets_h_leaf_dirty _ _ _ _ (Or.inr hR)]
      simp [Widget.walk, RedrawWidgets_draw_eq, List.filterMap_cons, dueForRedraw, hR]
      cases drawCallOf disp (chain, h) <;> rfl
    · have hR0 : h.Flags.REDRAW = false := by simpa using hR
      have hdue : dueForRedraw (chain, h) = false := by
        simp only [dueForRedraw, hR0, hch, Bool.or_self]
      rw [RedrawWidgets_h_leaf_clean _ _ _ hR0]
      simp [Widget.walk, List.filterMap_cons, hdue]
  · intro h cs ih disp chain hch
    have hoff : ((h.X, h.Y) :: GUI_HANDLE.offsets chain) = GUI_HANDLE.offsets (h :: chain) := rfl
    by_cases hR : h.Flags.REDRAW = true
    · rw [RedrawWidgets_h_container_dirty _ _ _ _ _ (Or.inr hR)]
      simp only [Widget.walk, RedrawWidgets_draw_eq, hoff, redraw_calls_forced.2]
      have hhead : (if dueForRedraw (chain, h) then drawCallOf disp (chain, h) else none) =
          drawCallOf disp (chain, h) := by simp [dueForRedraw, hR]
      have htail : (Widget.walkList (h :: chain) cs).filterMap (drawCallOf disp) =
          (Widget.walkList (h :: chain) cs).filterMap
            (fun x => if dueForRedraw x then drawCallOf disp x else none) := by
        apply List.filterMap_congr
        intro x hx
        obtain ⟨pre, hpre⟩ := walk_chain_suffix.2 cs (h :: chain) x hx
        have : dueForRedraw x = true := by simp [dueForRedraw, hpre, hR]
        simp [this]
      rw [htail, ← filterMap_cons_toList, hhead]
    · have hR0 : h.Flags.REDRAW = false := by simpa using hR
      rw [RedrawWidgets_h_container_clean _ _ _ _ hR0]
      have hch2 : (h :: chain).any (fun a => a.Flags.REDRAW) = false := by
        simp [List.any_cons, hR0, hch]
      have hdue : dueForRedraw (chain, h) = false := by
        simp only [dueForRedraw, hR0, hch, Bool.or_self]
      simp only [Widget.walk, hoff, ih disp (h :: chain) 0 hch2]
      rw [List.filterMap_cons]
      simp [hdue]
  · intro disp chain cnt _
    simp [__RedrawWidgets_for, Widget.walkList]
  · intro w rest ihw ihl disp chain cnt hch
    simp only [__RedrawWidgets_for, Widget.walkList, List.filterMap_append, ihw _ _ hch,
      ihl _ _ _ hch]

theorem redraw_forced_setAll :
    (∀ w, ∀ disp anc,
      __RedrawWidgets_h disp anc true w = __RedrawWidgets_h disp anc true (Widget.setREDRAWAll w)) ∧
    (∀ l, ∀ disp anc cnt,
      __RedrawWidgets_for disp anc true cnt l =
        __RedrawWidgets_for disp anc true cnt (Widget.setREDRAWAllList l)) := by
  apply Widget.induct
  · intro h disp anc
    simp only [Widget.setREDRAWAll]
    rw [RedrawWidgets_h_leaf_dirty _ _ _ _ (Or.inl rfl),
      RedrawWidgets_h_leaf_dirty _ _ _ _ (Or.inl rfl)]
    rfl
  · intro h cs ih disp anc
    simp only [Widget.setREDRAWAll]
    rw [RedrawWidgets_h_container_dirty _ _ _ _ _ (Or.inl rfl),
      RedrawWidgets_h_container_dirty _ _ _ _ _ (Or.inl rfl)]
    have hx : h.setREDRAW.X = h.X := rfl
    have hy : h.setREDRAW.Y = h.Y := rfl
    rw [hx, hy, ← ih disp ((h.X, h.Y) :: anc) 0]
    rfl
  · intro disp anc cnt
    rfl
  · intro w rest ihw ihl disp anc cnt
    simp only [Widget.setREDRAWAllList, __RedrawWidgets_for]
    rw [← ihw, ← ihl]

theorem redraw_for_calls_cnt (disp : GUI_Display_t) (anc : List (Int × Int)) (force : Bool)
    (l : List Widget) : ∀ cnt cnt2,
    (__RedrawWidgets_for disp anc force cnt l).calls =
      (__RedrawWidgets_for disp anc force cnt2 l).calls := by
  induction l with
  | nil => intro cnt cnt2; rfl
  | cons w rest ih =>
    intro cnt cnt2
    simp only [__RedrawWidgets_for]
    rw [ih _ ((cnt2 + (__RedrawWidgets_h disp anc force w).cnt) % 2 ^ 32)]

theorem redraw_for_calls_append (disp : GUI_Display_t) (anc : List (Int × Int)) (force : Bool)
    (l1 l2 : List Widget) : ∀ cnt cnt2,
    (__RedrawWidgets_for disp anc force cnt (l1 ++ l2)).calls =
      (__RedrawWidgets_for disp anc force cnt l1).calls ++
        (__RedrawWidgets_for disp anc force cnt2 l2).calls := by
  induction l1 with
  | nil =>
    intro cnt cnt2
    simp only [List.nil_append, __RedrawWidgets_for]
    exact redraw_for_calls_cnt _ _ _ _ _ _
  | cons w rest ih =>
    intro cnt cnt2
    rw [List.cons_append]
    simp only [__RedrawWidgets_for, List.append_assoc]
    rw [ih _ cnt2]

/-- C4: a container whose `GUI_FLAG_REDRAW` is set when `__RedrawWidgets`
reaches it (set on it, or forced by its parent) repaints its whole subtree.
The pass is the one it would be had every descendant, at any depth, carried the
flag; the count returned is the number of leaf descendants (as a `uint32_t`);
the draw callback runs for the container and for every descendant that has one
and intersects the clip region, whatever the flags below were; afterwards the
container and all its descendants have the flag clear. -/
theorem C4_dirty_container_repaints_subtree (disp : GUI_Display_t) (chain : List GUI_HANDLE)
    (force : Bool) (h : GUI_HANDLE) (cs : List Widget)
    (hR : force = true ∨ h.Flags.REDRAW = true) :
    __RedrawWidgets_h disp (GUI_HANDLE.offsets chain) force (.container h cs) =
      __RedrawWidgets_h disp (GUI_HANDLE.offsets chain) force
        (.container h (Widget.setREDRAWAllList cs)) ∧
    (__RedrawWidgets_h disp (GUI_HANDLE.offsets chain) force (.container h cs)).cnt =
      Widget.leavesList cs % 2 ^ 32 ∧
    (__RedrawWidgets_h disp (GUI_HANDLE.offsets chain) force (.container h cs)).calls =
      (Widget.walk chain (.container h cs)).filterMap (drawCallOf disp) ∧
    ∀ x ∈ Widget.walk chain
        (__RedrawWidgets_h disp (GUI_HANDLE.offsets chain) force (.container h cs)).after,
      x.2.Flags.REDRAW = false := by
  have h0 : (0 : Nat) < 2 ^ 32 := by norm_num
  have hoff : ((h.X, h.Y) :: GUI_HANDLE.offsets chain) = GUI_HANDLE.offsets (h :: chain) := rfl
  refine ⟨?_, ?_, ?_, ?_⟩
  · rw [RedrawWidgets_h_container_dirty _ _ _ _ _ hR, RedrawWidgets_h_container_dirty _ _ _ _ _ hR,
      ← redraw_forced_setAll.2 cs]
  · rw [RedrawWidgets_h_container_dirty _ _ _ _ _ hR]
    simp only []
    rw [redraw_cnt_forced.2 cs _ _ 0 h0, Nat.zero_add]
  · rw [RedrawWidgets_h_container_dirty _ _ _ _ _ hR]
    simp only [Widget.walk, RedrawWidgets_draw_eq, hoff, redraw_calls_forced.2]
    rw [filterMap_cons_toList]
  · intro x hx
    exact redraw_after_clear.1 _ _ _ _ _ x hx

theorem C4_dirty_container_repaints_subtree_witness :
    ((false = true ∨ (sampleHandle 1 0 0 50 50 true).Flags.REDRAW = true)) ∧
    (__RedrawWidgets_h (sampleGUI []).Display (GUI_HANDLE.offsets []) false
        (.container (sampleHandle 1 0 0 50 50 true) sampleNested) =
      __RedrawWidgets_h (sampleGUI []).Display (GUI_HANDLE.offsets []) false
        (.container (sampleHandle 1 0 0 50 50 true) (Widget.setREDRAWAllList sampleNested)) ∧
    (__RedrawWidgets_h (sampleGUI []).Display (GUI_HANDLE.offsets []) false
        (.container (sampleHandle 1 0 0 50 50 true) sampleNested)).cnt =
      Widget.leavesList sampleNested % 2 ^ 32 ∧
    (__RedrawWidgets_h (sampleGUI []).Display (GUI_HANDLE.offsets []) false
        (.container (sampleHandle 1 0 0 50 50 true) sampleNested)).calls =
      (Widget.walk [] (.container (sampleHandle 1 0 0 50 50 true) sampleNested)).filterMap
        (drawCallOf (sampleGUI []).Display) ∧
    ∀ x ∈ Widget.walk []
        (__RedrawWidgets_h (sampleGUI []).Display (GUI_HANDLE.offsets []) false
          (.container (sampleHandle 1 0 0 50 50 true) sampleNested)).after,
      x.2.Flags.REDRAW = false) :=
  ⟨Or.inr rfl, C4_dirty_container_repaints_subtree (sampleGUI []).Display [] false
    (sampleHandle 1 0 0 50 50 true) sampleNested (Or.inr rfl)⟩

/-- C5: after the pass `__RedrawWidgets(NULL)`, no widget of the tree whose
bounding rectangle intersects the clip region has `GUI_FLAG_REDRAW` set. -/
theorem C5_no_redraw_flag_inside_clip (GUI : GUI_t) (x : List GUI_HANDLE × GUI_HANDLE)
    (hx : x ∈ Widget.walkList [] (__RedrawWidgets GUI).after.Root)
    (_hin : __GUI_WIDGET_IsInsideClippingRegion GUI.Display (GUI_HANDLE.offsets x.1) x.2 = true) :
    x.2.Flags.REDRAW = false :=
  redraw_after_clear.2 GUI.Root GUI.Display [] false 0 [] x hx

theorem C5_no_redraw_flag_inside_clip_witness :
    ([], (sampleHandle 2 5 5 10 10 true).clearREDRAW) ∈
      Widget.walkList [] (__RedrawWidgets
        (sampleGUI [.leaf (sampleHandle 2 5 5 10 10 true)])).after.Root ∧
    __GUI_WIDGET_IsInsideClippingRegion (sampleGUI [.leaf (sampleHandle 2 5 5 10 10 true)]).Display
      (GUI_HANDLE.offsets []) (sampleHandle 2 5 5 10 10 true).clearREDRAW = true ∧
    (sampleHandle 2 5 5 10 10 true).clearREDRAW.Flags.REDRAW = false :=
  ⟨List.Mem.head _, by decide,
   C5_no_redraw_flag_inside_clip (sampleGUI [.leaf (sampleHandle 2 5 5 10 10 true)])
     ([], (sampleHandle 2 5 5 10 10 true).clearREDRAW) (List.Mem.head _) (by decide)⟩

/-- C6: in the pass `__RedrawWidgets(NULL)` the draw callbacks invoked are, in
order, those of the widgets that are due (flag set on the widget or on one of
its ancestors), have a draw callback, and whose bounding rectangle intersects
the clip region. So the draw callback of a leaf runs exactly when the leaf is
due and intersects the clip region, and never for a leaf outside it. -/
theorem C6_draw_iff_due_and_inside_clip (GUI : GUI_t) :
    (__RedrawWidgets GUI).calls =
      (Widget.walkList [] GUI.Root).filterMap
        (fun x => if dueForRedraw x then drawCallOf GUI.Display x else none) :=
  redraw_calls_unforced.2 GUI.Root GUI.Display [] 0 rfl

/-- C7: the draw callbacks of a pass run in forward z-order and
self-before-children. The calls of a whole pass are a subsequence of the
widgets listed parent first and children in child order; the call of a
container comes before the calls of its children; the calls of a sibling list
are those of the earlier siblings followed by those of the later ones. -/
theorem C7_draw_order_is_preorder (GUI : GUI_t) (disp : GUI_Display_t)
    (anc : List (Int × Int)) (force : Bool) (cnt cnt2 : Nat) (h : GUI_HANDLE)
    (cs l1 l2 : List Widget) :
    (__RedrawWidgets GUI).calls.Sublist
      ((Widget.walkList [] GUI.Root).map (fun x => GUI_Call.WidgetDraw x.2.Handle)) ∧
    (∃ own, (own = [] ∨ own = [GUI_Call.WidgetDraw h.Handle]) ∧
      (__RedrawWidgets_h disp anc force (.container h cs)).calls =
        own ++ (__RedrawWidgets_for disp ((h.X, h.Y) :: anc)
          (force || h.Flags.REDRAW) 0 cs).calls) ∧
    (__RedrawWidgets_for disp anc force cnt (l1 ++ l2)).calls =
      (__RedrawWidgets_for disp anc force cnt l1).calls ++
        (__RedrawWidgets_for disp anc force cnt2 l2).calls := by
  refine ⟨?_, ?_, redraw_for_calls_append _ _ _ _ _ _ _⟩
  · have hcalls : (__RedrawWidgets GUI).calls =
        (Widget.walkList [] GUI.Root).filterMap
          (fun x => if dueForRedraw x then drawCallOf GUI.Display x else none) :=
      redraw_calls_unforced.2 GUI.Root GUI.Display [] 0 rfl
    rw [hcalls]
    apply filterMap_sublist_map
    intro x
    unfold drawCallOf
    split
    · split
      · exact Or.inr rfl
      · exact Or.inl rfl
    · exact Or.inl rfl
  · rcases dirty_or_clean force h with hd | ⟨hf, hc⟩
    · have hfl : (force || h.Flags.REDRAW) = true := by
        rcases hd with hd | hd <;> simp [hd]
      rw [RedrawWidgets_h_container_dirty _ _ _ _ _ hd, hfl]
      refine ⟨RedrawWidgets_draw disp anc h, ?_, rfl⟩
      unfold RedrawWidgets_draw
      split
      · exact Or.inr rfl
      · exact Or.inl rfl
    · subst hf
      rw [RedrawWidgets_h_container_clean _ _ _ _ hc, hc]
      exact ⟨[], Or.inl rfl, rfl⟩

/-! ## The clipping test -/

/-- C8: for rectangles with non-negative sizes, `__GUI_RECT_MATCH` holds exactly
when the closed rectangles `[x1, x1 + w1] × [y1, y1 + h1]` and
`[x2, x2 + w2] × [y2, y2 + h2]` have a point in common. In particular
rectangles that only touch match: along an edge (the second starts where the
first ends on the x axis and the y ranges meet) and at a corner. -/
theorem C8_rect_match_iff_closed_overlap (x1 y1 w1 h1 x2 y2 w2 h2 : Int)
    (hw1 : 0 ≤ w1) (hh1 : 0 ≤ h1) (hw2 : 0 ≤ w2) (hh2 : 0 ≤ h2) :
    (__GUI_RECT_MATCH x1 y1 w1 h1 x2 y2 w2 h2 = true ↔
      ∃ px py : Int,
        (x1 ≤ px ∧ px ≤ x1 + w1 ∧ y1 ≤ py ∧ py ≤ y1 + h1) ∧
        (x2 ≤ px ∧ px ≤ x2 + w2 ∧ y2 ≤ py ∧ py ≤ y2 + h2)) ∧
    (x2 = x1 + w1 → y2 ≤ y1 + h1 → y1 ≤ y2 + h2 →
      __GUI_RECT_MATCH x1 y1 w1 h1 x2 y2 w2 h2 = true) ∧
    (x2 = x1 + w1 → y2 = y1 + h1 →
      __GUI_RECT_MATCH x1 y1 w1 h1 x2 y2 w2 h2 = true) := by
  have key : __GUI_RECT_MATCH x1 y1 w1 h1 x2 y2 w2 h2 = true ↔
      (x1 ≤ x2 + w2 ∧ x2 ≤ x1 + w1 ∧ y1 ≤ y2 + h2 ∧ y2 ≤ y1 + h1) := by
    unfold __GUI_RECT_MATCH
    simp only [Bool.not_eq_true', Bool.or_eq_false_iff, decide_eq_false_iff_not, gt_iff_lt,
      not_lt]
    tauto
  refine ⟨?_, ?_, ?_⟩
  · rw [key]
    constructor
    · rintro ⟨a, b, c, d⟩
      refine ⟨max x1 x2, max y1 y2, ?_, ?_⟩ <;> omega
    · rintro ⟨px, py, ⟨a1, a2, a3, a4⟩, ⟨b1, b2, b3, b4⟩⟩
      omega
  · intro e1 e2 e3
    rw [key]
    omega
  · intro e1 e2
    rw [key]
    omega

theorem C8_rect_match_iff_closed_overlap_witness :
    (0 : Int) ≤ 10 ∧ (0 : Int) ≤ 10 ∧ (0 : Int) ≤ 5 ∧ (0 : Int) ≤ 5 ∧
    ((__GUI_RECT_MATCH 0 0 10 10 10 10 5 5 = true ↔
      ∃ px py : Int,
        ((0 : Int) ≤ px ∧ px ≤ 0 + 10 ∧ (0 : Int) ≤ py ∧ py ≤ 0 + 10) ∧
        ((10 : Int) ≤ px ∧ px ≤ 10 + 5 ∧ (10 : Int) ≤ py ∧ py ≤ 10 + 5)) ∧
    ((10 : Int) = 0 + 10 → (10 : Int) ≤ 0 + 10 → (0 : Int) ≤ 10 + 5 →
      __GUI_RECT_MATCH 0 0 10 10 10 10 5 5 = true) ∧
    ((10 : Int) = 0 + 10 → (10 : Int) = 0 + 10 →
      __GUI_RECT_MATCH 0 0 10 10 10 10 5 5 = true)) :=
  ⟨by decide, by decide, by decide, by decide,
   C8_rect_match_iff_closed_overlap 0 0 10 10 10 10 5 5
     (by decide) (by decide) (by decide) (by decide)⟩

/-! ## Touch dispatch -/

theorem ProcessTouch_inside_eq (touch : GUI_TouchData_t) (chain : List GUI_HANDLE)
    (h : GUI_HANDLE) :
    ProcessTouch_inside touch (GUI_HANDLE.offsets chain) h = hitByTouch touch (chain, h) := by
  simp only [ProcessTouch_inside, hitByTouch, __GUI_WIDGET_GetAbsoluteX,
    __GUI_WIDGET_GetAbsoluteY, GUI_HANDLE.offsets, List.map_map, Function.comp_def]
  rw [Bool.eq_iff_iff]
  simp [and_assoc]

theorem ProcessTouch_widget_edge (touch touchLast : GUI_TouchData_t)
    (chain : List GUI_HANDLE) (h : GUI_HANDLE) (s : TouchRun)
    (hedge : touch.Status ≠ touchLast.Status)
    (hcont : touch.Status = true →
      ∀ f, h.Widget.TouchDown = some f → f touch = .touchCONTINUE) :
    ∃ s1, ProcessTouch_widget touch touchLast (GUI_HANDLE.offsets chain) h s =
        some (.touchCONTINUE, s1) ∧
      s1.calls = s.calls ++
        (if hitByTouch touch (chain, h) then touchCallOf touch (chain, h) else none).toList := by
  rw [← ProcessTouch_inside_eq]
  unfold ProcessTouch_widget touchCallOf
  by_cases hin : ProcessTouch_inside touch (GUI_HANDLE.offsets chain) h = true
  · cases hts : touch.Status
    · have htl : touchLast.Status = true := by
        cases h2 : touchLast.Status
        · exact absurd (hts.trans h2.symm) hedge
        · rfl
      by_cases hact : s.GUI.ActiveWidget = some h.Handle
      · by_cases hup : h.Widget.TouchUp = true <;> simp [hin, htl, hact, hup]
      · by_cases hup : h.Widget.TouchUp = true <;> simp [hin, htl, hact, hup]
    · have htl : touchLast.Status = false := by
        cases h2 : touchLast.Status
        · rfl
        · exact absurd (hts.trans h2.symm) hedge
      cases hTD : h.Widget.TouchDown with
      | none => simp [hin, htl]
      | some f =>
        have hf := hcont hts f hTD
        simp [hin, htl, hf]
  · simp [hin]

theorem filterMap_singleton_toList {α β : Type} (f : α → Option β) (a : α) :
    [a].filterMap f = (f a).toList := by
  rw [List.filterMap_cons]
  cases f a <;> rfl

theorem ProcessTouch_edge_walk (touch touchLast : GUI_TouchData_t)
    (hedge : touch.Status ≠ touchLast.Status) :
    (∀ w, ∀ chain s,
      (touch.Status = true → ∀ x ∈ Widget.walk chain w, ∀ f,
        x.2.Widget.TouchDown = some f → f touch = .touchCONTINUE) →
      ∃ s1, __ProcessTouch_h touch touchLast (GUI_HANDLE.offsets chain) s w =
          some (.touchCONTINUE, s1) ∧
        s1.calls = s.calls ++ (Widget.walk chain w).reverse.filterMap
          (fun x => if hitByTouch touch x then touchCallOf touch x else none)) ∧
    (∀ l, ∀ chain s,
      (touch.Status = true → ∀ x ∈ Widget.walkList chain l, ∀ f,
        x.2.Widget.TouchDown = some f → f touch = .touchCONTINUE) →
      ∃ s1, __ProcessTouch_for touch touchLast (GUI_HANDLE.offsets chain) s l =
          some (.touchCONTINUE, s1) ∧
        s1.calls = s.calls ++ (Widget.walkList chain l).reverse.filterMap
          (fun x => if hitByTouch touch x then touchCallOf touch x else none)) := by
  apply Widget.induct
  · intro h chain s hcont
    obtain ⟨s1, h1, h2⟩ := ProcessTouch_widget_edge touch touchLast chain h s hedge
      (fun hs f hf => hcont hs (chain, h) (by simp [Widget.walk]) f hf)
    refine ⟨s1, by simpa [__ProcessTouch_h] using h1, ?_⟩
    rw [h2]
    simp only [Widget.walk, List.reverse_singleton, filterMap_singleton_toList]
  · intro h cs ih chain s hcont
    have hoff : ((h.X, h.Y) :: GUI_HANDLE.offsets chain) = GUI_HANDLE.offsets (h :: chain) := rfl
    obtain ⟨s1, h1, h2⟩ := ih (h :: chain) s
      (fun hs x hx f hf => hcont hs x (by simp [Widget.walk, hx]) f hf)
    obtain ⟨s2, h3, h4⟩ := ProcessTouch_widget_edge touch touchLast chain h s1 hedge
      (fun hs f hf => hcont hs (chain, h) (by simp [Widget.walk]) f hf)
    refine ⟨s2, ?_, ?_⟩
    · simp only [__ProcessTouch_h, hoff, h1]
      simpa using h3
    · rw [h4, h2]
      simp only [Widget.walk, List.reverse_cons, List.filterMap_append,
        filterMap_singleton_toList, List.append_assoc]
  · intro chain s _
    exact ⟨s, rfl, by simp [Widget.walkList]⟩
  · intro w rest ihw ihl chain s hcont
    obtain ⟨s1, h1, h2⟩ := ihl chain s
      (fun hs x hx f hf => hcont hs x (by simp [Widget.walkList, hx]) f hf)
    obtain ⟨s2, h3, h4⟩ := ihw chain s1
      (fun hs x hx f hf => hcont hs x (by simp [Widget.walkList, hx]) f hf)
    refine ⟨s2, ?_, ?_⟩
    · simp only [__ProcessTouch_for, h1]
      simpa using h3
    · rw [h4, h2]
      simp only [Widget.walkList, List.reverse_append, List.filterMap_append,
        List.append_assoc]

/-- C9: `__ProcessTouch` treats a widget as hit exactly when the touch point
lies in the rectangle from its absolute position to that position plus its
width and height, both bounds included, the absolute position being the sum of
its own offset and the offsets of all its ancestors. On a touch edge on which
no touch-down handler claims the sample, the handlers invoked are, topmost
first, those of precisely the widgets of the tree that pass this test; and a
widget that fails the test is passed over with no handler invoked and no
state changed, whatever its handlers would answer. -/
theorem C9_hit_iff_point_in_absolute_rectangle (touch touchLast : GUI_TouchData_t)
    (GUI : GUI_t) (hedge : touch.Status ≠ touchLast.Status)
    (hcont : touch.Status = true → ∀ x ∈ Widget.walkList [] GUI.Root, ∀ f,
      x.2.Widget.TouchDown = some f → f touch = .touchCONTINUE) :
    (∃ s, __ProcessTouch touch touchLast GUI = some (.touchCONTINUE, s) ∧
      s.calls = (Widget.walkList [] GUI.Root).reverse.filterMap
        (fun x => if hitByTouch touch x then touchCallOf touch x else none)) ∧
    (∀ (chain : List GUI_HANDLE) (h : GUI_HANDLE) (s : TouchRun),
      hitByTouch touch (chain, h) = false →
      ProcessTouch_widget touch touchLast (GUI_HANDLE.offsets chain) h s =
        some (.touchCONTINUE, s)) := by
  obtain ⟨s1, h1, h2⟩ := (ProcessTouch_edge_walk touch touchLast hedge).2 GUI.Root []
    { GUI := GUI, calls := [] } hcont
  refine ⟨⟨s1, h1, by simpa using h2⟩, ?_⟩
  intro chain h s hmiss
  unfold ProcessTouch_widget
  rw [ProcessTouch_inside_eq, hmiss]
  simp

theorem sampleTouchTree_continue :
    ∀ x ∈ Widget.walkList [] (sampleGUI sampleTouchTree).Root, ∀ f,
      x.2.Widget.TouchDown = some f → f samplePressed = .touchCONTINUE := by
  intro x hx f hf
  simp only [sampleGUI, sampleTouchTree, Widget.walkList, Widget.walk, List.cons_append,
    List.nil_append, List.append_nil, List.mem_cons, List.mem_singleton] at hx
  rcases hx with rfl | rfl | rfl | hx
  · simp only [sampleTouchHandle, sampleTouchKind, Option.some.injEq] at hf
    subst hf; rfl
  · simp only [sampleTouchHandle, sampleTouchKind, Option.some.injEq] at hf
    subst hf; rfl
  · simp only [sampleTouchHandle, sampleTouchKind, Option.some.injEq] at hf
    subst hf; rfl
  · simp at hx

theorem C9_hit_iff_point_in_absolute_rectangle_witness :
    samplePressed.Status ≠ sampleReleased.Status ∧
    (samplePressed.Status = true →
      ∀ x ∈ Widget.walkList [] (sampleGUI sampleTouchTree).Root, ∀ f,
        x.2.Widget.TouchDown = some f → f samplePressed = .touchCONTINUE) ∧
    (Widget.walkList [] (sampleGUI sampleTouchTree).Root).reverse.filterMap
        (fun x => if hitByTouch samplePressed x then touchCallOf samplePressed x else none) =
      [GUI_Call.TouchDown 2, GUI_Call.TouchDown 1] ∧
    (∃ s, __ProcessTouch samplePressed sampleReleased (sampleGUI sampleTouchTree) =
        some (.touchCONTINUE, s) ∧
      s.calls = (Widget.walkList [] (sampleGUI sampleTouchTree).Root).reverse.filterMap
        (fun x => if hitByTouch samplePressed x then touchCallOf samplePressed x else none)) ∧
    (∀ (chain : List GUI_HANDLE) (h : GUI_HANDLE) (s : TouchRun),
      hitByTouch samplePressed (chain, h) = false →
      ProcessTouch_widget samplePressed sampleReleased (GUI_HANDLE.offsets chain) h s =
        some (.touchCONTINUE, s)) :=
  ⟨by decide, fun _ => sampleTouchTree_continue, by decide,
   C9_hit_iff_point_in_absolute_rectangle samplePressed sampleReleased
     (sampleGUI sampleTouchTree) (by decide) (fun _ => sampleTouchTree_continue)⟩

theorem ProcessTouch_for_append_stop (touch touchLast : GUI_TouchData_t)
    (anc : List (Int × Int)) (s s1 : TouchRun) (tStat : __GUI_TouchStatus_t)
    (l1 l2 : List Widget)
    (h2 : __ProcessTouch_for touch touchLast anc s l2 = some (tStat, s1))
    (hstop : tStat ≠ .touchCONTINUE) :
    __ProcessTouch_for touch touchLast anc s (l1 ++ l2) = some (tStat, s1) := by
  induction l1 with
  | nil => simpa using h2
  | cons w rest ih =>
    rw [List.cons_append]
    simp only [__ProcessTouch_for, ih]
    simp [hstop]

theorem ProcessTouch_for_leaves_continue (touch touchLast : GUI_TouchData_t)
    (anc : List (Int × Int)) (hdown : touch.Status = true) (hlast : touchLast.Status = false)
    (post : List GUI_HANDLE)
    (hpost : ∀ c ∈ post, ProcessTouch_inside touch anc c = true ∧
      ∃ f, c.Widget.TouchDown = some f ∧ f touch = .touchCONTINUE)
    (s : TouchRun) :
    __ProcessTouch_for touch touchLast anc s (post.map Widget.leaf) =
      some (.touchCONTINUE,
        { GUI := s.GUI,
          calls := s.calls ++ post.reverse.map (fun c => GUI_Call.TouchDown c.Handle) }) := by
  induction post with
  | nil => simp [__ProcessTouch_for]
  | cons c rest ih =>
    obtain ⟨hin, f, hf, hfc⟩ := hpost c (by simp)
    have ih1 := ih (fun d hd => hpost d (by simp [hd]))
    simp only [List.map_cons, __ProcessTouch_for, ih1]
    simp [__ProcessTouch_h, ProcessTouch_widget, hin, hdown, hlast, hf, hfc]

/-- C10: on a touch-down the siblings are queried last child first and the
search ends at the first handler that does not answer `touchCONTINUE`. When
the leaves `post` after `B` in the child list all contain the point and their
handlers answer `touchCONTINUE`, and `B` contains the point and its handler
answers `touchHANDLED`, the call returns `touchHANDLED` with `B` the active
widget; the handlers invoked are those of `post`, last first, then that of
`B`, and no handler of a sibling before `B` is invoked. -/
theorem C10_later_sibling_wins (touch touchLast : GUI_TouchData_t) (anc : List (Int × Int))
    (s : TouchRun) (pre : List Widget) (B : GUI_HANDLE) (post : List GUI_HANDLE)
    (fB : GUI_TouchData_t → __GUI_TouchStatus_t)
    (hdown : touch.Status = true) (hlast : touchLast.Status = false)
    (hBin : ProcessTouch_inside touch anc B = true)
    (hB : B.Widget.TouchDown = some fB) (hBh : fB touch = .touchHANDLED)
    (hpost : ∀ c ∈ post, ProcessTouch_inside touch anc c = true ∧
      ∃ f, c.Widget.TouchDown = some f ∧ f touch = .touchCONTINUE) :
    ∃ s1, __ProcessTouch_for touch touchLast anc s (pre ++ Widget.leaf B :: post.map Widget.leaf) =
        some (.touchHANDLED, s1) ∧
      s1.GUI.ActiveWidget = some B.Handle ∧
      s1.calls = s.calls ++ post.reverse.map (fun c => GUI_Call.TouchDown c.Handle) ++
        [GUI_Call.TouchDown B.Handle] := by
  have hp := ProcessTouch_for_leaves_continue touch touchLast anc hdown hlast post hpost s
  have hB2 : ∃ s1, __ProcessTouch_for touch touchLast anc s
        (Widget.leaf B :: post.map Widget.leaf) = some (.touchHANDLED, s1) ∧
      s1.GUI.ActiveWidget = some B.Handle ∧
      s1.calls = s.calls ++ post.reverse.map (fun c => GUI_Call.TouchDown c.Handle) ++
        [GUI_Call.TouchDown B.Handle] := by
    simp only [__ProcessTouch_for, hp]
    simp [__ProcessTouch_h, ProcessTouch_widget, hBin, hdown, hlast, hB, hBh,
      __GUI_WIDGET_Invalidate, GUI_t.setFlags, __GUI_LINKEDLIST_MoveDown_Widget]
  obtain ⟨s1, h1, h2, h3⟩ := hB2
  exact ⟨s1, ProcessTouch_for_append_stop touch touchLast anc s s1 .touchHANDLED pre _ h1
    (by decide), h2, h3⟩

theorem C10_later_sibling_wins_witness :
    samplePressed.Status = true ∧ sampleReleased.Status = false ∧
    ProcessTouch_inside samplePressed [] sampleB = true ∧
    sampleB.Widget.TouchDown = some (fun _ => .touchHANDLED) ∧
    (fun _ => __GUI_TouchStatus_t.touchHANDLED) samplePressed = .touchHANDLED ∧
    (∀ c ∈ [sampleC], ProcessTouch_inside samplePressed [] c = true ∧
      ∃ f, c.Widget.TouchDown = some f ∧ f samplePressed = .touchCONTINUE) ∧
    ∃ s1, __ProcessTouch_for samplePressed sampleReleased []
          { GUI := sampleGUI [.leaf sampleA, .leaf sampleB, .leaf sampleC], calls := [] }
          ([Widget.leaf sampleA] ++ Widget.leaf sampleB :: [sampleC].map Widget.leaf) =
        some (.touchHANDLED, s1) ∧
      s1.GUI.ActiveWidget = some sampleB.Handle ∧
      s1.calls = [] ++ [sampleC].reverse.map (fun c => GUI_Call.TouchDown c.Handle) ++
        [GUI_Call.TouchDown sampleB.Handle] :=
  have hC : ∀ c ∈ [sampleC], ProcessTouch_inside samplePressed [] c = true ∧
      ∃ f, c.Widget.TouchDown = some f ∧ f samplePressed = .touchCONTINUE := by
    intro c hc
    rw [List.mem_singleton] at hc
    subst hc
    exact ⟨by decide, fun _ => .touchCONTINUE, rfl, rfl⟩
  ⟨rfl, rfl, by decide, rfl, rfl, hC,
   C10_later_sibling_wins samplePressed sampleReleased []
     { GUI := sampleGUI [.leaf sampleA, .leaf sampleB, .leaf sampleC], calls := [] }
     [.leaf sampleA] sampleB [sampleC] (fun _ => .touchHANDLED) rfl rfl (by decide) rfl rfl hC⟩

/-! ## Headers under the writes of the touch dispatch -/

theorem hdrs_update (p : Nat) (f : GUI_HANDLE → GUI_HANDLE) :
    (∀ w, Widget.hdrs (Widget.update p f w) =
      (Widget.hdrs w).map (fun y => if y.Handle = p then f y else y)) ∧
    (∀ l, Widget.hdrsList (Widget.updateList p f l) =
      (Widget.hdrsList l).map (fun y => if y.Handle = p then f y else y)) := by
  apply Widget.induct
  · intro h
    simp [Widget.update, Widget.hdrs]
  · intro h cs ih
    simp [Widget.update, Widget.hdrs, ih]
  · simp [Widget.updateList, Widget.hdrsList]
  · intro w rest ihw ihl
    simp [Widget.updateList, Widget.hdrsList, ihw, ihl]

theorem hdrs_moveDown (p : Nat) :
    (∀ w, (Widget.hdrs (Widget.moveDown p w)).Perm (Widget.hdrs w)) ∧
    (∀ l, (Widget.hdrsList (Widget.moveDownList p l)).Perm (Widget.hdrsList l)) := by
  have happ : ∀ l1 l2, Widget.hdrsList (l1 ++ l2) = Widget.hdrsList l1 ++ Widget.hdrsList l2 := by
    intro l1 l2
    induction l1 with
    | nil => simp [Widget.hdrsList]
    | cons w rest ih => simp [Widget.hdrsList, ih]
  apply Widget.induct
  · intro h
    simp [Widget.moveDown]
  · intro h cs ih
    simp only [Widget.moveDown, Widget.hdrs]
    exact List.Perm.cons _ ih
  · simp [Widget.moveDownList]
  · intro w rest ihw ihl
    simp only [Widget.moveDownList]
    split
    · rw [happ]
      simp only [Widget.hdrsList, List.append_nil]
      exact (List.perm_append_comm).trans (List.Perm.append_left _ ihl)
    · simp only [Widget.hdrsList]
      exact List.Perm.append ihw ihl

theorem hdrsList_append (l1 l2 : List Widget) :
    Widget.hdrsList (l1 ++ l2) = Widget.hdrsList l1 ++ Widget.hdrsList l2 := by
  induction l1 with
  | nil => simp [Widget.hdrsList]
  | cons w rest ih => simp [Widget.hdrsList, ih]

theorem walk_snd :
    (∀ w, ∀ chain, (Widget.walk chain w).map Prod.snd = Widget.hdrs w) ∧
    (∀ l, ∀ chain, (Widget.walkList chain l).map Prod.snd = Widget.hdrsList l) := by
  apply Widget.induct
  · intro h chain
    simp [Widget.walk, Widget.hdrs]
  · intro h cs ih chain
    simp [Widget.walk, Widget.hdrs, ih]
  · intro chain
    simp [Widget.walkList, Widget.hdrsList]
  · intro w rest ihw ihl chain
    simp [Widget.walkList, Widget.hdrsList, ihw, ihl]

/-! ## The walk of `__ProcessTouch` -/

/-- A property `I` that every round keeps while the walk goes on, and a property
`Q` that every round that returns establishes, carry over to the whole walk. -/
theorem ProcessTouch_traverse (touch touchLast : GUI_TouchData_t) (I : TouchRun → Prop)
    (Q : __GUI_TouchStatus_t → TouchRun → Prop) :
    (∀ w, ∀ chain,
      (∀ x ∈ Widget.walk chain w, ∀ s r s1, I s →
        ProcessTouch_widget touch touchLast (GUI_HANDLE.offsets x.1) x.2 s = some (r, s1) →
        (r = .touchCONTINUE → I s1) ∧ (r ≠ .touchCONTINUE → Q r s1)) →
      ∀ s r s1, I s →
        __ProcessTouch_h touch touchLast (GUI_HANDLE.offsets chain) s w = some (r, s1) →
        (r = .touchCONTINUE → I s1) ∧ (r ≠ .touchCONTINUE → Q r s1)) ∧
    (∀ l, ∀ chain,
      (∀ x ∈ Widget.walkList chain l, ∀ s r s1, I s →
        ProcessTouch_widget touch touchLast (GUI_HANDLE.offsets x.1) x.2 s = some (r, s1) →
        (r = .touchCONTINUE → I s1) ∧ (r ≠ .touchCONTINUE → Q r s1)) →
      ∀ s r s1, I s →
        __ProcessTouch_for touch touchLast (GUI_HANDLE.offsets chain) s l = some (r, s1) →
        (r = .touchCONTINUE → I s1) ∧ (r ≠ .touchCONTINUE → Q r s1)) := by
  apply Widget.induct
  · intro h chain hstep s r s1 hI hres
    exact hstep (chain, h) (by simp [Widget.walk]) s r s1 hI (by simpa [__ProcessTouch_h] using hres)
  · intro h cs ih chain hstep s r s1 hI hres
    have hoff : ((h.X, h.Y) :: GUI_HANDLE.offsets chain) = GUI_HANDLE.offsets (h :: chain) := rfl
    simp only [__ProcessTouch_h, hoff] at hres
    cases hfor : __ProcessTouch_for touch touchLast (GUI_HANDLE.offsets (h :: chain)) s cs with
    | none => rw [hfor] at hres; simp at hres
    | some res =>
      obtain ⟨r0, s0⟩ := res
      rw [hfor] at hres
      have h0 := ih (h :: chain) (fun x hx => hstep x (by simp [Widget.walk, hx])) s r0 s0 hI hfor
      by_cases hr0 : r0 = .touchCONTINUE
      · subst hr0
        simp only [ne_eq, not_true_eq_false, if_false] at hres
        exact hstep (chain, h) (by simp [Widget.walk]) s0 r s1 (h0.1 rfl) hres
      · simp only [ne_eq, hr0, not_false_eq_true, if_true, Option.some.injEq, Prod.mk.injEq] at hres
        obtain ⟨e1, e2⟩ := hres
        subst e1; subst e2
        exact h0
  · intro chain _ s r s1 hI hres
    simp only [__ProcessTouch_for, Option.some.injEq, Prod.mk.injEq] at hres
    obtain ⟨e1, e2⟩ := hres
    subst e1; subst e2
    exact ⟨fun _ => hI, fun hne => absurd rfl hne⟩
  · intro w rest ihw ihl chain hstep s r s1 hI hres
    simp only [__ProcessTouch_for] at hres
    cases hfor : __ProcessTouch_for touch touchLast (GUI_HANDLE.offsets chain) s rest with
    | none => rw [hfor] at hres; simp at hres
    | some res =>
      obtain ⟨r0, s0⟩ := res
      rw [hfor] at hres
      have h0 := ihl chain (fun x hx => hstep x (by simp [Widget.walkList, hx])) s r0 s0 hI hfor
      by_cases hr0 : r0 = .touchCONTINUE
      · subst hr0
        simp only [ne_eq, not_true_eq_false, if_false] at hres
        exact ihw chain (fun x hx => hstep x (by simp [Widget.walkList, hx])) s0 r s1
          (h0.1 rfl) hres
      · simp only [ne_eq, hr0, not_false_eq_true, if_true, Option.some.injEq, Prod.mk.injEq] at hres
        obtain ⟨e1, e2⟩ := hres
        subst e1; subst e2
        exact h0

theorem ProcessTouch_unfocus_ActiveWidget (GUI : GUI_t) :
    (ProcessTouch_unfocus GUI).ActiveWidget = GUI.ActiveWidget := by
  unfold ProcessTouch_unfocus
  split <;> rfl

/-- The outcomes of lines 121–166 for one widget. -/
theorem ProcessTouch_widget_cases (touch touchLast : GUI_TouchData_t) (anc : List (Int × Int))
    (h : GUI_HANDLE) (s s1 : TouchRun) (r : __GUI_TouchStatus_t)
    (hres : ProcessTouch_widget touch touchLast anc h s = some (r, s1)) :
    (r = .touchCONTINUE ∧ s1 = s) ∨
    (touch.Status = true ∧ touchLast.Status = false ∧ ProcessTouch_inside touch anc h = true ∧
      ∃ f, h.Widget.TouchDown = some f ∧ f touch = r ∧
        ((r = .touchCONTINUE ∧
            s1 = { GUI := s.GUI, calls := s.calls ++ [GUI_Call.TouchDown h.Handle] }) ∨
         (r = .touchHANDLED ∧
            s1 = { GUI := touchHandledGUI h.Handle s.GUI,
                   calls := s.calls ++ [GUI_Call.TouchDown h.Handle] }) ∨
         (r = .touchHANDLEDNOFOCUS ∧ s.GUI.ActiveWidget = none ∧
            s1 = { GUI := touchNoFocusGUI s.GUI,
                   calls := s.calls ++ [GUI_Call.TouchDown h.Handle] }))) ∨
    (touch.Status = false ∧ touchLast.Status = true ∧ ProcessTouch_inside touch anc h = true ∧
      r = .touchCONTINUE ∧
      s1 = { GUI := touchUpGUI h.Handle s.GUI,
             calls := if h.Widget.TouchUp then s.calls ++ [GUI_Call.TouchUp h.Handle]
                      else s.calls }) := by
  unfold ProcessTouch_widget at hres
  by_cases hin : ProcessTouch_inside touch anc h = true
  · cases hts : touch.Status <;> cases htl : touchLast.Status
    · simp [hin, hts, htl] at hres
      exact Or.inl ⟨hres.1.symm, hres.2.symm⟩
    · simp only [hin, hts, htl, if_true, Bool.false_and, Bool.not_false, Bool.true_and,
        Bool.false_eq_true, if_false, Bool.not_true, Bool.and_self] at hres
      refine Or.inr (Or.inr ⟨rfl, rfl, hin, ?_⟩)
      unfold touchUpGUI
      split at hres
      · rename_i hact
        simp only [Option.some.injEq, Prod.mk.injEq] at hres
        rw [if_pos hact]
        exact ⟨hres.1.symm, hres.2.symm⟩
      · rename_i hact
        simp only [Option.some.injEq, Prod.mk.injEq] at hres
        rw [if_neg hact]
        exact ⟨hres.1.symm, hres.2.symm⟩
    · simp only [hin, hts, htl, if_true, Bool.not_false, Bool.and_self] at hres
      cases hTD : h.Widget.TouchDown with
      | none =>
        simp [hTD] at hres
        exact Or.inl ⟨hres.1.symm, hres.2.symm⟩
      | some f =>
        simp only [hTD] at hres
        refine Or.inr (Or.inl ⟨rfl, rfl, hin, f, rfl, ?_⟩)
        cases hf : f touch
        · simp [hf] at hres
          obtain ⟨e1, e2⟩ := hres
          subst e1; subst e2
          exact ⟨rfl, Or.inl ⟨rfl, rfl⟩⟩
        · simp [hf] at hres
          obtain ⟨e1, e2⟩ := hres
          subst e1; subst e2
          exact ⟨rfl, Or.inr (Or.inl ⟨rfl, rfl⟩)⟩
        · simp [hf] at hres
          obtain ⟨e0, e1, e2⟩ := hres
          subst e1; subst e2
          rw [ProcessTouch_unfocus_ActiveWidget] at e0
          exact ⟨rfl, Or.inr (Or.inr ⟨rfl, e0, rfl⟩)⟩
    · simp [hin, hts, htl] at hres
      exact Or.inl ⟨hres.1.symm, hres.2.symm⟩
  · simp [hin] at hres
    exact Or.inl ⟨hres.1.symm, hres.2.symm⟩

theorem ProcessTouch_widget_down (touch touchLast : GUI_TouchData_t) (anc : List (Int × Int))
    (h : GUI_HANDLE) (s : TouchRun) (f : GUI_TouchData_t → __GUI_TouchStatus_t)
    (hdown : touch.Status = true) (hlast : touchLast.Status = false)
    (hin : ProcessTouch_inside touch anc h = true) (hTD : h.Widget.TouchDown = some f) :
    ProcessTouch_widget touch touchLast anc h s =
      match f touch with
      | .touchCONTINUE =>
        some (.touchCONTINUE, { GUI := s.GUI, calls := s.calls ++ [GUI_Call.TouchDown h.Handle] })
      | .touchHANDLED =>
        some (.touchHANDLED, { GUI := touchHandledGUI h.Handle s.GUI,
                               calls := s.calls ++ [GUI_Call.TouchDown h.Handle] })
      | .touchHANDLEDNOFOCUS =>
        if s.GUI.ActiveWidget.isSome then none
        else some (.touchHANDLEDNOFOCUS, { GUI := touchNoFocusGUI s.GUI,
                                           calls := s.calls ++ [GUI_Call.TouchDown h.Handle] }) := by
  unfold ProcessTouch_widget
  simp only [hin, hdown, hlast, hTD, if_true, Bool.not_false, Bool.and_self]
  cases hf : f touch
  · simp
  · simp
    rfl
  · simp [ProcessTouch_unfocus_ActiveWidget]
    rfl

theorem ProcessTouch_widget_up (touch touchLast : GUI_TouchData_t) (anc : List (Int × Int))
    (h : GUI_HANDLE) (s : TouchRun)
    (hup : touch.Status = false) (hlast : touchLast.Status = true)
    (hin : ProcessTouch_inside touch anc h = true) :
    ProcessTouch_widget touch touchLast anc h s =
      some (.touchCONTINUE,
        { GUI := touchUpGUI h.Handle s.GUI,
          calls := s.calls ++ (if h.Widget.TouchUp then [GUI_Call.TouchUp h.Handle] else []) }) := by
  unfold ProcessTouch_widget touchUpGUI
  by_cases hact : s.GUI.ActiveWidget = some h.Handle <;>
    by_cases hTU : h.Widget.TouchUp = true <;>
    simp [hin, hup, hlast, hact, hTU]

theorem ProcessTouch_for_append (touch touchLast : GUI_TouchData_t) (anc : List (Int × Int))
    (l1 l2 : List Widget) (s : TouchRun) :
    __ProcessTouch_for touch touchLast anc s (l1 ++ l2) =
      match __ProcessTouch_for touch touchLast anc s l2 with
      | none => none
      | some (tStat, s1) =>
        if tStat ≠ .touchCONTINUE then some (tStat, s1)
        else __ProcessTouch_for touch touchLast anc s1 l1 := by
  induction l1 with
  | nil =>
    simp only [List.nil_append, __ProcessTouch_for]
    cases hres : __ProcessTouch_for touch touchLast anc s l2 with
    | none => rfl
    | some res =>
      obtain ⟨r, s1⟩ := res
      by_cases hr : r = .touchCONTINUE <;> simp [hr]
  | cons w rest ih =>
    rw [List.cons_append]
    simp only [__ProcessTouch_for, ih]
    cases hres : __ProcessTouch_for touch touchLast anc s l2 with
    | none => rfl
    | some res =>
      obtain ⟨r, s1⟩ := res
      by_cases hr : r = .touchCONTINUE <;> simp [hr]

/-- C11: on a touch-down a child is queried before its container, and a child
that does not answer `touchCONTINUE` wins. Let the container `hP` and its
child leaf `C` both contain the point, the leaves `post` after `C` contain it
and answer `touchCONTINUE`. When `C` answers `touchCONTINUE` as the first child,
every outcome of the call on the container has queried `post`, then `C`, then
`hP`. When `C` does not answer `touchCONTINUE`, every outcome returns the answer
of `C` having queried `post` and `C` only, so the handler of `hP` is not
invoked; for the answer `touchHANDLED` the call does return, with `C` the
active widget. -/
theorem C11_child_wins_over_container (touch touchLast : GUI_TouchData_t)
    (chain : List GUI_HANDLE) (s : TouchRun) (hP C : GUI_HANDLE) (pre : List Widget)
    (post : List GUI_HANDLE) (fP fC : GUI_TouchData_t → __GUI_TouchStatus_t)
    (hdown : touch.Status = true) (hlast : touchLast.Status = false)
    (hPin : hitByTouch touch (chain, hP) = true) (hPf : hP.Widget.TouchDown = some fP)
    (hCin : hitByTouch touch (hP :: chain, C) = true) (hCf : C.Widget.TouchDown = some fC)
    (hpost : ∀ c ∈ post, hitByTouch touch (hP :: chain, c) = true ∧
      ∃ f, c.Widget.TouchDown = some f ∧ f touch = .touchCONTINUE) :
    (fC touch = .touchCONTINUE → ∀ r s1,
      __ProcessTouch_h touch touchLast (GUI_HANDLE.offsets chain) s
          (.container hP (Widget.leaf C :: post.map Widget.leaf)) = some (r, s1) →
        r = fP touch ∧
        s1.calls = s.calls ++ post.reverse.map (fun c => GUI_Call.TouchDown c.Handle) ++
          [GUI_Call.TouchDown C.Handle, GUI_Call.TouchDown hP.Handle]) ∧
    (fC touch ≠ .touchCONTINUE → ∀ r s1,
      __ProcessTouch_h touch touchLast (GUI_HANDLE.offsets chain) s
          (.container hP (pre ++ Widget.leaf C :: post.map Widget.leaf)) = some (r, s1) →
        r = fC touch ∧
        s1.calls = s.calls ++ post.reverse.map (fun c => GUI_Call.TouchDown c.Handle) ++
          [GUI_Call.TouchDown C.Handle]) ∧
    (fC touch = .touchHANDLED → ∃ s1,
      __ProcessTouch_h touch touchLast (GUI_HANDLE.offsets chain) s
          (.container hP (pre ++ Widget.leaf C :: post.map Widget.leaf)) =
        some (.touchHANDLED, s1) ∧
      s1.GUI.ActiveWidget = some C.Handle) := by
  have hoff : ((hP.X, hP.Y) :: GUI_HANDLE.offsets chain) = GUI_HANDLE.offsets (hP :: chain) := rfl
  have hPin1 : ProcessTouch_inside touch (GUI_HANDLE.offsets chain) hP = true := by
    rw [ProcessTouch_inside_eq]; exact hPin
  have hCin1 : ProcessTouch_inside touch (GUI_HANDLE.offsets (hP :: chain)) C = true := by
    rw [ProcessTouch_inside_eq]; exact hCin
  have hpost1 : ∀ c ∈ post,
      ProcessTouch_inside touch (GUI_HANDLE.offsets (hP :: chain)) c = true ∧
        ∃ f, c.Widget.TouchDown = some f ∧ f touch = .touchCONTINUE := by
    intro c hc
    rw [ProcessTouch_inside_eq]
    exact hpost c hc
  have hp := ProcessTouch_for_leaves_continue touch touchLast (GUI_HANDLE.offsets (hP :: chain))
    hdown hlast post hpost1 s
  have hC1 : __ProcessTouch_for touch touchLast (GUI_HANDLE.offsets (hP :: chain)) s
      (Widget.leaf C :: post.map Widget.leaf) =
      ProcessTouch_widget touch touchLast (GUI_HANDLE.offsets (hP :: chain)) C
        { GUI := s.GUI,
          calls := s.calls ++ post.reverse.map (fun c => GUI_Call.TouchDown c.Handle) } := by
    simp [__ProcessTouch_for, hp, __ProcessTouch_h]
  rw [ProcessTouch_widget_down touch touchLast _ C _ fC hdown hlast hCin1 hCf] at hC1
  refine ⟨?_, ?_, ?_⟩
  · intro hfc r s1 hres
    rw [hfc] at hC1
    simp only [__ProcessTouch_h, hoff, hC1, ne_eq, not_true_eq_false, if_false] at hres
    rw [ProcessTouch_widget_down touch touchLast _ hP _ fP hdown hlast hPin1 hPf] at hres
    cases hfp : fP touch <;> rw [hfp] at hres
    · simp only [Option.some.injEq, Prod.mk.injEq] at hres
      obtain ⟨e1, e2⟩ := hres
      subst e1; subst e2
      exact ⟨rfl, by simp⟩
    · simp only [Option.some.injEq, Prod.mk.injEq] at hres
      obtain ⟨e1, e2⟩ := hres
      subst e1; subst e2
      exact ⟨rfl, by simp⟩
    · by_cases hact : s.GUI.ActiveWidget.isSome = true
      · simp [hact] at hres
      · simp only [hact, Bool.false_eq_true, if_false, Option.some.injEq, Prod.mk.injEq] at hres
        obtain ⟨e1, e2⟩ := hres
        subst e1; subst e2
        exact ⟨rfl, by simp⟩
  · intro hfc r s1 hres
    simp only [__ProcessTouch_h, hoff, ProcessTouch_for_append, hC1] at hres
    cases hf : fC touch
    · exact absurd hf hfc
    · rw [hf] at hres
      simp only [ne_eq, reduceCtorEq, not_false_eq_true, if_true, Option.some.injEq,
        Prod.mk.injEq] at hres
      obtain ⟨e1, e2⟩ := hres
      subst e1; subst e2
      exact ⟨rfl, rfl⟩
    · rw [hf] at hres
      by_cases hact : s.GUI.ActiveWidget.isSome = true
      · simp [hact] at hres
      · simp only [hact, Bool.false_eq_true, if_false, ne_eq, reduceCtorEq, not_false_eq_true,
          if_true, Option.some.injEq, Prod.mk.injEq] at hres
        obtain ⟨e1, e2⟩ := hres
        subst e1; subst e2
        exact ⟨rfl, rfl⟩
  · intro hfc
    rw [hfc] at hC1
    refine ⟨{ GUI := touchHandledGUI C.Handle s.GUI,
              calls := s.calls ++ post.reverse.map (fun c => GUI_Call.TouchDown c.Handle) ++
                [GUI_Call.TouchDown C.Handle] }, ?_, rfl⟩
    simp only [__ProcessTouch_h, hoff, ProcessTouch_for_append, hC1]
    simp

theorem C11_child_wins_over_container_witness :
    samplePressed.Status = true ∧ sampleReleased.Status = false ∧
    hitByTouch samplePressed ([], sampleWindowP) = true ∧
    sampleWindowP.Widget.TouchDown = some (fun _ => .touchHANDLED) ∧
    hitByTouch samplePressed ([sampleWindowP], sampleChildC) = true ∧
    sampleChildC.Widget.TouchDown = some (fun _ => .touchHANDLED) ∧
    (∀ c ∈ [sampleChildPost], hitByTouch samplePressed ([sampleWindowP], c) = true ∧
      ∃ f, c.Widget.TouchDown = some f ∧ f samplePressed = .touchCONTINUE) ∧
    ((fun _ => __GUI_TouchStatus_t.touchHANDLED) samplePressed = .touchHANDLED → ∃ s1,
      __ProcessTouch_h samplePressed sampleReleased (GUI_HANDLE.offsets [])
          { GUI := sampleGUI [], calls := [] }
          (.container sampleWindowP
            ([Widget.leaf sampleChildPre] ++
              Widget.leaf sampleChildC :: [sampleChildPost].map Widget.leaf)) =
        some (.touchHANDLED, s1) ∧
      s1.GUI.ActiveWidget = some sampleChildC.Handle) :=
  have hpost : ∀ c ∈ [sampleChildPost], hitByTouch samplePressed ([sampleWindowP], c) = true ∧
      ∃ f, c.Widget.TouchDown = some f ∧ f samplePressed = .touchCONTINUE := by
    intro c hc
    rw [List.mem_singleton] at hc
    subst hc
    exact ⟨by decide, fun _ => .touchCONTINUE, rfl, rfl⟩
  ⟨rfl, rfl, by decide, rfl, by decide, rfl, hpost,
   (C11_child_wins_over_container samplePressed sampleReleased []
     { GUI := sampleGUI [], calls := [] } sampleWindowP sampleChildC [Widget.leaf sampleChildPre]
     [sampleChildPost] (fun _ => .touchHANDLED) (fun _ => .touchHANDLED) rfl rfl (by decide) rfl
     (by decide) rfl hpost).2.2⟩

/-- C13, the code at the failing input: with an active widget and no focused
widget, a touch-down on a widget whose handler answers `touchHANDLEDNOFOCUS`
reaches line 148 with `GUI.FocusedWidget` just set to null and writes through
it, where the active widget was to lose its flag. -/
theorem C13_no_focus_writes_through_null :
    (sampleActiveGUI [.leaf sampleLed]).ActiveWidget = some 31 ∧
    (sampleActiveGUI [.leaf sampleLed]).FocusedWidget = none ∧
    __ProcessTouch samplePressed sampleReleased (sampleActiveGUI [.leaf sampleLed]) = none :=
  ⟨rfl, rfl, rfl⟩

theorem touchUpGUI_hdrs (p : Nat) (G : GUI_t) (hact : G.ActiveWidget = some p) :
    (touchUpGUI p G).ActiveWidget = none ∧
    Widget.hdrsList (touchUpGUI p G).Root =
      (Widget.hdrsList G.Root).map (fun y => if y.Handle = p then y.released else y) := by
  unfold touchUpGUI
  rw [if_pos hact]
  refine ⟨rfl, ?_⟩
  simp only [__GUI_WIDGET_Invalidate, GUI_t.setFlags, (hdrs_update _ _).2, List.map_map]
  apply List.map_congr_left
  intro y _
  by_cases hy : y.Handle = p
  · simp [hy, GUI_HANDLE.setREDRAW, GUI_HANDLE.released]
  · simp [hy]

/-- C15: on a falling edge over a hit widget `h`, `__ProcessTouch` invokes the
touch-up handler of `h` when it has one, does not look at what the handler
returns and goes on with the walk. When `h` is the active widget, it (and
nothing else) loses `GUI_FLAG_ACTIVE` and is invalidated, and
`GUI.ActiveWidget` becomes null; when it is not, the state is left as it
was. -/
theorem C15_touch_up_releases_active_widget (touch touchLast : GUI_TouchData_t)
    (chain : List GUI_HANDLE) (h : GUI_HANDLE) (s : TouchRun)
    (hup : touch.Status = false) (hlast : touchLast.Status = true)
    (hin : hitByTouch touch (chain, h) = true) :
    ∃ s1, ProcessTouch_widget touch touchLast (GUI_HANDLE.offsets chain) h s =
        some (.touchCONTINUE, s1) ∧
      s1.calls = s.calls ++ (if h.Widget.TouchUp then [GUI_Call.TouchUp h.Handle] else []) ∧
      (s.GUI.ActiveWidget = some h.Handle →
        s1.GUI.ActiveWidget = none ∧
        Widget.hdrsList s1.GUI.Root =
          (Widget.hdrsList s.GUI.Root).map
            (fun y => if y.Handle = h.Handle then y.released else y)) ∧
      (s.GUI.ActiveWidget ≠ some h.Handle → s1.GUI = s.GUI) := by
  have hin1 : ProcessTouch_inside touch (GUI_HANDLE.offsets chain) h = true := by
    rw [ProcessTouch_inside_eq]; exact hin
  refine ⟨_, ProcessTouch_widget_up touch touchLast _ h s hup hlast hin1, rfl, ?_, ?_⟩
  · intro hact
    exact touchUpGUI_hdrs h.Handle s.GUI hact
  · intro hact
    simp only [touchUpGUI, if_neg hact]

theorem C15_touch_up_releases_active_widget_witness :
    sampleReleased.Status = false ∧ samplePressed.Status = true ∧
    hitByTouch sampleReleased ([], sampleB) = true ∧
    ∃ s1, ProcessTouch_widget sampleReleased samplePressed (GUI_HANDLE.offsets []) sampleB
          { GUI := { sampleGUI [.leaf sampleA, .leaf sampleB] with ActiveWidget := some 12 },
            calls := [] } =
        some (.touchCONTINUE, s1) ∧
      s1.calls = [] ++ (if sampleB.Widget.TouchUp then [GUI_Call.TouchUp sampleB.Handle] else []) ∧
      ((some 12 : Option Nat) = some sampleB.Handle →
        s1.GUI.ActiveWidget = none ∧
        Widget.hdrsList s1.GUI.Root =
          (Widget.hdrsList [Widget.leaf sampleA, Widget.leaf sampleB]).map
            (fun y => if y.Handle = sampleB.Handle then y.released else y)) ∧
      ((some 12 : Option Nat) ≠ some sampleB.Handle →
        s1.GUI = { sampleGUI [.leaf sampleA, .leaf sampleB] with ActiveWidget := some 12 }) :=
  ⟨rfl, rfl, by decide,
   C15_touch_up_releases_active_widget sampleReleased samplePressed [] sampleB
     { GUI := { sampleGUI [.leaf sampleA, .leaf sampleB] with ActiveWidget := some 12 },
       calls := [] } rfl rfl (by decide)⟩

/-- C17: with an active widget and both the previous and the current sample
pressed, the round of `GUI_Process` hands the sample to the touch-move handler
of the active widget, when it has one, and to nothing else: no hit-test runs,
so no touch-down or touch-up handler is invoked, and the global object (active
and focused pointer, every flag, the child order) is left as it was. -/
theorem C17_drag_goes_to_touch_move_only (touch : GUI_TouchData_t) (r : ProcessRun) (p : Nat)
    (h : GUI_HANDLE) (hact : r.GUI.ActiveWidget = some p)
    (hfind : Widget.findList p r.GUI.Root = some h)
    (hnow : touch.Status = true) (hlast : r.touchLast.Status = true) :
    GUI_Process_sample touch r =
      some { GUI := r.GUI, touchLast := touch,
             calls := r.calls ++ (if h.Widget.TouchMove then [GUI_Call.TouchMove p] else []) } := by
  unfold GUI_Process_sample GUI_Process_release
  by_cases hm : h.Widget.TouchMove = true <;> simp [hact, hfind, hnow, hlast, hm]

theorem C17_drag_goes_to_touch_move_only_witness :
    (sampleActiveGUI [.leaf sampleLed]).ActiveWidget = some 31 ∧
    Widget.findList 31 (sampleActiveGUI [.leaf sampleLed]).Root = some sampleActive ∧
    samplePressed.Status = true ∧ samplePressed.Status = true ∧
    GUI_Process_sample samplePressed
        { GUI := sampleActiveGUI [.leaf sampleLed], touchLast := samplePressed, calls := [] } =
      some { GUI := sampleActiveGUI [.leaf sampleLed], touchLast := samplePressed,
             calls := [] ++ (if sampleActive.Widget.TouchMove then [GUI_Call.TouchMove 31]
                             else []) } :=
  ⟨rfl, rfl, rfl, rfl,
   C17_drag_goes_to_touch_move_only samplePressed
     { GUI := sampleActiveGUI [.leaf sampleLed], touchLast := samplePressed, calls := [] }
     31 sampleActive rfl rfl rfl rfl⟩

/-! ## A touch-down that is handled -/

theorem ProcessTouch_unfocus_hdrs (G : GUI_t) :
    Widget.hdrsList (ProcessTouch_unfocus G).Root =
      (Widget.hdrsList G.Root).map (fun y =>
        { y with Flags :=
            { REDRAW := y.Flags.REDRAW || decide (G.FocusedWidget = some y.Handle),
              ACTIVE := y.Flags.ACTIVE,
              FOCUS := y.Flags.FOCUS && !decide (G.FocusedWidget = some y.Handle) } }) := by
  unfold ProcessTouch_unfocus
  cases hf : G.FocusedWidget with
  | none => simp
  | some pf =>
    simp only [__GUI_WIDGET_Invalidate, GUI_t.setFlags, (hdrs_update _ _).2, List.map_map]
    apply List.map_congr_left
    intro y _
    by_cases hy : y.Handle = pf
    · simp [hy, GUI_HANDLE.setREDRAW]
    · have hy2 : ¬ pf = y.Handle := fun e => hy e.symm
      simp [hy, hy2]

theorem touchHandledGUI_hdrs (p : Nat) (G : GUI_t) :
    (Widget.hdrsList (touchHandledGUI p G).Root).Perm
      ((Widget.hdrsList G.Root).map (GUI_HANDLE.handled p G.FocusedWidget)) := by
  unfold touchHandledGUI
  simp only [__GUI_WIDGET_Invalidate, GUI_t.setFlags, __GUI_LINKEDLIST_MoveDown_Widget,
    (hdrs_update _ _).2, List.map_map]
  refine ((hdrs_moveDown p).2 _).map _ |>.trans ?_
  rw [ProcessTouch_unfocus_hdrs, List.map_map]
  apply List.Perm.of_eq
  apply List.map_congr_left
  intro y _
  by_cases hy : y.Handle = p
  · simp [hy, GUI_HANDLE.setREDRAW, GUI_HANDLE.handled, Bool.or_comm, Bool.or_assoc]
  · simp [hy, GUI_HANDLE.handled]

theorem touchHandledGUI_pointers (p : Nat) (G : GUI_t) :
    (touchHandledGUI p G).ActiveWidget = some p ∧
    (touchHandledGUI p G).FocusedWidget = G.ActiveWidget :=
  ⟨rfl, ProcessTouch_unfocus_ActiveWidget G⟩

/-- On a touch-down the walk leaves the state as it was until a handler claims
the sample, and a call that returns another status than `touchCONTINUE` has
run one of the branches of lines 130–152 for a hit widget of the tree. -/
theorem ProcessTouch_down_origin (touch touchLast : GUI_TouchData_t) (G : GUI_t)
    (hdown : touch.Status = true) (r : __GUI_TouchStatus_t) (s1 : TouchRun)
    (hres : __ProcessTouch touch touchLast G = some (r, s1)) :
    (r = .touchCONTINUE → s1.GUI = G) ∧
    (r ≠ .touchCONTINUE →
      ∃ x ∈ Widget.walkList [] G.Root, hitByTouch touch x = true ∧
        ∃ f, x.2.Widget.TouchDown = some f ∧ f touch = r ∧
          ((r = .touchHANDLED ∧ s1.GUI = touchHandledGUI x.2.Handle G) ∨
           (r = .touchHANDLEDNOFOCUS ∧ G.ActiveWidget = none ∧ s1.GUI = touchNoFocusGUI G))) := by
  refine (ProcessTouch_traverse touch touchLast (fun s => s.GUI = G)
    (fun r s1 => ∃ x ∈ Widget.walkList [] G.Root, hitByTouch touch x = true ∧
        ∃ f, x.2.Widget.TouchDown = some f ∧ f touch = r ∧
          ((r = .touchHANDLED ∧ s1.GUI = touchHandledGUI x.2.Handle G) ∨
           (r = .touchHANDLEDNOFOCUS ∧ G.ActiveWidget = none ∧ s1.GUI = touchNoFocusGUI G)))).2
    G.Root [] ?_ { GUI := G, calls := [] } r s1 rfl hres
  intro x hx s r s1 hI hstep
  have hI' : s.GUI = G := hI
  rcases ProcessTouch_widget_cases touch touchLast _ x.2 s s1 r hstep with
    ⟨e1, e2⟩ | ⟨_, _, hin, f, hf, hfr, hcase⟩ | ⟨hup, _, _, _, _⟩
  · subst e1; subst e2
    exact ⟨fun _ => hI', fun hne => absurd rfl hne⟩
  · rw [ProcessTouch_inside_eq] at hin
    rcases hcase with ⟨e1, e2⟩ | ⟨e1, e2⟩ | ⟨e1, e0, e2⟩
    · subst e1; subst e2
      exact ⟨fun _ => hI', fun hne => absurd rfl hne⟩
    · subst e1; subst e2
      refine ⟨fun hc => (by cases hc), fun _ => ⟨x, hx, hin, f, hf, hfr, Or.inl ⟨rfl, ?_⟩⟩⟩
      show touchHandledGUI x.2.Handle s.GUI = touchHandledGUI x.2.Handle G
      rw [hI']
    · subst e1; subst e2
      refine ⟨fun hc => (by cases hc), fun _ => ⟨x, hx, hin, f, hf, hfr, Or.inr ⟨rfl, ?_, ?_⟩⟩⟩
      · rw [← hI']; exact e0
      · show touchNoFocusGUI s.GUI = touchNoFocusGUI G
        rw [hI']
  · rw [hdown] at hup
    cases hup

theorem filter_handle_length_one (l : List GUI_HANDLE)
    (hnd : (l.map (fun y => y.Handle)).Nodup) (y : GUI_HANDLE) (hy : y ∈ l) :
    (l.filter (fun z => decide (z.Handle = y.Handle))).length = 1 := by
  induction l with
  | nil => simp at hy
  | cons a rest ih =>
    simp only [List.map_cons, List.nodup_cons, List.mem_map, not_exists, not_and] at hnd
    obtain ⟨ha, hrest⟩ := hnd
    rcases List.mem_cons.1 hy with e | hmem
    · subst e
      have hnil : rest.filter (fun z => decide (z.Handle = y.Handle)) = [] := by
        rw [List.filter_eq_nil_iff]
        intro z hz
        simpa using ha z hz
      simp [List.filter_cons, hnil]
    · have hne : ¬ a.Handle = y.Handle := fun e => ha y hmem e.symm
      simp [List.filter_cons, hne, ih hrest hmem]

theorem walk_snd_mem (l : List Widget) (chain : List GUI_HANDLE)
    (x : List GUI_HANDLE × GUI_HANDLE) (hx : x ∈ Widget.walkList chain l) :
    x.2 ∈ Widget.hdrsList l := by
  rw [← walk_snd.2 l chain]
  exact List.mem_map_of_mem _ hx

/-- The claim C12 fails in a state where another widget carries
`GUI_FLAG_ACTIVE`: after a touch-down that `sampleB` handles, `sampleB` is the
active widget, but the widget that was active before still carries the flag
next to it. -/
theorem C12_counterexample :
    (__ProcessTouch samplePressed sampleReleased (sampleActiveGUI [.leaf sampleB])).map
      (fun r => (r.1, r.2.GUI.ActiveWidget,
        ((Widget.hdrsList r.2.GUI.Root).filter (fun y => y.Flags.ACTIVE)).map
          (fun y => y.Handle))) =
      some (.touchHANDLED, some 12, [31, 12]) := by
  decide

/-- C12, amended: when a touch-down is handled (`__ProcessTouch` returns
`touchHANDLED` for a pressed sample), a hit widget `h` of the tree whose handler answered
`touchHANDLED` is the active widget afterwards and `GUI.FocusedWidget` is the
widget that was active before the call. If no widget other than `h` carried
`GUI_FLAG_ACTIVE` before the call, then afterwards the widgets that carry it
are those with the handle of `h`, and exactly one widget carries it. -/
theorem C12_handled_gives_one_active_widget (touch touchLast : GUI_TouchData_t) (GUI : GUI_t)
    (s1 : TouchRun) (hdown : touch.Status = true)
    (hret : __ProcessTouch touch touchLast GUI = some (.touchHANDLED, s1))
    (hnodup : ((Widget.hdrsList GUI.Root).map (fun y => y.Handle)).Nodup) :
    ∃ x ∈ Widget.walkList [] GUI.Root, hitByTouch touch x = true ∧
      (∃ f, x.2.Widget.TouchDown = some f ∧ f touch = .touchHANDLED) ∧
      s1.GUI.ActiveWidget = some x.2.Handle ∧
      s1.GUI.FocusedWidget = GUI.ActiveWidget ∧
      ((∀ y ∈ Widget.hdrsList GUI.Root, y.Flags.ACTIVE = true → y.Handle = x.2.Handle) →
        (∀ y ∈ Widget.hdrsList s1.GUI.Root, (y.Flags.ACTIVE = true ↔ y.Handle = x.2.Handle)) ∧
        ((Widget.hdrsList s1.GUI.Root).filter (fun y => y.Flags.ACTIVE)).length = 1) := by
  obtain ⟨x, hx, hin, f, hf, hfr, hcase⟩ :=
    (ProcessTouch_down_origin touch touchLast GUI hdown _ s1 hret).2 (by decide)
  rcases hcase with ⟨_, hG⟩ | ⟨hc, _⟩
  swap
  · cases hc
  refine ⟨x, hx, hin, ⟨f, hf, hfr⟩, ?_, ?_, ?_⟩
  · rw [hG]; rfl
  · rw [hG]; exact (touchHandledGUI_pointers _ _).2
  · intro hclean
    have hperm := touchHandledGUI_hdrs x.2.Handle GUI
    rw [← hG] at hperm
    constructor
    · intro y hy
      obtain ⟨y0, hy0, e⟩ := List.mem_map.1 (hperm.mem_iff.1 hy)
      subst e
      have := hclean y0 hy0
      by_cases ha : y0.Flags.ACTIVE = true
      · simp [GUI_HANDLE.handled, ha, this ha]
      · simp [GUI_HANDLE.handled, ha]
    · rw [(hperm.filter _).length_eq, List.filter_map, List.length_map]
      have hcongr : (Widget.hdrsList GUI.Root).filter
            ((fun y => y.Flags.ACTIVE) ∘ GUI_HANDLE.handled x.2.Handle GUI.FocusedWidget) =
          (Widget.hdrsList GUI.Root).filter (fun z => decide (z.Handle = x.2.Handle)) := by
        apply List.filter_congr
        intro y0 hy0
        have := hclean y0 hy0
        by_cases ha : y0.Flags.ACTIVE = true
        · simp [GUI_HANDLE.handled, ha, this ha]
        · simp [GUI_HANDLE.handled, ha]
      rw [hcongr]
      exact filter_handle_length_one _ hnodup x.2 (walk_snd_mem _ _ x hx)

theorem C12_handled_gives_one_active_widget_witness :
    samplePressed.Status = true ∧
    __ProcessTouch samplePressed sampleReleased
        (sampleGUI [.leaf sampleA, .leaf sampleB, .leaf sampleC]) =
      some (.touchHANDLED,
        { GUI := touchHandledGUI 12 (sampleGUI [.leaf sampleA, .leaf sampleB, .leaf sampleC]),
          calls := [GUI_Call.TouchDown 13, GUI_Call.TouchDown 12] }) ∧
    ((Widget.hdrsList (sampleGUI [.leaf sampleA, .leaf sampleB, .leaf sampleC]).Root).map
      (fun y => y.Handle)).Nodup ∧
    ∃ x ∈ Widget.walkList [] (sampleGUI [.leaf sampleA, .leaf sampleB, .leaf sampleC]).Root,
      hitByTouch samplePressed x = true ∧
      (∃ f, x.2.Widget.TouchDown = some f ∧ f samplePressed = .touchHANDLED) ∧
      (touchHandledGUI 12
        (sampleGUI [.leaf sampleA, .leaf sampleB, .leaf sampleC])).ActiveWidget =
          some x.2.Handle ∧
      (touchHandledGUI 12
        (sampleGUI [.leaf sampleA, .leaf sampleB, .leaf sampleC])).FocusedWidget =
          (sampleGUI [.leaf sampleA, .leaf sampleB, .leaf sampleC]).ActiveWidget ∧
      ((∀ y ∈ Widget.hdrsList (sampleGUI [.leaf sampleA, .leaf sampleB, .leaf sampleC]).Root,
          y.Flags.ACTIVE = true → y.Handle = x.2.Handle) →
        (∀ y ∈ Widget.hdrsList (touchHandledGUI 12
            (sampleGUI [.leaf sampleA, .leaf sampleB, .leaf sampleC])).Root,
          (y.Flags.ACTIVE = true ↔ y.Handle = x.2.Handle)) ∧
        ((Widget.hdrsList (touchHandledGUI 12
            (sampleGUI [.leaf sampleA, .leaf sampleB, .leaf sampleC])).Root).filter
          (fun y => y.Flags.ACTIVE)).length = 1) :=
  ⟨rfl, rfl, by decide,
   C12_handled_gives_one_active_widget samplePressed sampleReleased
     (sampleGUI [.leaf sampleA, .leaf sampleB, .leaf sampleC])
     { GUI := touchHandledGUI 12 (sampleGUI [.leaf sampleA, .leaf sampleB, .leaf sampleC]),
       calls := [GUI_Call.TouchDown 13, GUI_Call.TouchDown 12] } rfl rfl (by decide)⟩

/-! ## The move to the end of the child list -/

theorem hdr_mem_hdrs (w : Widget) : w.hdr ∈ Widget.hdrs w := by
  cases w <;> simp [Widget.hdr, Widget.hdrs]

theorem update_hdr_handle (q : Nat) (f : GUI_HANDLE → GUI_HANDLE)
    (hf : ∀ y, (f y).Handle = y.Handle) (w : Widget) :
    (Widget.update q f w).hdr.Handle = w.hdr.Handle := by
  cases w <;> simp only [Widget.update, Widget.hdr] <;> split <;> simp [hf]

theorem moveDown_hdr (p : Nat) (w : Widget) : (Widget.moveDown p w).hdr = w.hdr := by
  cases w <;> rfl

theorem hdrs_update_handles (q : Nat) (f : GUI_HANDLE → GUI_HANDLE)
    (hf : ∀ y, (f y).Handle = y.Handle) (l : List Widget) :
    (Widget.hdrsList (Widget.updateList q f l)).map (fun y => y.Handle) =
      (Widget.hdrsList l).map (fun y => y.Handle) := by
  rw [(hdrs_update q f).2, List.map_map]
  apply List.map_congr_left
  intro y _
  by_cases hy : y.Handle = q <;> simp [hy, hf]

theorem heldLast_update (p q : Nat) (f : GUI_HANDLE → GUI_HANDLE)
    (hf : ∀ y, (f y).Handle = y.Handle) :
    (∀ w, Widget.heldLast p (Widget.update q f w) = Widget.heldLast p w) ∧
    (∀ l, Widget.heldLastList p (Widget.updateList q f l) = Widget.heldLastList p l) := by
  apply Widget.induct
  · intro h
    simp [Widget.update, Widget.heldLast]
  · intro h cs ih
    simp [Widget.update, Widget.heldLast, ih]
  · simp [Widget.updateList, Widget.heldLastList]
  · intro w rest ihw ihl
    have hempty : (Widget.updateList q f rest).isEmpty = rest.isEmpty := by
      cases rest <;> simp [Widget.updateList]
    simp only [Widget.updateList, Widget.heldLastList, ihw, ihl, hempty,
      update_hdr_handle q f hf]

theorem heldLast_absent (p : Nat) :
    (∀ w, (∀ y ∈ Widget.hdrs w, y.Handle ≠ p) → Widget.heldLast p w = true) ∧
    (∀ l, (∀ y ∈ Widget.hdrsList l, y.Handle ≠ p) → Widget.heldLastList p l = true) := by
  apply Widget.induct
  · intro h _
    rfl
  · intro h cs ih habs
    simp only [Widget.heldLast]
    exact ih (fun y hy => habs y (by simp [Widget.hdrs, hy]))
  · intro _
    rfl
  · intro w rest ihw ihl habs
    have h1 : w.hdr.Handle ≠ p :=
      habs _ (by simp only [Widget.hdrsList, List.mem_append]; exact Or.inl (hdr_mem_hdrs w))
    simp only [Widget.heldLastList, Bool.and_eq_true, Bool.or_eq_true, decide_eq_true_eq]
    exact ⟨⟨Or.inl h1, ihw (fun y hy => habs y (by simp [Widget.hdrsList, hy]))⟩,
      ihl (fun y hy => habs y (by simp [Widget.hdrsList, hy]))⟩

theorem heldLastList_append_single (p : Nat) (w : Widget) (l : List Widget)
    (habs : ∀ y ∈ Widget.hdrsList l, y.Handle ≠ p) :
    Widget.heldLastList p (l ++ [w]) = Widget.heldLast p w := by
  induction l with
  | nil => simp [Widget.heldLastList]
  | cons v rest ih =>
    have h1 : v.hdr.Handle ≠ p :=
      habs _ (by simp only [Widget.hdrsList, List.mem_append]; exact Or.inl (hdr_mem_hdrs v))
    have h2 : Widget.heldLast p v = true :=
      (heldLast_absent p).1 v (fun y hy => habs y (by simp [Widget.hdrsList, hy]))
    have h3 := ih (fun y hy => habs y (by simp [Widget.hdrsList, hy]))
    simp [Widget.heldLastList, h1, h2, h3]

theorem heldLast_moveDown (p : Nat) :
    (∀ w, ((Widget.hdrs w).map (fun y => y.Handle)).Nodup →
      Widget.heldLast p (Widget.moveDown p w) = true) ∧
    (∀ l, ((Widget.hdrsList l).map (fun y => y.Handle)).Nodup →
      Widget.heldLastList p (Widget.moveDownList p l) = true) := by
  apply Widget.induct
  · intro h _
    rfl
  · intro h cs ih hnd
    simp only [Widget.hdrs, List.map_cons, List.nodup_cons] at hnd
    simp only [Widget.moveDown, Widget.heldLast]
    exact ih hnd.2
  · intro _
    rfl
  · intro w rest ihw ihl hnd
    simp only [Widget.hdrsList, List.map_append] at hnd
    have hndw := (List.nodup_append.1 hnd).1
    have hndr := (List.nodup_append.1 hnd).2.1
    have hdis := (List.nodup_append.1 hnd).2.2
    simp only [Widget.moveDownList]
    split
    · rename_i hw
      have hwmem : p ∈ (Widget.hdrs w).map (fun y => y.Handle) :=
        List.mem_map.2 ⟨w.hdr, hdr_mem_hdrs w, hw⟩
      have habs : ∀ y ∈ Widget.hdrsList (Widget.moveDownList p rest), y.Handle ≠ p := by
        intro y hy e
        have hy' : y ∈ Widget.hdrsList rest := ((hdrs_moveDown p).2 rest).mem_iff.1 hy
        exact hdis hwmem (List.mem_map.2 ⟨y, hy', e⟩)
      rw [heldLastList_append_single p w _ habs]
      cases w with
      | leaf h => rfl
      | container h cs =>
        simp only [Widget.hdrs, List.map_cons, List.nodup_cons, List.mem_map, not_exists,
          not_and] at hndw
        simp only [Widget.hdr] at hw
        simp only [Widget.heldLast]
        apply (heldLast_absent p).2
        intro y hy e
        exact hndw.1 y hy (by rw [e, hw])
    · rename_i hw
      simp only [Widget.heldLastList, moveDown_hdr, Bool.and_eq_true, Bool.or_eq_true,
        decide_eq_true_eq]
      exact ⟨⟨Or.inl hw, ihw hndw⟩, ihl hndr⟩

theorem touchHandledGUI_heldLast (p : Nat) (G : GUI_t)
    (hnodup : ((Widget.hdrsList G.Root).map (fun y => y.Handle)).Nodup) :
    Widget.heldLastList p (touchHandledGUI p G).Root = true := by
  have hR1 : ((Widget.hdrsList (ProcessTouch_unfocus G).Root).map (fun y => y.Handle)).Nodup := by
    rw [ProcessTouch_unfocus_hdrs, List.map_map]
    exact hnodup
  have key : ∀ (f g : GUI_HANDLE → GUI_HANDLE), (∀ y, (f y).Handle = y.Handle) →
      (∀ y, (g y).Handle = y.Handle) → ∀ l,
      Widget.heldLastList p (Widget.updateList p f (Widget.updateList p g l)) =
        Widget.heldLastList p l := by
    intro f g hf hg l
    rw [(heldLast_update p p f hf).2, (heldLast_update p p g hg).2]
  unfold touchHandledGUI
  simp only [__GUI_WIDGET_Invalidate, GUI_t.setFlags, __GUI_LINKEDLIST_MoveDown_Widget]
  refine Eq.trans (key _ _ ?_ ?_ _) ((heldLast_moveDown p).2 _ hR1)
  · intro y; rfl
  · intro y; rfl

/-- C14: when a touch-down is handled (`__ProcessTouch` returns `touchHANDLED`
for a pressed sample) by the hit widget `h`, the widget that was focused, if
any, has `GUI_FLAG_FOCUS` clear and `GUI_FLAG_REDRAW` set; `h` is still in the
tree, with `GUI_FLAG_ACTIVE` and `GUI_FLAG_REDRAW` set, and is the last of the
child list that holds it. The loop of a hit-test examines the last child of a
list before the others. -/
theorem C14_handled_widget_flagged_and_moved (touch touchLast : GUI_TouchData_t) (GUI : GUI_t)
    (s1 : TouchRun) (hdown : touch.Status = true)
    (hret : __ProcessTouch touch touchLast GUI = some (.touchHANDLED, s1))
    (hnodup : ((Widget.hdrsList GUI.Root).map (fun y => y.Handle)).Nodup) :
    (∃ x ∈ Widget.walkList [] GUI.Root, hitByTouch touch x = true ∧
      (∃ f, x.2.Widget.TouchDown = some f ∧ f touch = .touchHANDLED) ∧
      (∀ pf, GUI.FocusedWidget = some pf → ∀ y ∈ Widget.hdrsList s1.GUI.Root,
        y.Handle = pf → y.Flags.FOCUS = false ∧ y.Flags.REDRAW = true) ∧
      (∀ y ∈ Widget.hdrsList s1.GUI.Root, y.Handle = x.2.Handle →
        y.Flags.ACTIVE = true ∧ y.Flags.REDRAW = true) ∧
      (∃ y ∈ Widget.hdrsList s1.GUI.Root, y.Handle = x.2.Handle) ∧
      Widget.heldLastList x.2.Handle s1.GUI.Root = true) ∧
    (∀ (t tl : GUI_TouchData_t) (anc : List (Int × Int)) (s : TouchRun) (l : List Widget)
        (w : Widget),
      __ProcessTouch_for t tl anc s (l ++ [w]) =
        match __ProcessTouch_h t tl anc s w with
        | none => none
        | some (tStat, s2) =>
          if tStat ≠ .touchCONTINUE then some (tStat, s2)
          else __ProcessTouch_for t tl anc s2 l) := by
  constructor
  · obtain ⟨x, hx, hin, f, hf, hfr, hcase⟩ :=
      (ProcessTouch_down_origin touch touchLast GUI hdown _ s1 hret).2 (by decide)
    rcases hcase with ⟨_, hG⟩ | ⟨hc, _⟩
    swap
    · cases hc
    have hperm := touchHandledGUI_hdrs x.2.Handle GUI
    rw [← hG] at hperm
    refine ⟨x, hx, hin, ⟨f, hf, hfr⟩, ?_, ?_, ?_, ?_⟩
    · intro pf hpf y hy hyp
      obtain ⟨y0, _, e⟩ := List.mem_map.1 (hperm.mem_iff.1 hy)
      subst e
      have hy0 : y0.Handle = pf := hyp
      simp [GUI_HANDLE.handled, hpf, hy0]
    · intro y hy hyp
      obtain ⟨y0, _, e⟩ := List.mem_map.1 (hperm.mem_iff.1 hy)
      subst e
      have hy0 : y0.Handle = x.2.Handle := hyp
      simp [GUI_HANDLE.handled, hy0]
    · exact ⟨GUI_HANDLE.handled x.2.Handle GUI.FocusedWidget x.2,
        hperm.mem_iff.2 (List.mem_map_of_mem _ (walk_snd_mem _ _ x hx)), rfl⟩
    · rw [hG]
      exact touchHandledGUI_heldLast _ _ hnodup
  · intro t tl anc s l w
    rw [ProcessTouch_for_append]
    simp only [__ProcessTouch_for]
    cases __ProcessTouch_h t tl anc s w with
    | none => rfl
    | some res => rfl

theorem C14_handled_widget_flagged_and_moved_witness :
    samplePressed.Status = true ∧
    __ProcessTouch samplePressed sampleReleased sampleFocusedGUI =
      some (.touchHANDLED,
        { GUI := touchHandledGUI 12 sampleFocusedGUI,
          calls := [GUI_Call.TouchDown 13, GUI_Call.TouchDown 12] }) ∧
    ((Widget.hdrsList sampleFocusedGUI.Root).map (fun y => y.Handle)).Nodup ∧
    (Widget.hdrsList (touchHandledGUI 12 sampleFocusedGUI).Root).map
        (fun y => (y.Handle, y.Flags.REDRAW, y.Flags.ACTIVE, y.Flags.FOCUS)) =
      [(41, true, false, false), (11, false, false, false), (13, false, false, false),
       (12, true, true, false)] ∧
    ∃ x ∈ Widget.walkList [] sampleFocusedGUI.Root, hitByTouch samplePressed x = true ∧
      (∃ f, x.2.Widget.TouchDown = some f ∧ f samplePressed = .touchHANDLED) ∧
      (∀ pf, sampleFocusedGUI.FocusedWidget = some pf →
        ∀ y ∈ Widget.hdrsList (touchHandledGUI 12 sampleFocusedGUI).Root,
          y.Handle = pf → y.Flags.FOCUS = false ∧ y.Flags.REDRAW = true) ∧
      (∀ y ∈ Widget.hdrsList (touchHandledGUI 12 sampleFocusedGUI).Root,
        y.Handle = x.2.Handle → y.Flags.ACTIVE = true ∧ y.Flags.REDRAW = true) ∧
      (∃ y ∈ Widget.hdrsList (touchHandledGUI 12 sampleFocusedGUI).Root,
        y.Handle = x.2.Handle) ∧
      Widget.heldLastList x.2.Handle (touchHandledGUI 12 sampleFocusedGUI).Root = true :=
  ⟨rfl, rfl, by decide, by decide,
   (C14_handled_widget_flagged_and_moved samplePressed sampleReleased sampleFocusedGUI
     { GUI := touchHandledGUI 12 sampleFocusedGUI,
       calls := [GUI_Call.TouchDown 13, GUI_Call.TouchDown 12] } rfl rfl (by decide)).1⟩

/-! ## A released sample -/

theorem ProcessTouch_widget_released (touch touchLast : GUI_TouchData_t)
    (anc : List (Int × Int)) (h : GUI_HANDLE) (s : TouchRun) (hrel : touch.Status = false) :
    ∃ s1, ProcessTouch_widget touch touchLast anc h s = some (.touchCONTINUE, s1) := by
  by_cases hin : ProcessTouch_inside touch anc h = true
  · cases hl : touchLast.Status
    · exact ⟨s, by simp [ProcessTouch_widget, hin, hrel, hl]⟩
    · exact ⟨_, ProcessTouch_widget_up touch touchLast anc h s hrel hl hin⟩
  · exact ⟨s, by simp [ProcessTouch_widget, hin]⟩

theorem ProcessTouch_released_total (touch touchLast : GUI_TouchData_t)
    (hrel : touch.Status = false) :
    (∀ w, ∀ anc s, ∃ s1,
      __ProcessTouch_h touch touchLast anc s w = some (.touchCONTINUE, s1)) ∧
    (∀ l, ∀ anc s, ∃ s1,
      __ProcessTouch_for touch touchLast anc s l = some (.touchCONTINUE, s1)) := by
  apply Widget.induct
  · intro h anc s
    simpa [__ProcessTouch_h] using ProcessTouch_widget_released touch touchLast anc h s hrel
  · intro h cs ih anc s
    obtain ⟨s1, h1⟩ := ih ((h.X, h.Y) :: anc) s
    obtain ⟨s2, h2⟩ := ProcessTouch_widget_released touch touchLast anc h s1 hrel
    exact ⟨s2, by simp [__ProcessTouch_h, h1, h2]⟩
  · intro anc s
    exact ⟨s, rfl⟩
  · intro w rest ihw ihl anc s
    obtain ⟨s1, h1⟩ := ihl anc s
    obtain ⟨s2, h2⟩ := ihw anc s1
    exact ⟨s2, by simp [__ProcessTouch_for, h1, h2]⟩

/-- The widget with handle `p` is released in the state `G`: it is not the
active widget any more and carries `GUI_FLAG_REDRAW` in place of
`GUI_FLAG_ACTIVE`. -/
theorem touchUpGUI_keeps_released (p q : Nat) (G : GUI_t)
    (hI : G.ActiveWidget = some p ∨
      (G.ActiveWidget = none ∧ ∀ y ∈ Widget.hdrsList G.Root, y.Handle = p →
        y.Flags.ACTIVE = false ∧ y.Flags.REDRAW = true)) :
    (touchUpGUI q G).ActiveWidget = some p ∨
      ((touchUpGUI q G).ActiveWidget = none ∧
        ∀ y ∈ Widget.hdrsList (touchUpGUI q G).Root, y.Handle = p →
          y.Flags.ACTIVE = false ∧ y.Flags.REDRAW = true) := by
  by_cases hq : G.ActiveWidget = some q
  · obtain ⟨h1, h2⟩ := touchUpGUI_hdrs q G hq
    rcases hI with hI | ⟨hI, _⟩
    · have hpq : q = p := by
        rw [hq] at hI
        exact Option.some.inj hI
      subst hpq
      refine Or.inr ⟨h1, ?_⟩
      intro y hy hyp
      rw [h2] at hy
      obtain ⟨y0, _, e⟩ := List.mem_map.1 hy
      subst e
      by_cases hy0 : y0.Handle = q
      · simp [hy0, GUI_HANDLE.released]
      · simp only [hy0, if_false] at hyp
    · rw [hI] at hq
      cases hq
  · have : touchUpGUI q G = G := by simp only [touchUpGUI, if_neg hq]
    rw [this]
    exact hI

theorem GUI_Process_release_released (touch : GUI_TouchData_t) (G : GUI_t)
    (hrel : touch.Status = false) :
    (GUI_Process_release touch G).ActiveWidget = none ∧
    (∀ p, G.ActiveWidget = some p → GUI_Process_release touch G = touchUpGUI p G) ∧
    (G.ActiveWidget = none →
      Widget.hdrsList (GUI_Process_release touch G).Root = Widget.hdrsList G.Root) := by
  refine ⟨?_, ?_, ?_⟩
  · simp [GUI_Process_release, hrel]
  · intro p hp
    simp [GUI_Process_release, hrel, hp, touchUpGUI]
  · intro hnone
    simp [GUI_Process_release, hrel, hnone]

/-- C16: a round of the loop of `GUI_Process` for a released sample always
completes, and leaves `GUI.ActiveWidget` null; the widget that was active
before the round, wherever the touch point lies, does not carry
`GUI_FLAG_ACTIVE` any more and carries `GUI_FLAG_REDRAW`. -/
theorem C16_released_sample_clears_active_widget (touch : GUI_TouchData_t) (r : ProcessRun)
    (hrel : touch.Status = false) :
    ∃ r1, GUI_Process_sample touch r = some r1 ∧
      r1.GUI.ActiveWidget = none ∧
      ∀ p, r.GUI.ActiveWidget = some p → ∀ y ∈ Widget.hdrsList r1.GUI.Root,
        y.Handle = p → y.Flags.ACTIVE = false ∧ y.Flags.REDRAW = true := by
  obtain ⟨s1, hs1⟩ := (ProcessTouch_released_total touch r.touchLast hrel).2 r.GUI.Root []
    { GUI := r.GUI, calls := [] }
  have hs1' : __ProcessTouch touch r.touchLast r.GUI = some (.touchCONTINUE, s1) := hs1
  refine ⟨{ GUI := GUI_Process_release touch s1.GUI, touchLast := touch,
            calls := r.calls ++ s1.calls }, ?_, ?_, ?_⟩
  · simp [GUI_Process_sample, hrel, hs1']
  · exact (GUI_Process_release_released touch s1.GUI hrel).1
  · intro p hp y hy hyp
    have hinv := ((ProcessTouch_traverse touch r.touchLast
      (fun s => s.GUI.ActiveWidget = some p ∨
        (s.GUI.ActiveWidget = none ∧ ∀ y ∈ Widget.hdrsList s.GUI.Root, y.Handle = p →
          y.Flags.ACTIVE = false ∧ y.Flags.REDRAW = true))
      (fun _ _ => False)).2 r.GUI.Root [] ?_ { GUI := r.GUI, calls := [] } _ s1
        (Or.inl hp) hs1).1 rfl
    · rcases hinv with hact | ⟨hnone, hfl⟩
      · rw [(GUI_Process_release_released touch s1.GUI hrel).2.1 p hact] at hy
        rcases touchUpGUI_keeps_released p p s1.GUI (Or.inl hact) with h1 | ⟨_, h2⟩
        · rw [(touchUpGUI_hdrs p s1.GUI hact).1] at h1
          cases h1
        · exact h2 y hy hyp
      · rw [(GUI_Process_release_released touch s1.GUI hrel).2.2 hnone] at hy
        exact hfl y hy hyp
    · intro x _ s r0 s2 hI hstep
      rcases ProcessTouch_widget_cases touch r.touchLast _ x.2 s s2 r0 hstep with
        ⟨e1, e2⟩ | ⟨hd, _⟩ | ⟨_, _, _, e1, e2⟩
      · subst e1; subst e2
        exact ⟨fun _ => hI, fun hne => absurd rfl hne⟩
      · rw [hrel] at hd
        cases hd
      · subst e1; subst e2
        exact ⟨fun _ => touchUpGUI_keeps_released p x.2.Handle s.GUI hI,
          fun hne => absurd rfl hne⟩

theorem C16_released_sample_clears_active_widget_witness :
    sampleReleased.Status = false ∧
    ∃ r1, GUI_Process_sample sampleReleased
          { GUI := sampleActiveGUI [.leaf sampleLed], touchLast := samplePressed, calls := [] } =
        some r1 ∧
      r1.GUI.ActiveWidget = none ∧
      ∀ p, (sampleActiveGUI [.leaf sampleLed]).ActiveWidget = some p →
        ∀ y ∈ Widget.hdrsList r1.GUI.Root,
          y.Handle = p → y.Flags.ACTIVE = false ∧ y.Flags.REDRAW = true :=
  ⟨rfl, C16_released_sample_clears_active_widget sampleReleased
    { GUI := sampleActiveGUI [.leaf sampleLed], touchLast := samplePressed, calls := [] } rfl⟩

/-! ## The frame loop and the layer hand-over -/

theorem keepsRedraw_refl (G : GUI_t) : G.keepsRedraw G :=
  ⟨rfl, fun y hy hR => ⟨y, hy, rfl, hR⟩⟩

theorem keepsRedraw_trans {G G1 G2 : GUI_t} (h1 : G.keepsRedraw G1) (h2 : G1.keepsRedraw G2) :
    G.keepsRedraw G2 := by
  refine ⟨h2.1.trans h1.1, ?_⟩
  intro y hy hR
  obtain ⟨y1, hy1, e1, hR1⟩ := h1.2 y hy hR
  obtain ⟨y2, hy2, e2, hR2⟩ := h2.2 y1 hy1 hR1
  exact ⟨y2, hy2, e2.trans e1, hR2⟩

theorem ProcessTouch_unfocus_LCD (G : GUI_t) : (ProcessTouch_unfocus G).LCD = G.LCD := by
  unfold ProcessTouch_unfocus
  split <;> rfl

theorem keepsRedraw_touchHandled (p : Nat) (G : GUI_t) : G.keepsRedraw (touchHandledGUI p G) := by
  refine ⟨ProcessTouch_unfocus_LCD G, ?_⟩
  intro y hy hR
  refine ⟨GUI_HANDLE.handled p G.FocusedWidget y,
    (touchHandledGUI_hdrs p G).mem_iff.2 (List.mem_map_of_mem _ hy), rfl, ?_⟩
  simp [GUI_HANDLE.handled, hR]

theorem keepsRedraw_touchNoFocus (G : GUI_t) : G.keepsRedraw (touchNoFocusGUI G) := by
  refine ⟨ProcessTouch_unfocus_LCD G, ?_⟩
  intro y hy hR
  have hroot : (touchNoFocusGUI G).Root = (ProcessTouch_unfocus G).Root := rfl
  rw [hroot, ProcessTouch_unfocus_hdrs]
  exact ⟨_, List.mem_map_of_mem _ hy, rfl, by simp [hR]⟩

theorem keepsRedraw_touchUp (q : Nat) (G : GUI_t) : G.keepsRedraw (touchUpGUI q G) := by
  by_cases hq : G.ActiveWidget = some q
  · refine ⟨by simp only [touchUpGUI, if_pos hq]; rfl, ?_⟩
    intro y hy hR
    rw [(touchUpGUI_hdrs q G hq).2]
    refine ⟨_, List.mem_map_of_mem _ hy, ?_, ?_⟩
    · by_cases hy0 : y.Handle = q <;> simp [hy0, GUI_HANDLE.released]
    · by_cases hy0 : y.Handle = q <;> simp [hy0, GUI_HANDLE.released, hR]
  · have : touchUpGUI q G = G := by simp only [touchUpGUI, if_neg hq]
    rw [this]
    exact keepsRedraw_refl G

theorem keepsRedraw_release (touch : GUI_TouchData_t) (G : GUI_t) :
    G.keepsRedraw (GUI_Process_release touch G) := by
  cases hs : touch.Status
  · cases ha : G.ActiveWidget with
    | none =>
      refine ⟨by simp [GUI_Process_release, hs, ha], ?_⟩
      intro y hy hR
      rw [(GUI_Process_release_released touch G hs).2.2 ha]
      exact ⟨y, hy, rfl, hR⟩
    | some p =>
      rw [(GUI_Process_release_released touch G hs).2.1 p ha]
      exact keepsRedraw_touchUp p G
  · have : GUI_Process_release touch G = G := by simp [GUI_Process_release, hs]
    rw [this]
    exact keepsRedraw_refl G

/-- A call of `__ProcessTouch` touches no display setting, clears no
`GUI_FLAG_REDRAW`, and invokes touch handlers only. -/
theorem ProcessTouch_keepsRedraw (touch touchLast : GUI_TouchData_t) (G : GUI_t)
    (r : __GUI_TouchStatus_t) (s1 : TouchRun)
    (hres : __ProcessTouch touch touchLast G = some (r, s1)) :
    G.keepsRedraw s1.GUI ∧ ∀ c ∈ s1.calls, c.isTouch = true := by
  have key := (ProcessTouch_traverse touch touchLast
    (fun s => G.keepsRedraw s.GUI ∧ ∀ c ∈ s.calls, c.isTouch = true)
    (fun _ s => G.keepsRedraw s.GUI ∧ ∀ c ∈ s.calls, c.isTouch = true)).2 G.Root [] ?_
      { GUI := G, calls := [] } r s1 ⟨keepsRedraw_refl G, by simp⟩ hres
  · by_cases hr : r = .touchCONTINUE
    · exact key.1 hr
    · exact key.2 hr
  · intro x _ s r0 s2 hI hstep
    have hdown : ∀ c ∈ s.calls ++ [GUI_Call.TouchDown x.2.Handle], c.isTouch = true := by
      intro c hc
      rcases List.mem_append.1 hc with hc | hc
      · exact hI.2 c hc
      · rw [List.mem_singleton] at hc
        subst hc; rfl
    rcases ProcessTouch_widget_cases touch touchLast _ x.2 s s2 r0 hstep with
      ⟨e1, e2⟩ | ⟨_, _, _, f, _, _, hcase⟩ | ⟨_, _, _, e1, e2⟩
    · subst e1; subst e2
      exact ⟨fun _ => hI, fun hne => absurd rfl hne⟩
    · rcases hcase with ⟨e1, e2⟩ | ⟨e1, e2⟩ | ⟨e1, _, e2⟩
      · subst e1; subst e2
        exact ⟨fun _ => ⟨hI.1, hdown⟩, fun hne => absurd rfl hne⟩
      · subst e1; subst e2
        exact ⟨fun hc => (by cases hc),
          fun _ => ⟨keepsRedraw_trans hI.1 (keepsRedraw_touchHandled _ _), hdown⟩⟩
      · subst e1; subst e2
        exact ⟨fun hc => (by cases hc),
          fun _ => ⟨keepsRedraw_trans hI.1 (keepsRedraw_touchNoFocus _), hdown⟩⟩
    · subst e1; subst e2
      refine ⟨fun _ => ⟨keepsRedraw_trans hI.1 (keepsRedraw_touchUp _ _), ?_⟩,
        fun hne => absurd rfl hne⟩
      intro c hc
      split at hc
      · rcases List.mem_append.1 hc with hc | hc
        · exact hI.2 c hc
        · rw [List.mem_singleton] at hc
          subst hc; rfl
      · exact hI.2 c hc

/-- The two ways a round of the loop of `GUI_Process` completes. -/
theorem GUI_Process_sample_cases (touch : GUI_TouchData_t) (r r1 : ProcessRun)
    (hres : GUI_Process_sample touch r = some r1) :
    (∃ p h, touch.Status = true ∧ r.touchLast.Status = true ∧ r.GUI.ActiveWidget = some p ∧
      Widget.findList p r.GUI.Root = some h ∧
      r1 = { GUI := GUI_Process_release touch r.GUI, touchLast := touch,
             calls := if h.Widget.TouchMove then r.calls ++ [GUI_Call.TouchMove p]
                      else r.calls }) ∨
    (∃ st s, (touch.Status = true → r.touchLast.Status = true → r.GUI.ActiveWidget = none) ∧
      __ProcessTouch touch r.touchLast r.GUI = some (st, s) ∧
      r1 = { GUI := GUI_Process_release touch s.GUI, touchLast := touch,
             calls := r.calls ++ s.calls }) := by
  unfold GUI_Process_sample at hres
  cases hcond : (if (touch.Status && r.touchLast.Status) = true then r.GUI.ActiveWidget
      else none) with
  | some p =>
    have hb : (touch.Status && r.touchLast.Status) = true := by
      by_contra hb
      rw [if_neg hb] at hcond
      cases hcond
    rw [if_pos hb] at hcond
    simp only [Bool.and_eq_true] at hb
    simp only [hb.1, hb.2, Bool.and_self, if_true, hcond] at hres
    cases hfind : Widget.findList p r.GUI.Root with
    | none =>
      rw [hfind] at hres
      cases hres
    | some h =>
      rw [hfind] at hres
      simp only [Option.some.injEq] at hres
      exact Or.inl ⟨p, h, hb.1, hb.2, hcond, hfind, hres.symm⟩
  | none =>
    rw [hcond] at hres
    cases hpt : __ProcessTouch touch r.touchLast r.GUI with
    | none =>
      rw [hpt] at hres
      cases hres
    | some res =>
      obtain ⟨st, s⟩ := res
      rw [hpt] at hres
      simp only [Option.some.injEq] at hres
      refine Or.inr ⟨st, s, ?_, rfl, hres.symm⟩
      intro h1 h2
      simpa [h1, h2] using hcond

theorem GUI_Process_sample_keepsRedraw (touch : GUI_TouchData_t) (r r1 : ProcessRun)
    (hres : GUI_Process_sample touch r = some r1) :
    r.GUI.keepsRedraw r1.GUI ∧
    ((∀ c ∈ r.calls, c.isTouch = true) → ∀ c ∈ r1.calls, c.isTouch = true) := by
  rcases GUI_Process_sample_cases touch r r1 hres with
    ⟨p, h, _, _, _, _, e⟩ | ⟨st, s, _, hpt, e⟩
  · subst e
    refine ⟨keepsRedraw_release touch r.GUI, ?_⟩
    intro hc c hcm
    simp only at hcm
    split at hcm
    · rcases List.mem_append.1 hcm with hcm | hcm
      · exact hc c hcm
      · rw [List.mem_singleton] at hcm
        subst hcm; rfl
    · exact hc c hcm
  · subst e
    have hk := ProcessTouch_keepsRedraw touch r.touchLast r.GUI st s hpt
    refine ⟨keepsRedraw_trans hk.1 (keepsRedraw_release touch s.GUI), ?_⟩
    intro hc c hcm
    rcases List.mem_append.1 hcm with hcm | hcm
    · exact hc c hcm
    · exact hk.2 c hcm

theorem GUI_Process_while_keepsRedraw (samples : List GUI_TouchData_t) :
    ∀ (r r1 : ProcessRun), GUI_Process_while samples r = some r1 →
      r.GUI.keepsRedraw r1.GUI ∧
      ((∀ c ∈ r.calls, c.isTouch = true) → ∀ c ∈ r1.calls, c.isTouch = true) := by
  induction samples with
  | nil =>
    intro r r1 hres
    simp only [GUI_Process_while, Option.some.injEq] at hres
    subst hres
    exact ⟨keepsRedraw_refl _, fun hc => hc⟩
  | cons touch rest ih =>
    intro r r1 hres
    simp only [GUI_Process_while] at hres
    cases hs : GUI_Process_sample touch r with
    | none =>
      rw [hs] at hres
      cases hres
    | some r0 =>
      rw [hs] at hres
      have h1 := GUI_Process_sample_keepsRedraw touch r r0 hs
      have h2 := ih r0 r1 hres
      exact ⟨keepsRedraw_trans h1.1 h2.1, fun hc => h2.2 (h1.2 hc)⟩

theorem GUI_Process_redraw_wait (G : GUI_t) (hwait : G.LCD.WAIT_LAYER_CONFIRM = true) :
    GUI_Process_redraw G = some (0, G, []) := by
  simp [GUI_Process_redraw, hwait]

/-- The two ways lines 253–288 complete: no pass, or a pass with the layer
hand-over. -/
theorem GUI_Process_redraw_cases (G G1 : GUI_t) (cnt : Int) (calls : List GUI_Call)
    (hres : GUI_Process_redraw G = some (cnt, G1, calls)) :
    (cnt = 0 ∧ G1 = G ∧ calls = [] ∧
      (G.LCD.WAIT_LAYER_CONFIRM = true ∨ (__GetNumberOfPendingWidgets G).1 = 0)) ∨
    (G.LCD.WAIT_LAYER_CONFIRM = false ∧ (__GetNumberOfPendingWidgets G).1 ≠ 0 ∧
      G.LCD.ActiveLayer < G.LCD.Layers.length ∧ G.LCD.DrawingLayer < G.LCD.Layers.length ∧
      cnt = toInt32 (__RedrawWidgets G).cnt ∧
      calls = [GUI_Call.Copy G.LCD.DrawingLayer G.LCD.ActiveLayer] ++ (__RedrawWidgets G).calls ++
        [GUI_Call.SetActiveLayer G.LCD.DrawingLayer] ∧
      G1 = { (__RedrawWidgets G).after with
        Display := { X1 := 0xFFFF, Y1 := 0xFFFF, X2 := 0, Y2 := 0 },
        LCD := { G.LCD with
          Layers := G.LCD.Layers.set G.LCD.DrawingLayer { Pending := true },
          WAIT_LAYER_CONFIRM := true,
          ActiveLayer := G.LCD.DrawingLayer,
          DrawingLayer := G.LCD.ActiveLayer } }) := by
  have hpend : (__GetNumberOfPendingWidgets G).2 = G := by
    simp [__GetNumberOfPendingWidgets, pending_after.2]
  unfold GUI_Process_redraw at hres
  by_cases hw : G.LCD.WAIT_LAYER_CONFIRM = true
  · rw [if_pos hw] at hres
    simp only [Option.some.injEq, Prod.mk.injEq] at hres
    exact Or.inl ⟨hres.1.symm, hres.2.1.symm, hres.2.2.symm, Or.inl hw⟩
  · rw [if_neg hw] at hres
    simp only [hpend] at hres
    by_cases hp : (__GetNumberOfPendingWidgets G).1 = 0
    · rw [if_pos hp] at hres
      simp only [Option.some.injEq, Prod.mk.injEq] at hres
      exact Or.inl ⟨hres.1.symm, hres.2.1.symm, hres.2.2.symm, Or.inr hp⟩
    · rw [if_neg hp] at hres
      by_cases hidx : G.LCD.ActiveLayer < G.LCD.Layers.length ∧
          G.LCD.DrawingLayer < G.LCD.Layers.length
      · rw [if_pos hidx] at hres
        simp only [Option.some.injEq, Prod.mk.injEq] at hres
        refine Or.inr ⟨by simpa using hw, hp, hidx.1, hidx.2, hres.1.symm, hres.2.2.symm, ?_⟩
        rw [← hres.2.1]
        rfl
      · rw [if_neg hidx] at hres
        cases hres

theorem GUI_Process_redraw_requests (G G1 : GUI_t) (cnt : Int) (calls : List GUI_Call)
    (hres : GUI_Process_redraw G = some (cnt, G1, calls))
    (hreq : ∃ L, GUI_Call.SetActiveLayer L ∈ calls) :
    G1.LCD.WAIT_LAYER_CONFIRM = true := by
  obtain ⟨L, hL⟩ := hreq
  rcases GUI_Process_redraw_cases G G1 cnt calls hres with
    ⟨_, _, e, _⟩ | ⟨_, _, _, _, _, _, e⟩
  · subst e
    simp at hL
  · subst e
    rfl

/-- What a call of `GUI_Process` is made of: the loop over the samples, then
the redraw pass. -/
theorem GUI_Process_parts (samples : List GUI_TouchData_t) (st : GUI_Statics) (GUI : GUI_t)
    (P : Processed) (hret : GUI_Process samples st GUI = some P) :
    ∃ (r : ProcessRun) (cnt : Int) (calls : List GUI_Call),
      P.cnt = cnt ∧ P.calls = r.calls ++ calls ∧
      GUI.keepsRedraw r.GUI ∧ (∀ c ∈ r.calls, c.isTouch = true) ∧
      GUI_Process_redraw r.GUI = some (cnt, P.GUI, calls) := by
  unfold GUI_Process at hret
  simp only at hret
  cases hloop : GUI_Process_while samples
      { GUI := GUI,
        touchLast := if st.first = true then { X := 0, Y := 0, Status := false }
                     else st.touchLast,
        calls := [] } with
  | none =>
    rw [hloop] at hret
    cases hret
  | some r =>
    rw [hloop] at hret
    simp only at hret
    cases hrd : GUI_Process_redraw r.GUI with
    | none =>
      rw [hrd] at hret
      cases hret
    | some res =>
      obtain ⟨cnt, G, calls⟩ := res
      rw [hrd] at hret
      simp only [Option.some.injEq] at hret
      subst hret
      have hk := GUI_Process_while_keepsRedraw samples _ r hloop
      exact ⟨r, cnt, calls, rfl, rfl, hk.1, hk.2 (by simp), hrd⟩

/-- C19: while a swap confirmation is outstanding, a call of `GUI_Process`
starts no redraw pass, whatever is pending: it returns 0, invokes touch
handlers only (no draw callback, no layer copy, no request to change the active
layer), leaves the display settings, and so the active and the drawing layer
index, as they were, and clears no `GUI_FLAG_REDRAW`. The call does return
when no sample is queued. -/
theorem C19_no_redraw_pass_while_unconfirmed (samples : List GUI_TouchData_t)
    (st : GUI_Statics) (GUI : GUI_t) (P : Processed)
    (hwait : GUI.LCD.WAIT_LAYER_CONFIRM = true)
    (hret : GUI_Process samples st GUI = some P) :
    P.cnt = 0 ∧
    (∀ c ∈ P.calls, c.isTouch = true) ∧
    P.GUI.LCD = GUI.LCD ∧
    (∀ y ∈ Widget.hdrsList GUI.Root, y.Flags.REDRAW = true →
      ∃ y1 ∈ Widget.hdrsList P.GUI.Root, y1.Handle = y.Handle ∧ y1.Flags.REDRAW = true) ∧
    (∃ P0, GUI_Process [] st GUI = some P0 ∧ P0.cnt = 0 ∧ P0.calls = [] ∧ P0.GUI = GUI) := by
  obtain ⟨r, cnt, calls, hcnt, hcalls, hk, htouch, hrd⟩ := GUI_Process_parts samples st GUI P hret
  have hw : r.GUI.LCD.WAIT_LAYER_CONFIRM = true := by rw [hk.1]; exact hwait
  rw [GUI_Process_redraw_wait r.GUI hw] at hrd
  simp only [Option.some.injEq, Prod.mk.injEq] at hrd
  obtain ⟨e1, e2, e3⟩ := hrd
  subst e1; subst e3
  rw [← e2]
  refine ⟨hcnt, ?_, hk.1, hk.2, ?_⟩
  · rw [hcalls, List.append_nil]
    exact htouch
  · simp [GUI_Process, GUI_Process_while, GUI_Process_redraw_wait GUI hwait]

theorem C19_no_redraw_pass_while_unconfirmed_witness :
    sampleWaitGUI.LCD.WAIT_LAYER_CONFIRM = true ∧
    GUI_Process [samplePressed] sampleStatics sampleWaitGUI = some sampleWaitProcessed ∧
    (__GetNumberOfPendingWidgets sampleWaitGUI).1 = 1 ∧
    sampleWaitProcessed.cnt = 0 ∧
    (∀ c ∈ sampleWaitProcessed.calls, c.isTouch = true) ∧
    sampleWaitProcessed.GUI.LCD = sampleWaitGUI.LCD ∧
    (∀ y ∈ Widget.hdrsList sampleWaitGUI.Root, y.Flags.REDRAW = true →
      ∃ y1 ∈ Widget.hdrsList sampleWaitProcessed.GUI.Root,
        y1.Handle = y.Handle ∧ y1.Flags.REDRAW = true) ∧
    (∃ P0, GUI_Process [] sampleStatics sampleWaitGUI = some P0 ∧ P0.cnt = 0 ∧
      P0.calls = [] ∧ P0.GUI = sampleWaitGUI) :=
  ⟨rfl, rfl, by decide,
   C19_no_redraw_pass_while_unconfirmed [samplePressed] sampleStatics sampleWaitGUI
     sampleWaitProcessed rfl rfl⟩

/-- The claim C20 fails: a first pass requests the swap to layer 1; the
confirmation of layer 0 clears the wait flag all the same (and leaves layer 1
flagged pending), and the next call of `GUI_Process`, in which a touch-down
invalidates a widget, runs a second pass. -/
theorem C20_counterexample :
    GUI_Process [] sampleStatics (sampleGUI [.leaf sampleDirtyB]) = some samplePassProcessed ∧
    samplePassProcessed.calls =
      [GUI_Call.Copy 1 0, GUI_Call.WidgetDraw 12, GUI_Call.SetActiveLayer 1] ∧
    samplePassProcessed.GUI.LCD.WAIT_LAYER_CONFIRM = true ∧
    (GUI_LCD_ConfirmActiveLayer 0 samplePassProcessed.GUI).map
        (fun G2 => (G2.LCD.WAIT_LAYER_CONFIRM, G2.LCD.Layers.map (fun l => l.Pending))) =
      some (false, [false, true]) ∧
    ((GUI_LCD_ConfirmActiveLayer 0 samplePassProcessed.GUI).bind fun G2 =>
        (GUI_Process [samplePressed] samplePassProcessed.statics G2).map fun P3 =>
          (P3.cnt, P3.calls)) =
      some (1, [GUI_Call.TouchDown 12, GUI_Call.Copy 0 1, GUI_Call.SetActiveLayer 0]) :=
  ⟨rfl, by decide, by decide, by decide, by decide⟩

/-- C20, amended: a call of `GUI_Process` that has requested a swap leaves the
wait flag set; while the flag is set, a call of `GUI_Process` starts no further
pass and leaves the flag set; and `GUI_LCD_ConfirmActiveLayer` called with any
layer index of the display, the requested one or another, clears the flag,
together with the pending flag of the layer it names. -/
theorem C20_any_confirmation_releases (samples : List GUI_TouchData_t) (st : GUI_Statics)
    (GUI : GUI_t) (P : Processed) (layer_num : Nat)
    (hret : GUI_Process samples st GUI = some P)
    (hidx : layer_num < P.GUI.LCD.Layers.length) :
    ((∃ L, GUI_Call.SetActiveLayer L ∈ P.calls) → P.GUI.LCD.WAIT_LAYER_CONFIRM = true) ∧
    (GUI.LCD.WAIT_LAYER_CONFIRM = true →
      P.cnt = 0 ∧ (∀ c ∈ P.calls, c.isTouch = true) ∧ P.GUI.LCD.WAIT_LAYER_CONFIRM = true) ∧
    (P.GUI.LCD.WAIT_LAYER_CONFIRM = true →
      ∃ G1, GUI_LCD_ConfirmActiveLayer layer_num P.GUI = some G1 ∧
        G1.LCD.WAIT_LAYER_CONFIRM = false ∧
        G1.LCD.Layers = P.GUI.LCD.Layers.set layer_num { Pending := false } ∧
        G1.Root = P.GUI.Root) := by
  obtain ⟨r, cnt, calls, hcnt, hcalls, hk, htouch, hrd⟩ := GUI_Process_parts samples st GUI P hret
  refine ⟨?_, ?_, ?_⟩
  · rintro ⟨L, hL⟩
    rw [hcalls] at hL
    rcases List.mem_append.1 hL with hL | hL
    · have := htouch _ hL
      cases this
    · exact GUI_Process_redraw_requests r.GUI P.GUI cnt calls hrd ⟨L, hL⟩
  · intro hwait
    have hw : r.GUI.LCD.WAIT_LAYER_CONFIRM = true := by rw [hk.1]; exact hwait
    rw [GUI_Process_redraw_wait r.GUI hw] at hrd
    simp only [Option.some.injEq, Prod.mk.injEq] at hrd
    obtain ⟨e1, e2, e3⟩ := hrd
    subst e1; subst e3
    rw [← e2]
    refine ⟨hcnt, ?_, hw⟩
    rw [hcalls, List.append_nil]
    exact htouch
  · intro hw
    refine ⟨{ P.GUI with LCD := { P.GUI.LCD with
        Layers := P.GUI.LCD.Layers.set layer_num { Pending := false },
        WAIT_LAYER_CONFIRM := false } }, ?_, rfl, rfl, rfl⟩
    simp [GUI_LCD_ConfirmActiveLayer, hw, hidx]

theorem C20_any_confirmation_releases_witness :
    GUI_Process [] sampleStatics (sampleGUI [.leaf sampleDirtyB]) = some samplePassProcessed ∧
    0 < samplePassProcessed.GUI.LCD.Layers.length ∧
    GUI_Call.SetActiveLayer 1 ∈ samplePassProcessed.calls ∧
    (((∃ L, GUI_Call.SetActiveLayer L ∈ samplePassProcessed.calls) →
        samplePassProcessed.GUI.LCD.WAIT_LAYER_CONFIRM = true) ∧
     ((sampleGUI [.leaf sampleDirtyB]).LCD.WAIT_LAYER_CONFIRM = true →
        samplePassProcessed.cnt = 0 ∧ (∀ c ∈ samplePassProcessed.calls, c.isTouch = true) ∧
          samplePassProcessed.GUI.LCD.WAIT_LAYER_CONFIRM = true) ∧
     (samplePassProcessed.GUI.LCD.WAIT_LAYER_CONFIRM = true →
        ∃ G1, GUI_LCD_ConfirmActiveLayer 0 samplePassProcessed.GUI = some G1 ∧
          G1.LCD.WAIT_LAYER_CONFIRM = false ∧
          G1.LCD.Layers = samplePassProcessed.GUI.LCD.Layers.set 0 { Pending := false } ∧
          G1.Root = samplePassProcessed.GUI.Root)) :=
  ⟨rfl, by decide, by decide,
   C20_any_confirmation_releases [] sampleStatics (sampleGUI [.leaf sampleDirtyB])
     samplePassProcessed 0 rfl (by decide)⟩

/-! ## One active and one focused widget at most -/

theorem consistent_touchUp (q : Nat) (G : GUI_t) (hc : G.consistent) :
    (touchUpGUI q G).consistent := by
  by_cases hq : G.ActiveWidget = some q
  · obtain ⟨h1, h2⟩ := touchUpGUI_hdrs q G hq
    obtain ⟨c1, c2, c3, c4⟩ := hc
    refine ⟨?_, ?_, ?_, ?_⟩
    · simp only [touchUpGUI, if_pos hq]
      exact c1
    · intro y hy
      rw [h2] at hy
      obtain ⟨y0, hy0, e⟩ := List.mem_map.1 hy
      subst e
      have := c2 y0 hy0
      by_cases hh : y0.Handle = q <;> simp [hh, GUI_HANDLE.released, this]
    · intro y hy hact
      rw [h2] at hy
      obtain ⟨y0, hy0, e⟩ := List.mem_map.1 hy
      subst e
      by_cases hh : y0.Handle = q
      · simp [hh, GUI_HANDLE.released] at hact
      · simp only [hh, if_false] at hact
        have := c3 y0 hy0 hact
        rw [hq] at this
        exact absurd (Option.some.inj this).symm hh
    · rw [h2, List.map_map]
      have : ((fun y => y.Handle) ∘ fun y : GUI_HANDLE => if y.Handle = q then y.released else y) =
          fun y => y.Handle := by
        funext y
        by_cases hh : y.Handle = q <;> simp [hh, GUI_HANDLE.released]
      rw [this]
      exact c4
  · have : touchUpGUI q G = G := by simp only [touchUpGUI, if_neg hq]
    rw [this]
    exact hc

theorem consistent_touchHandled (p : Nat) (G : GUI_t) (hc : G.consistent)
    (hact : G.ActiveWidget = none) : (touchHandledGUI p G).consistent := by
  obtain ⟨c1, c2, c3, c4⟩ := hc
  have hperm := touchHandledGUI_hdrs p G
  refine ⟨?_, ?_, ?_, ?_⟩
  · rw [(touchHandledGUI_pointers p G).2]
    exact hact
  · intro y hy
    obtain ⟨y0, hy0, e⟩ := List.mem_map.1 (hperm.mem_iff.1 hy)
    subst e
    simp [GUI_HANDLE.handled, c2 y0 hy0]
  · intro y hy hflag
    obtain ⟨y0, hy0, e⟩ := List.mem_map.1 (hperm.mem_iff.1 hy)
    subst e
    rw [(touchHandledGUI_pointers p G).1]
    by_cases ha : y0.Flags.ACTIVE = true
    · have := c3 y0 hy0 ha
      rw [hact] at this
      cases this
    · have hp : y0.Handle = p := by simpa [GUI_HANDLE.handled, ha] using hflag
      simp [GUI_HANDLE.handled, hp]
  · have h2 := hperm.map (fun y => y.Handle)
    rw [List.map_map] at h2
    exact h2.nodup_iff.2 c4

theorem consistent_touchNoFocus (G : GUI_t) (hc : G.consistent)
    (hact : G.ActiveWidget = none) : (touchNoFocusGUI G).consistent := by
  obtain ⟨c1, c2, c3, c4⟩ := hc
  have hroot : (touchNoFocusGUI G).Root = G.Root := by
    simp [touchNoFocusGUI, ProcessTouch_unfocus, c1]
  refine ⟨rfl, ?_, ?_, ?_⟩
  · rw [hroot]; exact c2
  · rw [hroot]
    intro y hy hflag
    have := c3 y hy hflag
    rw [hact] at this
    cases this
  · rw [hroot]; exact c4

theorem consistent_release (touch : GUI_TouchData_t) (G : GUI_t) (hc : G.consistent) :
    (GUI_Process_release touch G).consistent ∧
    (touch.Status = false → (GUI_Process_release touch G).ActiveWidget = none) ∧
    (touch.Status = true → GUI_Process_release touch G = G) := by
  cases hs : touch.Status
  · refine ⟨?_, fun _ => (GUI_Process_release_released touch G hs).1, fun h => (by cases h)⟩
    cases ha : G.ActiveWidget with
    | none =>
      obtain ⟨c1, c2, c3, c4⟩ := hc
      have hh := (GUI_Process_release_released touch G hs).2.2 ha
      refine ⟨by simpa [GUI_Process_release, hs, ha] using c1, ?_, ?_, ?_⟩
      · rw [hh]; exact c2
      · rw [hh]
        intro y hy hflag
        have := c3 y hy hflag
        rw [ha] at this
        cases this
      · rw [hh]; exact c4
    | some p =>
      rw [(GUI_Process_release_released touch G hs).2.1 p ha]
      exact consistent_touchUp p G hc
  · have : GUI_Process_release touch G = G := by simp [GUI_Process_release, hs]
    rw [this]
    exact ⟨hc, fun h => (by cases h), fun _ => rfl⟩

/-- A call of `__ProcessTouch` that starts without an active widget when the
sample is pressed keeps flags and pointers in agreement. -/
theorem ProcessTouch_consistent (touch touchLast : GUI_TouchData_t) (G : GUI_t)
    (r : __GUI_TouchStatus_t) (s1 : TouchRun) (hc : G.consistent)
    (hact : touch.Status = true → G.ActiveWidget = none)
    (hres : __ProcessTouch touch touchLast G = some (r, s1)) :
    s1.GUI.consistent := by
  have key := (ProcessTouch_traverse touch touchLast
    (fun s => s.GUI.consistent ∧ (touch.Status = true → s.GUI.ActiveWidget = none))
    (fun _ s => s.GUI.consistent)).2 G.Root [] ?_
      { GUI := G, calls := [] } r s1 ⟨hc, hact⟩ hres
  · by_cases hr : r = .touchCONTINUE
    · exact (key.1 hr).1
    · exact key.2 hr
  · intro x _ s r0 s2 hI hstep
    rcases ProcessTouch_widget_cases touch touchLast _ x.2 s s2 r0 hstep with
      ⟨e1, e2⟩ | ⟨hd, _, _, f, _, _, hcase⟩ | ⟨hup, _, _, e1, e2⟩
    · subst e1; subst e2
      exact ⟨fun _ => hI, fun hne => absurd rfl hne⟩
    · rcases hcase with ⟨e1, e2⟩ | ⟨e1, e2⟩ | ⟨e1, e0, e2⟩
      · subst e1; subst e2
        exact ⟨fun _ => hI, fun hne => absurd rfl hne⟩
      · subst e1; subst e2
        exact ⟨fun hc => (by cases hc),
          fun _ => consistent_touchHandled _ _ hI.1 (hI.2 hd)⟩
      · subst e1; subst e2
        exact ⟨fun hc => (by cases hc), fun _ => consistent_touchNoFocus _ hI.1 e0⟩
    · subst e1; subst e2
      refine ⟨fun _ => ⟨consistent_touchUp _ _ hI.1, fun hd => ?_⟩, fun hne => absurd rfl hne⟩
      rw [hup] at hd
      cases hd

theorem GUI_Process_sample_consistent (touch : GUI_TouchData_t) (r r1 : ProcessRun)
    (hres : GUI_Process_sample touch r = some r1) (hc : r.GUI.consistent)
    (hlast : r.touchLast.Status = false → r.GUI.ActiveWidget = none) :
    r1.GUI.consistent ∧ (r1.touchLast.Status = false → r1.GUI.ActiveWidget = none) := by
  rcases GUI_Process_sample_cases touch r r1 hres with
    ⟨p, h, hs, _, _, _, e⟩ | ⟨st, s, hbranch, hpt, e⟩
  · subst e
    have hrel := consistent_release touch r.GUI hc
    refine ⟨hrel.1, ?_⟩
    intro hl
    have hl' : touch.Status = false := hl
    rw [hs] at hl'
    cases hl'
  · subst e
    have hact : touch.Status = true → r.GUI.ActiveWidget = none := by
      intro hs
      cases hl : r.touchLast.Status
      · exact hlast hl
      · exact hbranch hs hl
    have hcs := ProcessTouch_consistent touch r.touchLast r.GUI st s hc hact hpt
    have hrel := consistent_release touch s.GUI hcs
    exact ⟨hrel.1, fun hl => hrel.2.1 hl⟩

theorem GUI_Process_while_consistent (samples : List GUI_TouchData_t) :
    ∀ (r r1 : ProcessRun), GUI_Process_while samples r = some r1 → r.GUI.consistent →
      (r.touchLast.Status = false → r.GUI.ActiveWidget = none) →
      r1.GUI.consistent ∧ (r1.touchLast.Status = false → r1.GUI.ActiveWidget = none) := by
  induction samples with
  | nil =>
    intro r r1 hres hc hl
    simp only [GUI_Process_while, Option.some.injEq] at hres
    subst hres
    exact ⟨hc, hl⟩
  | cons touch rest ih =>
    intro r r1 hres hc hl
    simp only [GUI_Process_while] at hres
    cases hs : GUI_Process_sample touch r with
    | none =>
      rw [hs] at hres
      cases hres
    | some r0 =>
      rw [hs] at hres
      have h1 := GUI_Process_sample_consistent touch r r0 hs hc hl
      exact ih r0 r1 hres h1.1 h1.2

theorem redraw_hdrs_clearREDRAW :
    (∀ w, ∀ disp anc force,
      (Widget.hdrs (__RedrawWidgets_h disp anc force w).after).map GUI_HANDLE.clearREDRAW =
        (Widget.hdrs w).map GUI_HANDLE.clearREDRAW) ∧
    (∀ l, ∀ disp anc force cnt,
      (Widget.hdrsList (__RedrawWidgets_for disp anc force cnt l).after).map
          GUI_HANDLE.clearREDRAW =
        (Widget.hdrsList l).map GUI_HANDLE.clearREDRAW) := by
  apply Widget.induct
  · intro h disp anc force
    rcases dirty_or_clean force h with hd | ⟨hf, hc⟩
    · rw [RedrawWidgets_h_leaf_dirty _ _ _ _ hd]
      rfl
    · subst hf
      rw [RedrawWidgets_h_leaf_clean _ _ _ hc]
  · intro h cs ih disp anc force
    rcases dirty_or_clean force h with hd | ⟨hf, hc⟩
    · rw [RedrawWidgets_h_container_dirty _ _ _ _ _ hd]
      simp only [Widget.hdrs, List.map_cons, ih]
      rfl
    · subst hf
      rw [RedrawWidgets_h_container_clean _ _ _ _ hc]
      simp only [Widget.hdrs, List.map_cons, ih]
  · intro disp anc force cnt
    rfl
  · intro w rest ihw ihl disp anc force cnt
    simp only [__RedrawWidgets_for, Widget.hdrsList, List.map_append, ihw, ihl]

theorem consistent_of_hdrs (G G1 : GUI_t) (hc : G.consistent)
    (hf : G1.FocusedWidget = G.FocusedWidget) (ha : G1.ActiveWidget = G.ActiveWidget)
    (hh : (Widget.hdrsList G1.Root).map GUI_HANDLE.clearREDRAW =
      (Widget.hdrsList G.Root).map GUI_HANDLE.clearREDRAW) : G1.consistent := by
  obtain ⟨c1, c2, c3, c4⟩ := hc
  have hmem : ∀ y ∈ Widget.hdrsList G1.Root, ∃ y0 ∈ Widget.hdrsList G.Root,
      y0.clearREDRAW = y.clearREDRAW := by
    intro y hy
    have : y.clearREDRAW ∈ (Widget.hdrsList G1.Root).map GUI_HANDLE.clearREDRAW :=
      List.mem_map_of_mem _ hy
    rw [hh] at this
    obtain ⟨y0, hy0, e⟩ := List.mem_map.1 this
    exact ⟨y0, hy0, e⟩
  refine ⟨hf.trans c1, ?_, ?_, ?_⟩
  · intro y hy
    obtain ⟨y0, hy0, e⟩ := hmem y hy
    have h1 : y0.Flags.FOCUS = y.Flags.FOCUS := congrArg (fun z => z.Flags.FOCUS) e
    rw [← h1]
    exact c2 y0 hy0
  · intro y hy hflag
    obtain ⟨y0, hy0, e⟩ := hmem y hy
    have h1 : y0.Flags.ACTIVE = y.Flags.ACTIVE := congrArg (fun z => z.Flags.ACTIVE) e
    have h2 : y0.Handle = y.Handle := congrArg (fun z => z.Handle) e
    rw [ha, ← h2]
    exact c3 y0 hy0 (h1.trans hflag)
  · have h3 := congrArg (List.map (fun z : GUI_HANDLE => z.Handle)) hh
    simp only [List.map_map] at h3
    have h4 : ((fun z : GUI_HANDLE => z.Handle) ∘ GUI_HANDLE.clearREDRAW) =
        fun z => z.Handle := rfl
    rw [h4] at h3
    rw [h3]
    exact c4

theorem GUI_Process_redraw_consistent (G G1 : GUI_t) (cnt : Int) (calls : List GUI_Call)
    (hres : GUI_Process_redraw G = some (cnt, G1, calls)) (hc : G.consistent) :
    G1.consistent ∧ G1.ActiveWidget = G.ActiveWidget := by
  rcases GUI_Process_redraw_cases G G1 cnt calls hres with
    ⟨_, e, _, _⟩ | ⟨_, _, _, _, _, _, e⟩
  · subst e
    exact ⟨hc, rfl⟩
  · subst e
    refine ⟨consistent_of_hdrs G _ hc rfl rfl ?_, rfl⟩
    exact redraw_hdrs_clearREDRAW.2 G.Root G.Display [] false 0

theorem GUI_Process_consistent (samples : List GUI_TouchData_t) (st : GUI_Statics)
    (GUI : GUI_t) (P : Processed) (hret : GUI_Process samples st GUI = some P)
    (hc : GUI.consistent)
    (hl : st.first = true ∨ st.touchLast.Status = false → GUI.ActiveWidget = none) :
    P.GUI.consistent ∧
    (P.statics.first = true ∨ P.statics.touchLast.Status = false →
      P.GUI.ActiveWidget = none) := by
  unfold GUI_Process at hret
  simp only at hret
  cases hloop : GUI_Process_while samples
      { GUI := GUI,
        touchLast := if st.first = true then { X := 0, Y := 0, Status := false }
                     else st.touchLast,
        calls := [] } with
  | none =>
    rw [hloop] at hret
    cases hret
  | some r =>
    rw [hloop] at hret
    simp only at hret
    have hw := GUI_Process_while_consistent samples _ r hloop hc (by
      intro h
      by_cases hf : st.first = true
      · exact hl (Or.inl hf)
      · simp only [hf, if_false] at h
        exact hl (Or.inr h))
    cases hrd : GUI_Process_redraw r.GUI with
    | none =>
      rw [hrd] at hret
      cases hret
    | some t =>
      obtain ⟨cnt, G, calls⟩ := t
      rw [hrd] at hret
      simp only [Option.some.injEq] at hret
      subst hret
      have h2 := GUI_Process_redraw_consistent r.GUI G cnt calls hrd hw.1
      refine ⟨h2.1, ?_⟩
      intro h
      rcases h with h | h
      · cases h
      · rw [h2.2]
        exact hw.2 h

theorem GUI_World_step_consistent (i : GUI_Input) (W W1 : GUI_World)
    (hstep : W.step i = some W1) (hc : W.GUI.consistent)
    (hl : W.statics.first = true ∨ W.statics.touchLast.Status = false →
      W.GUI.ActiveWidget = none) :
    W1.GUI.consistent ∧
    (W1.statics.first = true ∨ W1.statics.touchLast.Status = false →
      W1.GUI.ActiveWidget = none) := by
  cases i with
  | Process samples =>
    simp only [GUI_World.step] at hstep
    cases hP : GUI_Process samples W.statics W.GUI with
    | none =>
      rw [hP] at hstep
      cases hstep
    | some P =>
      rw [hP] at hstep
      simp only [Option.some.injEq] at hstep
      subst hstep
      exact GUI_Process_consistent samples W.statics W.GUI P hP hc hl
  | Confirm layer_num =>
    simp only [GUI_World.step] at hstep
    cases hC : GUI_LCD_ConfirmActiveLayer layer_num W.GUI with
    | none =>
      rw [hC] at hstep
      cases hstep
    | some G =>
      rw [hC] at hstep
      simp only [Option.some.injEq] at hstep
      subst hstep
      have hG : G.consistent ∧ G.ActiveWidget = W.GUI.ActiveWidget := by
        unfold GUI_LCD_ConfirmActiveLayer at hC
        by_cases hw : W.GUI.LCD.WAIT_LAYER_CONFIRM = true
        · rw [if_pos hw] at hC
          by_cases hi : layer_num < W.GUI.LCD.Layers.length
          · rw [if_pos hi] at hC
            simp only [Option.some.injEq] at hC
            subst hC
            exact ⟨hc, rfl⟩
          · rw [if_neg hi] at hC
            cases hC
        · rw [if_neg hw] at hC
          simp only [Option.some.injEq] at hC
          subst hC
          exact ⟨hc, rfl⟩
      refine ⟨hG.1, fun h => ?_⟩
      rw [hG.2]
      exact hl h

/-- What every state reached from a consistent one satisfies. -/
theorem GUI_World_run_consistent (inputs : List GUI_Input) :
    ∀ (W W1 : GUI_World), GUI_World.run inputs W = some W1 → W.GUI.consistent →
      (W.statics.first = true ∨ W.statics.touchLast.Status = false →
        W.GUI.ActiveWidget = none) →
      W1.GUI.consistent := by
  induction inputs with
  | nil =>
    intro W W1 hrun hc _
    simp only [GUI_World.run, Option.some.injEq] at hrun
    subst hrun
    exact hc
  | cons i rest ih =>
    intro W W1 hrun hc hl
    simp only [GUI_World.run] at hrun
    cases hstep : W.step i with
    | none =>
      rw [hstep] at hrun
      cases hrun
    | some W0 =>
      rw [hstep] at hrun
      have h := GUI_World_step_consistent i W W0 hstep hc hl
      exact ih W0 W1 hrun h.1 h.2

theorem initial_consistent (W : GUI_World) (h0 : W.initial) : W.GUI.consistent := by
  obtain ⟨_, ha, hf, hflags, hnd⟩ := h0
  refine ⟨hf, fun y hy => (hflags y hy).2, ?_, hnd⟩
  intro y hy hact
  rw [(hflags y hy).1] at hact
  cases hact

theorem filter_flag_length_le_one (l : List GUI_HANDLE) (flag : GUI_HANDLE → Bool)
    (ptr : Option Nat) (hnd : (l.map (fun y => y.Handle)).Nodup)
    (hflag : ∀ y ∈ l, flag y = true → ptr = some y.Handle) :
    (l.filter flag).length ≤ 1 := by
  induction l with
  | nil => simp
  | cons a rest ih =>
    simp only [List.map_cons, List.nodup_cons] at hnd
    have hrest := ih hnd.2 (fun y hy => hflag y (List.mem_cons_of_mem _ hy))
    by_cases ha : flag a = true
    · have hp := hflag a (List.mem_cons_self _ _) ha
      have : rest.filter flag = [] := by
        rw [List.filter_eq_nil_iff]
        intro y hy hfy
        have hq := hflag y (List.mem_cons_of_mem _ hy) hfy
        rw [hp] at hq
        exact hnd.1 (List.mem_map.2 ⟨y, hy, (Option.some.inj hq).symm⟩)
      simp [List.filter_cons, ha, this]
    · simp only [List.filter_cons, ha]
      exact hrest

/-- Claim C18. In every state reached from an initial one (null pointers, no
widget flagged active or focused, distinct widgets) by calls of `GUI_Process`
and `GUI_LCD_ConfirmActiveLayer` that return, at most one widget carries
`GUI_FLAG_ACTIVE` and it is the one `GUI.ActiveWidget` points to, and at most
one widget carries `GUI_FLAG_FOCUS` and it is the one `GUI.FocusedWidget`
points to. -/
theorem C18_at_most_one_active_and_focused (inputs : List GUI_Input) (W0 W : GUI_World)
    (hinit : W0.initial) (hrun : GUI_World.run inputs W0 = some W) :
    ((Widget.hdrsList W.GUI.Root).filter (fun y => y.Flags.ACTIVE)).length ≤ 1 ∧
    (∀ y ∈ Widget.hdrsList W.GUI.Root, y.Flags.ACTIVE = true →
      W.GUI.ActiveWidget = some y.Handle) ∧
    ((Widget.hdrsList W.GUI.Root).filter (fun y => y.Flags.FOCUS)).length ≤ 1 ∧
    (∀ y ∈ Widget.hdrsList W.GUI.Root, y.Flags.FOCUS = true →
      W.GUI.FocusedWidget = some y.Handle) := by
  have hc := GUI_World_run_consistent inputs W0 W hrun (initial_consistent W0 hinit)
    (fun _ => hinit.2.1)
  obtain ⟨c1, c2, c3, c4⟩ := hc
  have hfoc : ∀ y ∈ Widget.hdrsList W.GUI.Root, y.Flags.FOCUS = true →
      W.GUI.FocusedWidget = some y.Handle := by
    intro y hy hf
    rw [c2 y hy] at hf
    cases hf
  exact ⟨filter_flag_length_le_one _ _ _ c4 c3, c3,
    filter_flag_length_le_one _ _ _ c4 hfoc, hfoc⟩

theorem C18_at_most_one_active_and_focused_witness :
    sampleWorld.initial ∧
    GUI_World.run sampleInputs sampleWorld = some sampleWorldAfter ∧
    ((Widget.hdrsList sampleWorldAfter.GUI.Root).filter (fun y => y.Flags.ACTIVE)).length ≤ 1 ∧
    (∀ y ∈ Widget.hdrsList sampleWorldAfter.GUI.Root, y.Flags.ACTIVE = true →
      sampleWorldAfter.GUI.ActiveWidget = some y.Handle) ∧
    ((Widget.hdrsList sampleWorldAfter.GUI.Root).filter (fun y => y.Flags.FOCUS)).length ≤ 1 ∧
    (∀ y ∈ Widget.hdrsList sampleWorldAfter.GUI.Root, y.Flags.FOCUS = true →
      sampleWorldAfter.GUI.FocusedWidget = some y.Handle) :=
  have hinit : sampleWorld.initial := by
    refine ⟨rfl, rfl, rfl, ?_, ?_⟩
    · intro y hy
      simp only [sampleWorld, sampleGUI, Widget.hdrsList, Widget.hdrs, List.cons_append,
        List.nil_append, List.mem_cons, List.mem_singleton, List.not_mem_nil, or_false] at hy
      rcases hy with h | h | h <;> subst h <;> exact ⟨rfl, rfl⟩
    · decide
  ⟨hinit, rfl, C18_at_most_one_active_and_focused sampleInputs sampleWorld sampleWorldAfter
    hinit rfl⟩


/-! ## The clip test of `GUI_DRAW_SetPixel` -/

/-- C26: `GUI_DRAW_SetPixel` hands the pixel `(x, y)` to the driver exactly
when `X1 <= x <= X2` and `Y1 <= y <= Y2` for the clip region; inside it makes
the one driver call for that pixel on the drawing layer, outside it makes no
driver call. -/
theorem C26_set_pixel_iff_inside_clip (GUI : GUI_t) (disp : GUI_Display_t) (x y : Int)
    (color : Nat) :
    (GUI_LL_Request.SetPixel GUI.LCD.DrawingLayer x y color ∈
        GUI_DRAW_SetPixel GUI disp x y color ↔
      disp.X1 ≤ x ∧ x ≤ disp.X2 ∧ disp.Y1 ≤ y ∧ y ≤ disp.Y2) ∧
    (disp.X1 ≤ x ∧ x ≤ disp.X2 ∧ disp.Y1 ≤ y ∧ y ≤ disp.Y2 →
      GUI_DRAW_SetPixel GUI disp x y color =
        [GUI_LL_Request.SetPixel GUI.LCD.DrawingLayer x y color]) ∧
    (¬ (disp.X1 ≤ x ∧ x ≤ disp.X2 ∧ disp.Y1 ≤ y ∧ y ≤ disp.Y2) →
      GUI_DRAW_SetPixel GUI disp x y color = []) := by
  by_cases hin : disp.X1 ≤ x ∧ x ≤ disp.X2 ∧ disp.Y1 ≤ y ∧ y ≤ disp.Y2
  · have hcond : (GUI_USE_CLIPPING &&
        (decide (y < disp.Y1) || decide (y > disp.Y2) ||
         decide (x < disp.X1) || decide (x > disp.X2))) = false := by
      obtain ⟨h1, h2, h3, h4⟩ := hin
      simp [GUI_USE_CLIPPING, not_lt.2 h1, not_lt.2 h2, not_lt.2 h3, not_lt.2 h4]
    have hval : GUI_DRAW_SetPixel GUI disp x y color =
        [GUI_LL_Request.SetPixel GUI.LCD.DrawingLayer x y color] := by
      unfold GUI_DRAW_SetPixel
      rw [hcond]
      rfl
    refine ⟨?_, fun _ => hval, fun hn => absurd hin hn⟩
    rw [hval]
    simp [hin]
  · have hcond : (GUI_USE_CLIPPING &&
        (decide (y < disp.Y1) || decide (y > disp.Y2) ||
         decide (x < disp.X1) || decide (x > disp.X2))) = true := by
      simp only [GUI_USE_CLIPPING, Bool.true_and, Bool.or_eq_true, decide_eq_true_eq]
      by_contra hc
      apply hin
      push_neg at hc
      omega
    have hval : GUI_DRAW_SetPixel GUI disp x y color = [] := by
      unfold GUI_DRAW_SetPixel
      rw [hcond]
      rfl
    refine ⟨?_, fun h => absurd h hin, fun _ => hval⟩
    rw [hval]
    simp [hin]

/-! ## Widget memory -/

/-- C28, the code at the failing input: for a block of 8 bytes with
`sizeof(size)` equal to 4, on a heap that holds `0xAA`, the macro
`__GUI_MEMWIDALLOC` hands back a block whose first 4 bytes are zero and whose
other 4 bytes still hold `0xAA`. -/
theorem C28_alloc_zeroes_sizeof_bytes_only :
    __GUI_MEMWIDALLOC sampleMalloc 4 8 =
      some (some [0, 0, 0, 0, 0xAA, 0xAA, 0xAA, 0xAA]) := by
  decide

/-! ## The LED widget -/

/-- C25: without an active window (`GUI.WindowActive` null) `GUI_LED_Create`
returns `NULL` and leaves the global object and the widget memory as they
were, whatever the widget factory would do: the factory is not entered. -/
theorem C25_led_create_needs_active_window
    (create : GUI_WIDGET_t → Nat → Int → Int → Nat → Nat → GUI_LED_World →
      Option Nat × GUI_LED_World)
    (c1 c2 c3 c4 id : Nat) (x y : Int) (width height : Nat) (W : GUI_LED_World)
    (hwin : W.GUI.WindowActive = none) :
    GUI_LED_Create create c1 c2 c3 c4 id x y width height W = (none, W) := by
  simp [GUI_LED_Create, hwin]

theorem C25_led_create_needs_active_window_witness :
    sampleLedWorld.GUI.WindowActive = none ∧
    (sampleCreate GUI_LED_Widget 7 1 2 10 10 sampleLedWorld).1 = some 50 ∧
    GUI_LED_Create sampleCreate 1 2 3 4 7 1 2 10 10 sampleLedWorld = (none, sampleLedWorld) :=
  ⟨rfl, rfl,
   C25_led_create_needs_active_window sampleCreate 1 2 3 4 7 1 2 10 10 sampleLedWorld rfl⟩

/-- C27: every LED operation that takes a handle returns null and leaves the
state as it was when the handle is null: `GUI_LED_SetColor`, `GUI_LED_SetType`,
`GUI_LED_On`, `GUI_LED_Off`, `GUI_LED_Toggle` and `GUI_LED_Set`.
`GUI_LED_Remove` called with a null pointer or with a pointer to a null handle
leaves the state and the handle as they were, whatever the widget removal would
do: the removal is not entered. -/
theorem C27_led_null_handle_guarded
    (remove : Nat → GUI_LED_World → Option Nat × GUI_LED_World)
    (index : GUI_LED_COLOR_t) (color type state : Nat) (W : GUI_LED_World) :
    GUI_LED_SetColor none index color W = (none, W) ∧
    GUI_LED_SetType none type W = (none, W) ∧
    GUI_LED_On none W = (none, W) ∧
    GUI_LED_Off none W = (none, W) ∧
    GUI_LED_Toggle none W = (none, W) ∧
    GUI_LED_Set none state W = (none, W) ∧
    GUI_LED_Remove remove none W = (none, W) ∧
    GUI_LED_Remove remove (some none) W = (some none, W) :=
  ⟨rfl, rfl, rfl, rfl, rfl, rfl, rfl, rfl⟩

theorem setREDRAW_setREDRAW (y : GUI_HANDLE) : y.setREDRAW.setREDRAW = y.setREDRAW := rfl

theorem InvalidateWithParent_hdrs (p : Nat) (G : GUI_t) :
    Widget.hdrsList (__GUI_WIDGET_InvalidateWithParent p G).Root =
      (Widget.hdrsList G.Root).map
        (fun y => if y.Handle = p ∨ G.parentOf p = some y.Handle then y.setREDRAW else y) := by
  unfold __GUI_WIDGET_InvalidateWithParent
  cases hq : G.parentOf p with
  | none =>
    simp only [__GUI_WIDGET_Invalidate, (hdrs_update _ _).2]
    apply List.map_congr_left
    intro y _
    by_cases hy : y.Handle = p <;> simp [hy]
  | some q =>
    simp only [__GUI_WIDGET_Invalidate, (hdrs_update _ _).2, List.map_map]
    apply List.map_congr_left
    intro y _
    show (if (if y.Handle = p then y.setREDRAW else y).Handle = q then
        (if y.Handle = p then y.setREDRAW else y).setREDRAW
      else (if y.Handle = p then y.setREDRAW else y)) =
      if y.Handle = p ∨ some q = some y.Handle then y.setREDRAW else y
    by_cases hy : y.Handle = p
    · rw [if_pos hy, if_pos (Or.inl hy)]
      by_cases hyq : y.setREDRAW.Handle = q
      · rw [if_pos hyq]; rfl
      · rw [if_neg hyq]
    · rw [if_neg hy]
      by_cases hyq : y.Handle = q
      · rw [if_pos hyq, if_pos (Or.inr (by rw [hyq]))]
      · rw [if_neg hyq, if_neg]
        rintro (h | h)
        · exact hy h
        · exact hyq (Option.some.inj h).symm

/-- C29: `GUI_LED_SetType` returns the handle it was given. When the requested
type is the current one the state is left as it was: no field changes and
nothing is invalidated. When it differs, the type of the LED is set, no other
LED field changes, and exactly the LED and its parent gain `GUI_FLAG_REDRAW`:
every other widget is left as it was. -/
theorem C29_set_type_invalidates_with_parent (p type : Nat) (W : GUI_LED_World) :
    (GUI_LED_SetType (some p) type W).1 = some p ∧
    ((W.LED p).Type_ = type → (GUI_LED_SetType (some p) type W).2 = W) ∧
    ((W.LED p).Type_ ≠ type →
      ((GUI_LED_SetType (some p) type W).2.LED p).Type_ = type ∧
      ((GUI_LED_SetType (some p) type W).2.LED p).Color = (W.LED p).Color ∧
      ((GUI_LED_SetType (some p) type W).2.LED p).ON = (W.LED p).ON ∧
      (∀ q, q ≠ p → (GUI_LED_SetType (some p) type W).2.LED q = W.LED q) ∧
      Widget.hdrsList (GUI_LED_SetType (some p) type W).2.GUI.Root =
        (Widget.hdrsList W.GUI.Root).map
          (fun y => if y.Handle = p ∨ W.GUI.parentOf p = some y.Handle then y.setREDRAW
                    else y) ∧
      (∀ y ∈ Widget.hdrsList (GUI_LED_SetType (some p) type W).2.GUI.Root,
        y.Handle = p ∨ W.GUI.parentOf p = some y.Handle → y.Flags.REDRAW = true)) := by
  refine ⟨?_, ?_, ?_⟩
  · unfold GUI_LED_SetType
    by_cases ht : (W.LED p).Type_ = type <;> simp [ht]
  · intro ht
    simp [GUI_LED_SetType, ht]
  · intro ht
    have hval : (GUI_LED_SetType (some p) type W).2 =
        { GUI := __GUI_WIDGET_InvalidateWithParent p W.GUI,
          LED := Function.update W.LED p { W.LED p with Type_ := type } } := by
      simp [GUI_LED_SetType, ht, GUI_LED_World.setLED]
    rw [hval]
    refine ⟨by simp, by simp, by simp, ?_, InvalidateWithParent_hdrs p W.GUI, ?_⟩
    · intro q hq
      simp [Function.update, hq]
    · intro y hy hcase
      simp only [InvalidateWithParent_hdrs, List.mem_map] at hy
      obtain ⟨y0, _, e⟩ := hy
      by_cases h0 : y0.Handle = p ∨ W.GUI.parentOf p = some y0.Handle
      · rw [if_pos h0] at e
        rw [← e]
        rfl
      · rw [if_neg h0] at e
        subst e
        exact absurd hcase h0

/-! ## `GUI_Init` -/

/-- What the text of `GUI_Init` settles, whatever `__GUI_INPUT_Init` and
`__GUI_WIDGET_Init` do: the function returns, with `guiERROR` exactly when the
driver reports zero layers; otherwise the result is `guiOK` and the global
object is what the two initialisers make of an object with `ActiveLayer = 0`,
with `DrawingLayer = 0` for one layer and `DrawingLayer = 1` for more, and with
the focused, the active and the active-window pointer null. What the object
holds once the two initialisers have run is not settled by `gui.c`. The driver
is taken to provide a table entry for every layer it reports. -/
theorem GUI_Init_before_initialisers (GUI_LL_Init LL_Init : GUI_LCD_t → GUI_LCD_t)
    (inputInit widgetInit : GUI_t → GUI_t)
    (hlayers : (LL_Init (GUI_LL_Init GUI_t.zero.LCD)).LayersCount ≤
      (LL_Init (GUI_LL_Init GUI_t.zero.LCD)).Layers.length) :
    ∃ r G calls, GUI_Init GUI_LL_Init LL_Init inputInit widgetInit = some (r, G, calls) ∧
      (r = .guiERROR ↔ (LL_Init (GUI_LL_Init GUI_t.zero.LCD)).LayersCount = 0) ∧
      (r = .guiOK → ∃ G4, G = widgetInit (inputInit G4) ∧
        G4.LCD.ActiveLayer = 0 ∧
        ((LL_Init (GUI_LL_Init GUI_t.zero.LCD)).LayersCount = 1 → G4.LCD.DrawingLayer = 0) ∧
        (1 < (LL_Init (GUI_LL_Init GUI_t.zero.LCD)).LayersCount → G4.LCD.DrawingLayer = 1) ∧
        G4.FocusedWidget = none ∧ G4.ActiveWidget = none ∧ G4.WindowActive = none) := by
  unfold GUI_Init
  simp only
  by_cases h1 : (LL_Init (GUI_LL_Init GUI_t.zero.LCD)).LayersCount = 1
  · have hlen : 0 < (LL_Init (GUI_LL_Init GUI_t.zero.LCD)).Layers.length := by omega
    rw [if_pos h1, if_pos hlen]
    refine ⟨_, _, _, rfl, ?_, ?_⟩
    · constructor
      · intro h; cases h
      · intro h; omega
    · intro _
      exact ⟨_, rfl, rfl, fun _ => rfl, fun h => by omega, rfl, rfl, rfl⟩
  · rw [if_neg h1]
    by_cases h2 : (LL_Init (GUI_LL_Init GUI_t.zero.LCD)).LayersCount > 1
    · have hlen : 0 < (LL_Init (GUI_LL_Init GUI_t.zero.LCD)).Layers.length := by omega
      rw [if_pos h2, if_pos hlen]
      refine ⟨_, _, _, rfl, ?_, ?_⟩
      · constructor
        · intro h; cases h
        · intro h; omega
      · intro _
        exact ⟨_, rfl, rfl, fun h => absurd h h1, fun _ => rfl, rfl, rfl, rfl⟩
    · rw [if_neg h2]
      refine ⟨_, _, _, rfl, ?_, ?_⟩
      · constructor
        · intro _; omega
        · intro _; rfl
      · intro h; cases h

/-- With the sample driver, two layers, the two initialisers receive an object
with `ActiveLayer = 0` and `DrawingLayer = 1`, after one `Fill` of layer 0. -/
theorem GUI_Init_sample (inputInit widgetInit : GUI_t → GUI_t) :
    ∃ G4, GUI_Init id sampleDriver inputInit widgetInit =
        some (.guiOK, widgetInit (inputInit G4),
          [GUI_LL_Request.Fill 0 G4.LCD.Width G4.LCD.Height 0 0xFFFFFFFF]) ∧
      G4.LCD.ActiveLayer = 0 ∧ G4.LCD.DrawingLayer = 1 ∧ G4.WindowActive = none :=
  ⟨_, rfl, rfl, rfl, rfl⟩


/-! ## The redraw pass of `GUI_Process` -/

theorem any_isCopy_of_touch (l : List GUI_Call) (h : ∀ c ∈ l, c.isTouch = true) :
    l.any GUI_Call.isCopy = false := by
  rw [List.any_eq_false]
  intro c hc
  have := h c hc
  cases c <;> simp_all [GUI_Call.isTouch, GUI_Call.isCopy]

theorem redraw_calls_draw (G : GUI_t) :
    ∀ c ∈ (__RedrawWidgets G).calls, c.isWidgetDraw = true := by
  intro c hc
  have hcalls : (__RedrawWidgets G).calls =
      (Widget.walkList [] G.Root).filterMap
        (fun x => if dueForRedraw x then drawCallOf G.Display x else none) :=
    redraw_calls_unforced.2 G.Root G.Display [] 0 rfl
  rw [hcalls, List.mem_filterMap] at hc
  obtain ⟨x, _, hx⟩ := hc
  by_cases hd : dueForRedraw x = true
  · rw [if_pos hd] at hx
    unfold drawCallOf at hx
    split at hx
    · cases hx
      rfl
    · cases hx
  · rw [if_neg hd] at hx
    cases hx

theorem redraw_cnt_due :
    (∀ w, ∀ disp anc force,
      (__RedrawWidgets_h disp anc force w).cnt = Widget.dueLeaves force w % 2 ^ 32) ∧
    (∀ l, ∀ disp anc force cnt, cnt < 2 ^ 32 →
      (__RedrawWidgets_for disp anc force cnt l).cnt =
        (cnt + Widget.dueLeavesList force l) % 2 ^ 32) := by
  apply Widget.induct
  · intro h disp anc force
    rcases dirty_or_clean force h with hd | ⟨hf, hc⟩
    · rw [RedrawWidgets_h_leaf_dirty _ _ _ _ hd]
      have : (force || h.Flags.REDRAW) = true := by
        rcases hd with hd | hd <;> simp [hd]
      simp [Widget.dueLeaves, this]
    · subst hf
      rw [RedrawWidgets_h_leaf_clean _ _ _ hc]
      simp [Widget.dueLeaves, hc]
  · intro h cs ih disp anc force
    have h0 : (0 : Nat) < 2 ^ 32 := by norm_num
    rcases dirty_or_clean force h with hd | ⟨hf, hc⟩
    · rw [RedrawWidgets_h_container_dirty _ _ _ _ _ hd]
      have : (force || h.Flags.REDRAW) = true := by
        rcases hd with hd | hd <;> simp [hd]
      simp only [Widget.dueLeaves, this]
      rw [ih _ _ _ 0 h0, Nat.zero_add]
    · subst hf
      rw [RedrawWidgets_h_container_clean _ _ _ _ hc]
      simp only [Widget.dueLeaves, hc, Bool.or_self]
      rw [ih _ _ _ 0 h0, Nat.zero_add]
  · intro disp anc force cnt hc
    simp only [__RedrawWidgets_for, Widget.dueLeavesList, Nat.add_zero]
    exact (Nat.mod_eq_of_lt hc).symm
  · intro w rest ihw ihl disp anc force cnt _
    simp only [__RedrawWidgets_for, Widget.dueLeavesList]
    rw [ihl _ _ _ _ (Nat.mod_lt _ (by norm_num)), ihw]
    omega

theorem toInt32_mod (n : Nat) : toInt32 (n % 2 ^ 32) = toInt32 n := by
  unfold toInt32
  rw [Nat.mod_mod]

/-- A pass that starts: lines 253–288 in a state with no confirmation
outstanding, something pending and valid layer indices. -/
theorem GUI_Process_redraw_pass (G : GUI_t) (hw : G.LCD.WAIT_LAYER_CONFIRM = false)
    (hp : (__GetNumberOfPendingWidgets G).1 ≠ 0)
    (ha : G.LCD.ActiveLayer < G.LCD.Layers.length)
    (hd : G.LCD.DrawingLayer < G.LCD.Layers.length) :
    ∃ G1, GUI_Process_redraw G = some (toInt32 (__RedrawWidgets G).cnt, G1,
      [GUI_Call.Copy G.LCD.DrawingLayer G.LCD.ActiveLayer] ++ (__RedrawWidgets G).calls ++
        [GUI_Call.SetActiveLayer G.LCD.DrawingLayer]) := by
  have hpend : (__GetNumberOfPendingWidgets G).2 = G := by
    simp [__GetNumberOfPendingWidgets, pending_after.2]
  unfold GUI_Process_redraw
  simp only [hw, hpend, Bool.false_eq_true, if_false, if_neg hp, if_pos (And.intro ha hd)]
  exact ⟨_, rfl⟩

/-- The two ways a call of `GUI_Process` completes, in terms of the state `r`
the loop over the samples leaves. -/
theorem GUI_Process_pass_cases (samples : List GUI_TouchData_t) (st : GUI_Statics)
    (GUI : GUI_t) (P : Processed) (hret : GUI_Process samples st GUI = some P) :
    ∃ r : ProcessRun,
      GUI_Process_while samples { GUI := GUI, touchLast := st.start, calls := [] } = some r ∧
      GUI.keepsRedraw r.GUI ∧ (∀ c ∈ r.calls, c.isTouch = true) ∧
      ((P.passed = false ∧ P.cnt = 0 ∧ P.GUI = r.GUI ∧ P.calls = r.calls ∧
          (r.GUI.LCD.WAIT_LAYER_CONFIRM = true ∨ (__GetNumberOfPendingWidgets r.GUI).1 = 0)) ∨
       (P.passed = true ∧ r.GUI.LCD.WAIT_LAYER_CONFIRM = false ∧
          (__GetNumberOfPendingWidgets r.GUI).1 ≠ 0 ∧
          r.GUI.LCD.DrawingLayer < r.GUI.LCD.Layers.length ∧
          P.cnt = toInt32 (__RedrawWidgets r.GUI).cnt ∧
          P.calls = r.calls ++
            ([GUI_Call.Copy r.GUI.LCD.DrawingLayer r.GUI.LCD.ActiveLayer] ++
              (__RedrawWidgets r.GUI).calls ++
              [GUI_Call.SetActiveLayer r.GUI.LCD.DrawingLayer]) ∧
          P.GUI = { (__RedrawWidgets r.GUI).after with
            Display := { X1 := 0xFFFF, Y1 := 0xFFFF, X2 := 0, Y2 := 0 },
            LCD := { r.GUI.LCD with
              Layers := r.GUI.LCD.Layers.set r.GUI.LCD.DrawingLayer { Pending := true },
              WAIT_LAYER_CONFIRM := true,
              ActiveLayer := r.GUI.LCD.DrawingLayer,
              DrawingLayer := r.GUI.LCD.ActiveLayer } })) := by
  unfold GUI_Process at hret
  simp only at hret
  unfold GUI_Statics.start
  cases hloop : GUI_Process_while samples
      { GUI := GUI,
        touchLast := if st.first = true then { X := 0, Y := 0, Status := false }
                     else st.touchLast,
        calls := [] } with
  | none =>
    rw [hloop] at hret
    cases hret
  | some r =>
    rw [hloop] at hret
    simp only at hret
    cases hrd : GUI_Process_redraw r.GUI with
    | none =>
      rw [hrd] at hret
      cases hret
    | some res =>
      obtain ⟨cnt, G, calls⟩ := res
      rw [hrd] at hret
      simp only [Option.some.injEq] at hret
      subst hret
      have hk := GUI_Process_while_keepsRedraw samples _ r hloop
      have htouch : ∀ c ∈ r.calls, c.isTouch = true := hk.2 (by simp)
      refine ⟨r, rfl, hk.1, htouch, ?_⟩
      rcases GUI_Process_redraw_cases r.GUI G cnt calls hrd with
        ⟨e1, e2, e3, hcase⟩ | ⟨hw, hp, _, hd, e1, e3, e2⟩
      · subst e1; subst e2; subst e3
        refine Or.inl ⟨?_, rfl, rfl, by simp, hcase⟩
        simp only [Processed.passed, List.append_nil]
        exact any_isCopy_of_touch _ htouch
      · refine Or.inr ⟨?_, hw, hp, hd, e1, by rw [e3], e2⟩
        simp [Processed.passed, e3, GUI_Call.isCopy]

/-- C21: when a call of `GUI_Process` performs a redraw pass, afterwards the
active and the drawing layer index are exchanged, the layer that was drawn
into is flagged pending (no other layer entry changes), the wait flag is set,
and the call has issued exactly one request to change the active layer, naming
the layer drawn into. A call with no sample queued, no confirmation
outstanding, something pending and valid layer indices does return and
performs a pass. -/
theorem C21_pass_hands_over_layers (samples : List GUI_TouchData_t) (st : GUI_Statics)
    (GUI : GUI_t) (P : Processed) (hret : GUI_Process samples st GUI = some P)
    (hpass : P.passed = true) :
    P.GUI.LCD.ActiveLayer = GUI.LCD.DrawingLayer ∧
    P.GUI.LCD.DrawingLayer = GUI.LCD.ActiveLayer ∧
    P.GUI.LCD.Layers = GUI.LCD.Layers.set GUI.LCD.DrawingLayer { Pending := true } ∧
    P.GUI.LCD.Layers[GUI.LCD.DrawingLayer]? = some { Pending := true } ∧
    P.GUI.LCD.WAIT_LAYER_CONFIRM = true ∧
    P.calls.filter GUI_Call.isSetActiveLayer =
      [GUI_Call.SetActiveLayer GUI.LCD.DrawingLayer] ∧
    (∀ st0 G0, G0.LCD.WAIT_LAYER_CONFIRM = false → (__GetNumberOfPendingWidgets G0).1 ≠ 0 →
      G0.LCD.ActiveLayer < G0.LCD.Layers.length →
      G0.LCD.DrawingLayer < G0.LCD.Layers.length →
      ∃ P0, GUI_Process [] st0 G0 = some P0 ∧ P0.passed = true) := by
  obtain ⟨r, _, hk, htouch, hcase⟩ := GUI_Process_pass_cases samples st GUI P hret
  rcases hcase with ⟨hno, _⟩ | ⟨_, _, _, hd, _, hcalls, hG⟩
  · rw [hno] at hpass
    cases hpass
  have hlcd : r.GUI.LCD = GUI.LCD := hk.1
  rw [hlcd] at hG hcalls hd
  refine ⟨by rw [hG], by rw [hG], by rw [hG], ?_, by rw [hG], ?_, ?_⟩
  · rw [hG]
    simp [hd]
  · rw [hcalls]
    have h1 : r.calls.filter GUI_Call.isSetActiveLayer = [] := by
      rw [List.filter_eq_nil_iff]
      intro c hc
      have := htouch c hc
      cases c <;> simp_all [GUI_Call.isTouch, GUI_Call.isSetActiveLayer]
    have h2 : (__RedrawWidgets r.GUI).calls.filter GUI_Call.isSetActiveLayer = [] := by
      rw [List.filter_eq_nil_iff]
      intro c hc
      have := redraw_calls_draw r.GUI c hc
      cases c <;> simp_all [GUI_Call.isWidgetDraw, GUI_Call.isSetActiveLayer]
    simp only [List.filter_append, h1, h2, List.nil_append, List.append_nil]
    rfl
  · intro st0 G0 hw hp ha hd0
    obtain ⟨G1, hrd⟩ := GUI_Process_redraw_pass G0 hw hp ha hd0
    refine ⟨{ cnt := toInt32 (__RedrawWidgets G0).cnt, GUI := G1,
              statics := { first := false, touchLast := st0.start },
              calls := [] ++ ([GUI_Call.Copy G0.LCD.DrawingLayer G0.LCD.ActiveLayer] ++
                (__RedrawWidgets G0).calls ++
                [GUI_Call.SetActiveLayer G0.LCD.DrawingLayer]) }, ?_, ?_⟩
    · simp only [GUI_Process, GUI_Process_while, hrd]
      rfl
    · simp [Processed.passed, GUI_Call.isCopy]

theorem C21_pass_hands_over_layers_witness :
    GUI_Process [] sampleStatics (sampleGUI [.leaf sampleDirtyB]) = some samplePassProcessed ∧
    samplePassProcessed.passed = true ∧
    samplePassProcessed.GUI.LCD.ActiveLayer = (sampleGUI [.leaf sampleDirtyB]).LCD.DrawingLayer ∧
    samplePassProcessed.GUI.LCD.DrawingLayer = (sampleGUI [.leaf sampleDirtyB]).LCD.ActiveLayer ∧
    samplePassProcessed.GUI.LCD.Layers =
      (sampleGUI [.leaf sampleDirtyB]).LCD.Layers.set
        (sampleGUI [.leaf sampleDirtyB]).LCD.DrawingLayer { Pending := true } ∧
    samplePassProcessed.GUI.LCD.Layers[(sampleGUI [.leaf sampleDirtyB]).LCD.DrawingLayer]? =
      some { Pending := true } ∧
    samplePassProcessed.GUI.LCD.WAIT_LAYER_CONFIRM = true ∧
    samplePassProcessed.calls.filter GUI_Call.isSetActiveLayer =
      [GUI_Call.SetActiveLayer (sampleGUI [.leaf sampleDirtyB]).LCD.DrawingLayer] ∧
    (∀ st0 G0, G0.LCD.WAIT_LAYER_CONFIRM = false → (__GetNumberOfPendingWidgets G0).1 ≠ 0 →
      G0.LCD.ActiveLayer < G0.LCD.Layers.length →
      G0.LCD.DrawingLayer < G0.LCD.Layers.length →
      ∃ P0, GUI_Process [] st0 G0 = some P0 ∧ P0.passed = true) :=
  ⟨rfl, by decide,
   C21_pass_hands_over_layers [] sampleStatics (sampleGUI [.leaf sampleDirtyB])
     samplePassProcessed rfl (by decide)⟩

/-- C22: when a call of `GUI_Process` performs a redraw pass, it leaves the
clip region at `X1 = Y1 = 0xFFFF`, `X2 = Y2 = 0`, and under that region
`GUI_DRAW_SetPixel` hands no pixel `(x, y)` to the driver. -/
theorem C22_pass_resets_clip_region (samples : List GUI_TouchData_t) (st : GUI_Statics)
    (GUI : GUI_t) (P : Processed) (hret : GUI_Process samples st GUI = some P)
    (hpass : P.passed = true) :
    P.GUI.Display = { X1 := 0xFFFF, Y1 := 0xFFFF, X2 := 0, Y2 := 0 } ∧
    ∀ (G : GUI_t) (x y : Int) (color : Nat), GUI_DRAW_SetPixel G P.GUI.Display x y color = [] := by
  obtain ⟨r, _, _, _, hcase⟩ := GUI_Process_pass_cases samples st GUI P hret
  rcases hcase with ⟨hno, _⟩ | ⟨_, _, _, _, _, _, hG⟩
  · rw [hno] at hpass
    cases hpass
  have hdisp : P.GUI.Display = { X1 := 0xFFFF, Y1 := 0xFFFF, X2 := 0, Y2 := 0 } := by rw [hG]
  refine ⟨hdisp, ?_⟩
  intro G x y color
  rw [hdisp]
  unfold GUI_DRAW_SetPixel
  have hy : y < 0xFFFF ∨ y > 0 := by omega
  rcases hy with hy | hy <;> simp [GUI_USE_CLIPPING, hy]

theorem C22_pass_resets_clip_region_witness :
    GUI_Process [] sampleStatics (sampleGUI [.leaf sampleDirtyB]) = some samplePassProcessed ∧
    samplePassProcessed.passed = true ∧
    samplePassProcessed.GUI.Display = { X1 := 0xFFFF, Y1 := 0xFFFF, X2 := 0, Y2 := 0 } ∧
    ∀ (G : GUI_t) (x y : Int) (color : Nat),
      GUI_DRAW_SetPixel G samplePassProcessed.GUI.Display x y color = [] :=
  ⟨rfl, by decide,
   C22_pass_resets_clip_region [] sampleStatics (sampleGUI [.leaf sampleDirtyB])
     samplePassProcessed rfl (by decide)⟩


/-- The claim C23 fails both ways. A pass over a dirty window with two leaves
invokes three draw callbacks (the window and the two leaves) and `GUI_Process`
returns 2; a pass over a dirty leaf outside the clip region invokes no draw
callback and `GUI_Process` returns 1. -/
theorem C23_counterexample :
    (GUI_Process [] sampleStatics (sampleGUI [sampleDirtyWindow])).map
        (fun P => (P.cnt, P.calls.filter GUI_Call.isWidgetDraw)) =
      some (2, [GUI_Call.WidgetDraw 1, GUI_Call.WidgetDraw 2, GUI_Call.WidgetDraw 3]) ∧
    (GUI_Process [] sampleStatics (sampleGUI [.leaf (sampleHandle 4 200 200 5 5 true)])).map
        (fun P => (P.cnt, P.calls.filter GUI_Call.isWidgetDraw)) =
      some (1, []) := by
  constructor <;> decide

/-- C23, amended: `GUI_Process` returns 0 when it performs no redraw pass, and
then no draw callback is invoked. When it performs a pass it returns the count
of the pass, as an `int32_t`: the number of widgets without children that are
due in the tree `r` the touch loop leaves (`GUI_FLAG_REDRAW` on the widget or
on an ancestor), whether their draw callback is invoked or not; the draw
callbacks invoked are those of the due widgets, containers included, that have
one and are inside the clip region. -/
theorem C23_returns_due_leaf_count (samples : List GUI_TouchData_t) (st : GUI_Statics)
    (GUI : GUI_t) (P : Processed) (hret : GUI_Process samples st GUI = some P) :
    ∃ r : ProcessRun,
      GUI_Process_while samples { GUI := GUI, touchLast := st.start, calls := [] } = some r ∧
      (P.passed = false → P.cnt = 0 ∧ P.calls.filter GUI_Call.isWidgetDraw = []) ∧
      (P.passed = true →
        P.cnt = toInt32 (Widget.dueLeavesList false r.GUI.Root) ∧
        P.calls.filter GUI_Call.isWidgetDraw =
          (Widget.walkList [] r.GUI.Root).filterMap
            (fun x => if dueForRedraw x then drawCallOf r.GUI.Display x else none)) := by
  obtain ⟨r, hloop, _, htouch, hcase⟩ := GUI_Process_pass_cases samples st GUI P hret
  have h1 : r.calls.filter GUI_Call.isWidgetDraw = [] := by
    rw [List.filter_eq_nil_iff]
    intro c hc
    have := htouch c hc
    cases c <;> simp_all [GUI_Call.isTouch, GUI_Call.isWidgetDraw]
  refine ⟨r, hloop, ?_, ?_⟩
  · intro hno
    rcases hcase with ⟨_, hcnt, _, hcalls, _⟩ | ⟨hyes, _⟩
    · exact ⟨hcnt, by rw [hcalls]; exact h1⟩
    · rw [hno] at hyes
      cases hyes
  · intro hyes
    rcases hcase with ⟨hno, _⟩ | ⟨_, _, _, _, hcnt, hcalls, _⟩
    · rw [hno] at hyes
      cases hyes
    · constructor
      · rw [hcnt]
        have hc : (__RedrawWidgets r.GUI).cnt = Widget.dueLeavesList false r.GUI.Root % 2 ^ 32 := by
          have := redraw_cnt_due.2 r.GUI.Root r.GUI.Display [] false 0 (by norm_num)
          rw [Nat.zero_add] at this
          exact this
        rw [hc, toInt32_mod]
      · rw [hcalls]
        have h2 : (__RedrawWidgets r.GUI).calls.filter GUI_Call.isWidgetDraw =
            (__RedrawWidgets r.GUI).calls := by
          rw [List.filter_eq_self]
          exact redraw_calls_draw r.GUI
        simp only [List.filter_append, h1, h2, List.nil_append]
        have h3 : (__RedrawWidgets r.GUI).calls =
            (Widget.walkList [] r.GUI.Root).filterMap
              (fun x => if dueForRedraw x then drawCallOf r.GUI.Display x else none) :=
          redraw_calls_unforced.2 r.GUI.Root r.GUI.Display [] 0 rfl
        rw [← h3]
        simp [GUI_Call.isWidgetDraw]

theorem C23_returns_due_leaf_count_witness :
    GUI_Process [] sampleStatics (sampleGUI [sampleDirtyWindow]) = some sampleWindowProcessed ∧
    sampleWindowProcessed.passed = true ∧
    Widget.dueLeavesList false [sampleDirtyWindow] = 2 ∧
    ∃ r : ProcessRun,
      GUI_Process_while [] { GUI := sampleGUI [sampleDirtyWindow],
                             touchLast := sampleStatics.start, calls := [] } = some r ∧
      (sampleWindowProcessed.passed = false →
        sampleWindowProcessed.cnt = 0 ∧
        sampleWindowProcessed.calls.filter GUI_Call.isWidgetDraw = []) ∧
      (sampleWindowProcessed.passed = true →
        sampleWindowProcessed.cnt = toInt32 (Widget.dueLeavesList false r.GUI.Root) ∧
        sampleWindowProcessed.calls.filter GUI_Call.isWidgetDraw =
          (Widget.walkList [] r.GUI.Root).filterMap
            (fun x => if dueForRedraw x then drawCallOf r.GUI.Display x else none)) :=
  ⟨rfl, by decide, by decide,
   C23_returns_due_leaf_count [] sampleStatics (sampleGUI [sampleDirtyWindow])
     sampleWindowProcessed rfl⟩

/-! ## No widget is given the focus -/

/-- C30: in every state reached from an initial one (null pointers, no widget
flagged active or focused, distinct widgets) by calls of `GUI_Process`, over
any samples, and of `GUI_LCD_ConfirmActiveLayer` that return,
`GUI.FocusedWidget` is null and no widget carries `GUI_FLAG_FOCUS`. -/
theorem C30_focused_widget_stays_null (inputs : List GUI_Input) (W0 W : GUI_World)
    (hinit : W0.initial) (hrun : GUI_World.run inputs W0 = some W) :
    W.GUI.FocusedWidget = none ∧
    ∀ y ∈ Widget.hdrsList W.GUI.Root, y.Flags.FOCUS = false := by
  have hc := GUI_World_run_consistent inputs W0 W hrun (initial_consistent W0 hinit)
    (fun _ => hinit.2.1)
  exact ⟨hc.1, hc.2.1⟩

theorem C30_focused_widget_stays_null_witness :
    sampleWorld.initial ∧
    GUI_World.run sampleInputs sampleWorld = some sampleWorldAfter ∧
    sampleWorldAfter.GUI.ActiveWidget = some 12 ∧
    sampleWorldAfter.GUI.FocusedWidget = none ∧
    ∀ y ∈ Widget.hdrsList sampleWorldAfter.GUI.Root, y.Flags.FOCUS = false :=
  have hinit : sampleWorld.initial := by
    refine ⟨rfl, rfl, rfl, ?_, ?_⟩
    · intro y hy
      simp only [sampleWorld, sampleGUI, Widget.hdrsList, Widget.hdrs, List.cons_append,
        List.nil_append, List.mem_cons, List.mem_singleton, List.not_mem_nil, or_false] at hy
      rcases hy with h | h | h <;> subst h <;> exact ⟨rfl, rfl⟩
    · decide
  ⟨hinit, rfl, by decide,
   C30_focused_widget_stays_null sampleInputs sampleWorld sampleWorldAfter hinit rfl⟩


/-! ## The pending count is zero exactly on a clean tree -/

theorem pending_bounds :
    (∀ w, (Widget.hdrs w).length < 2 ^ 32 →
      (__GetNumberOfPendingWidgets_h w).1 ≤ (Widget.hdrs w).length ∧
      ((__GetNumberOfPendingWidgets_h w).1 = 0 ↔
        ∀ y ∈ Widget.hdrs w, y.Flags.REDRAW = false)) ∧
    (∀ l, ∀ cnt, cnt + (Widget.hdrsList l).length < 2 ^ 32 →
      cnt ≤ (__GetNumberOfPendingWidgets_for cnt l).1 ∧
      (__GetNumberOfPendingWidgets_for cnt l).1 ≤ cnt + (Widget.hdrsList l).length ∧
      ((__GetNumberOfPendingWidgets_for cnt l).1 = cnt ↔
        ∀ y ∈ Widget.hdrsList l, y.Flags.REDRAW = false)) := by
  apply Widget.induct
  · intro h _
    by_cases hR : h.Flags.REDRAW = true
    · simp [__GetNumberOfPendingWidgets_h, Widget.hdrs, hR]
    · simp [__GetNumberOfPendingWidgets_h, Widget.hdrs, hR]
  · intro h cs ih hlen
    simp only [Widget.hdrs, List.length_cons] at hlen
    by_cases hR : h.Flags.REDRAW = true
    · simp [__GetNumberOfPendingWidgets_h, Widget.hdrs, hR]
    · have hR0 : h.Flags.REDRAW = false := by simpa using hR
      obtain ⟨_, h2, h3⟩ := ih 0 (by omega)
      simp only [__GetNumberOfPendingWidgets_h, hR0, Bool.false_eq_true, if_false, Widget.hdrs,
        List.length_cons, List.mem_cons, forall_eq_or_imp, true_and]
      exact ⟨by omega, h3⟩
  · intro cnt _
    simp [__GetNumberOfPendingWidgets_for, Widget.hdrsList]
  · intro w rest ihw ihl cnt hlen
    simp only [Widget.hdrsList, List.length_append] at hlen
    obtain ⟨w1, w2⟩ := ihw (by omega)
    have hmod : (cnt + (__GetNumberOfPendingWidgets_h w).1) % 2 ^ 32 =
        cnt + (__GetNumberOfPendingWidgets_h w).1 := Nat.mod_eq_of_lt (by omega)
    obtain ⟨l1, l2, l3⟩ := ihl (cnt + (__GetNumberOfPendingWidgets_h w).1) (by omega)
    simp only [__GetNumberOfPendingWidgets_for, hmod, Widget.hdrsList, List.length_append,
      List.mem_append]
    refine ⟨by omega, by omega, ?_⟩
    constructor
    · intro heq y hy
      have hw0 : (__GetNumberOfPendingWidgets_h w).1 = 0 := by omega
      rcases hy with hy | hy
      · exact w2.1 hw0 y hy
      · exact l3.1 (by omega) y hy
    · intro hall
      have hw0 : (__GetNumberOfPendingWidgets_h w).1 = 0 :=
        w2.2 (fun y hy => hall y (Or.inl hy))
      have hl0 := l3.2 (fun y hy => hall y (Or.inr hy))
      omega

/-- C32: on a tree of fewer than `2 ^ 32` widgets (the counter is a
`uint32_t`), `__GetNumberOfPendingWidgets(NULL)` returns 0 exactly when no
widget of the tree, container or leaf at any depth, has `GUI_FLAG_REDRAW`
set. -/
theorem C32_pending_zero_iff_tree_clean (GUI : GUI_t)
    (hsize : (Widget.hdrsList GUI.Root).length < 2 ^ 32) :
    (__GetNumberOfPendingWidgets GUI).1 = 0 ↔
      ∀ y ∈ Widget.hdrsList GUI.Root, y.Flags.REDRAW = false := by
  have h := (pending_bounds.2 GUI.Root 0 (by omega)).2.2
  exact h

theorem C32_pending_zero_iff_tree_clean_witness :
    (Widget.hdrsList (sampleGUI sampleNested).Root).length < 2 ^ 32 ∧
    (__GetNumberOfPendingWidgets (sampleGUI sampleNested)).1 = 0 ∧
    (Widget.hdrsList (sampleGUI [sampleDirtyWindow]).Root).length < 2 ^ 32 ∧
    (__GetNumberOfPendingWidgets (sampleGUI [sampleDirtyWindow])).1 = 1 ∧
    ((__GetNumberOfPendingWidgets (sampleGUI sampleNested)).1 = 0 ↔
      ∀ y ∈ Widget.hdrsList (sampleGUI sampleNested).Root, y.Flags.REDRAW = false) :=
  ⟨by decide, by decide, by decide, by decide,
   C32_pending_zero_iff_tree_clean (sampleGUI sampleNested) (by decide)⟩


theorem pending_of_clean :
    (∀ w, (∀ y ∈ Widget.hdrs w, y.Flags.REDRAW = false) →
      (__GetNumberOfPendingWidgets_h w).1 = 0) ∧
    (∀ l, (∀ y ∈ Widget.hdrsList l, y.Flags.REDRAW = false) → ∀ cnt, cnt < 2 ^ 32 →
      (__GetNumberOfPendingWidgets_for cnt l).1 = cnt) := by
  apply Widget.induct
  · intro h hc
    have := hc h (by simp [Widget.hdrs])
    simp [__GetNumberOfPendingWidgets_h, this]
  · intro h cs ih hc
    have hR := hc h (by simp [Widget.hdrs])
    have hcs := ih (fun y hy => hc y (by simp [Widget.hdrs, hy])) 0 (by norm_num)
    simp [__GetNumberOfPendingWidgets_h, hR, hcs]
  · intro _ cnt _
    simp [__GetNumberOfPendingWidgets_for]
  · intro w rest ihw ihl hc cnt hcnt
    have hw := ihw (fun y hy => hc y (by simp [Widget.hdrsList, hy]))
    have hl := ihl (fun y hy => hc y (by simp [Widget.hdrsList, hy])) cnt hcnt
    simp only [__GetNumberOfPendingWidgets_for, hw, Nat.add_zero, Nat.mod_eq_of_lt hcnt]
    exact hl

/-- C33: after the pass `__RedrawWidgets(NULL)`, under any clip region, every
widget of the tree has `GUI_FLAG_REDRAW` clear, a widget outside the clip
region whose draw callback was skipped as well, and
`__GetNumberOfPendingWidgets(NULL)` on the state the pass leaves returns 0. -/
theorem C33_redraw_leaves_nothing_pending (GUI : GUI_t) (disp : GUI_Display_t) :
    (∀ y ∈ Widget.hdrsList (__RedrawWidgets { GUI with Display := disp }).after.Root,
      y.Flags.REDRAW = false) ∧
    (∀ x ∈ Widget.walkList [] (__RedrawWidgets { GUI with Display := disp }).after.Root,
      __GUI_WIDGET_IsInsideClippingRegion disp (GUI_HANDLE.offsets x.1) x.2 = false →
      x.2.Flags.REDRAW = false) ∧
    (__GetNumberOfPendingWidgets (__RedrawWidgets { GUI with Display := disp }).after).1 = 0 := by
  have hwalk : ∀ x ∈ Widget.walkList []
      (__RedrawWidgets { GUI with Display := disp }).after.Root, x.2.Flags.REDRAW = false :=
    redraw_after_clear.2 GUI.Root disp [] false 0 []
  have hclean : ∀ y ∈ Widget.hdrsList
      (__RedrawWidgets { GUI with Display := disp }).after.Root, y.Flags.REDRAW = false := by
    intro y hy
    rw [← walk_snd.2 _ []] at hy
    obtain ⟨x, hx, e⟩ := List.mem_map.1 hy
    rw [← e]
    exact hwalk x hx
  exact ⟨hclean, fun x hx _ => hwalk x hx,
    pending_of_clean.2 _ hclean 0 (by norm_num)⟩

/-! ## A falling edge reaches every hit widget -/

/-- C34: on a falling edge `__ProcessTouch` goes through the whole tree and
returns `touchCONTINUE`. The touch-up handlers it invokes are those of all the
widgets that contain the touch point and have one, in the order of the
hit-test (topmost first); so the handler of every such widget is invoked, not
only that of the topmost. -/
theorem C34_touch_up_reaches_every_hit_widget (touch touchLast : GUI_TouchData_t)
    (GUI : GUI_t) (hup : touch.Status = false) (hlast : touchLast.Status = true) :
    ∃ s, __ProcessTouch touch touchLast GUI = some (.touchCONTINUE, s) ∧
      s.calls = (Widget.walkList [] GUI.Root).reverse.filterMap
        (fun x => if hitByTouch touch x = true ∧ x.2.Widget.TouchUp = true then
                    some (GUI_Call.TouchUp x.2.Handle)
                  else none) ∧
      ∀ x ∈ Widget.walkList [] GUI.Root, hitByTouch touch x = true →
        x.2.Widget.TouchUp = true → GUI_Call.TouchUp x.2.Handle ∈ s.calls := by
  have hedge : touch.Status ≠ touchLast.Status := by
    rw [hup, hlast]
    decide
  obtain ⟨s1, h1, h2⟩ := (ProcessTouch_edge_walk touch touchLast hedge).2 GUI.Root []
    { GUI := GUI, calls := [] } (fun hs => by rw [hup] at hs; cases hs)
  have hcalls : s1.calls = (Widget.walkList [] GUI.Root).reverse.filterMap
      (fun x => if hitByTouch touch x = true ∧ x.2.Widget.TouchUp = true then
                  some (GUI_Call.TouchUp x.2.Handle)
                else none) := by
    rw [h2, List.nil_append]
    apply List.filterMap_congr
    intro x _
    by_cases hh : hitByTouch touch x = true <;>
      by_cases hu : x.2.Widget.TouchUp = true <;> simp [touchCallOf, hup, hh, hu]
  refine ⟨s1, h1, hcalls, ?_⟩
  intro x hx hh hu
  rw [hcalls, List.mem_filterMap]
  exact ⟨x, List.mem_reverse.2 hx, by simp [hh, hu]⟩

theorem C34_touch_up_reaches_every_hit_widget_witness :
    sampleReleased.Status = false ∧ samplePressed.Status = true ∧
    (Widget.walkList [] (sampleGUI [.leaf sampleA, .leaf sampleB, .leaf sampleC]).Root).reverse.filterMap
        (fun x => if hitByTouch sampleReleased x = true ∧ x.2.Widget.TouchUp = true then
                    some (GUI_Call.TouchUp x.2.Handle)
                  else none) =
      [GUI_Call.TouchUp 13, GUI_Call.TouchUp 12, GUI_Call.TouchUp 11] ∧
    ∃ s, __ProcessTouch sampleReleased samplePressed
          (sampleGUI [.leaf sampleA, .leaf sampleB, .leaf sampleC]) =
        some (.touchCONTINUE, s) ∧
      s.calls =
        (Widget.walkList []
            (sampleGUI [.leaf sampleA, .leaf sampleB, .leaf sampleC]).Root).reverse.filterMap
          (fun x => if hitByTouch sampleReleased x = true ∧ x.2.Widget.TouchUp = true then
                      some (GUI_Call.TouchUp x.2.Handle)
                    else none) ∧
      ∀ x ∈ Widget.walkList [] (sampleGUI [.leaf sampleA, .leaf sampleB, .leaf sampleC]).Root,
        hitByTouch sampleReleased x = true →
          x.2.Widget.TouchUp = true → GUI_Call.TouchUp x.2.Handle ∈ s.calls :=
  ⟨rfl, rfl, by decide,
   C34_touch_up_reaches_every_hit_widget sampleReleased samplePressed
     (sampleGUI [.leaf sampleA, .leaf sampleB, .leaf sampleC]) rfl rfl⟩


/-! ## A touch-down never finds an active widget -/

theorem ProcessTouch_widget_total (touch touchLast : GUI_TouchData_t) (anc : List (Int × Int))
    (h : GUI_HANDLE) (s : TouchRun)
    (hI : touch.Status = true → touchLast.Status = false → s.GUI.ActiveWidget = none) :
    ∃ r s1, ProcessTouch_widget touch touchLast anc h s = some (r, s1) ∧
      (r = .touchCONTINUE →
        touch.Status = true → touchLast.Status = false → s1.GUI.ActiveWidget = none) := by
  cases hts : touch.Status
  · obtain ⟨s1, h1⟩ := ProcessTouch_widget_released touch touchLast anc h s hts
    exact ⟨_, s1, h1, fun _ hc => by cases hc⟩
  · by_cases hin : ProcessTouch_inside touch anc h = true
    · cases htl : touchLast.Status
      · have hact : s.GUI.ActiveWidget = none := hI hts htl
        cases hTD : h.Widget.TouchDown with
        | none =>
          exact ⟨.touchCONTINUE, s, by simp [ProcessTouch_widget, hin, hts, htl, hTD],
            fun _ _ _ => hact⟩
        | some f =>
          rw [ProcessTouch_widget_down touch touchLast anc h s f hts htl hin hTD]
          cases hf : f touch
          · exact ⟨_, _, rfl, fun _ _ _ => hact⟩
          · exact ⟨_, _, rfl, fun hc => by cases hc⟩
          · simp only [hact, Option.isSome_none, Bool.false_eq_true, if_false]
            exact ⟨_, _, rfl, fun hc => by cases hc⟩
      · exact ⟨.touchCONTINUE, s, by simp [ProcessTouch_widget, hin, hts, htl],
          fun _ _ hc => by cases hc⟩
    · exact ⟨.touchCONTINUE, s, by simp [ProcessTouch_widget, hin],
        fun _ h1 h2 => hI (hts ▸ h1) h2⟩

theorem ProcessTouch_for_total (touch touchLast : GUI_TouchData_t) :
    (∀ w, ∀ anc s,
      (touch.Status = true → touchLast.Status = false → s.GUI.ActiveWidget = none) →
      ∃ r s1, __ProcessTouch_h touch touchLast anc s w = some (r, s1) ∧
        (r = .touchCONTINUE →
          touch.Status = true → touchLast.Status = false → s1.GUI.ActiveWidget = none)) ∧
    (∀ l, ∀ anc s,
      (touch.Status = true → touchLast.Status = false → s.GUI.ActiveWidget = none) →
      ∃ r s1, __ProcessTouch_for touch touchLast anc s l = some (r, s1) ∧
        (r = .touchCONTINUE →
          touch.Status = true → touchLast.Status = false → s1.GUI.ActiveWidget = none)) := by
  apply Widget.induct
  · intro h anc s hI
    simpa [__ProcessTouch_h] using ProcessTouch_widget_total touch touchLast anc h s hI
  · intro h cs ih anc s hI
    obtain ⟨r, s1, h1, hI1⟩ := ih ((h.X, h.Y) :: anc) s hI
    by_cases hr : r = .touchCONTINUE
    · obtain ⟨r2, s2, h2, hI2⟩ := ProcessTouch_widget_total touch touchLast anc h s1 (hI1 hr)
      exact ⟨r2, s2, by simp [__ProcessTouch_h, h1, hr, h2], hI2⟩
    · exact ⟨r, s1, by simp [__ProcessTouch_h, h1, hr], fun hc => absurd hc hr⟩
  · intro anc s hI
    exact ⟨.touchCONTINUE, s, rfl, fun _ => hI⟩
  · intro w rest ihw ihl anc s hI
    obtain ⟨r, s1, h1, hI1⟩ := ihl anc s hI
    by_cases hr : r = .touchCONTINUE
    · obtain ⟨r2, s2, h2, hI2⟩ := ihw anc s1 (hI1 hr)
      exact ⟨r2, s2, by simp [__ProcessTouch_for, h1, hr, h2], hI2⟩
    · exact ⟨r, s1, by simp [__ProcessTouch_for, h1, hr], fun hc => absurd hc hr⟩

/-- What every state reached from a consistent one satisfies, the static
`touchLast` included. -/
theorem GUI_World_run_invariant (inputs : List GUI_Input) :
    ∀ (W W1 : GUI_World), GUI_World.run inputs W = some W1 → W.GUI.consistent →
      (W.statics.first = true ∨ W.statics.touchLast.Status = false →
        W.GUI.ActiveWidget = none) →
      W1.GUI.consistent ∧
      (W1.statics.first = true ∨ W1.statics.touchLast.Status = false →
        W1.GUI.ActiveWidget = none) := by
  induction inputs with
  | nil =>
    intro W W1 hrun hc hl
    simp only [GUI_World.run, Option.some.injEq] at hrun
    subst hrun
    exact ⟨hc, hl⟩
  | cons i rest ih =>
    intro W W1 hrun hc hl
    simp only [GUI_World.run] at hrun
    cases hstep : W.step i with
    | none =>
      rw [hstep] at hrun
      cases hrun
    | some W0 =>
      rw [hstep] at hrun
      have h := GUI_World_step_consistent i W W0 hstep hc hl
      exact ih W0 W1 hrun h.1 h.2

/-- C31: take a state reached from an initial one by calls of `GUI_Process`
(and of `GUI_LCD_ConfirmActiveLayer`) that return, and a further call of
`GUI_Process` in which the loop has handled the samples `pre`. When the next
sample is a touch-down (pressed after released), `GUI.ActiveWidget` is null as
`__ProcessTouch` is entered and the round of the loop completes; and for every
next sample the call of `__ProcessTouch` returns, which it does not when it
reaches the write through the null `GUI.FocusedWidget` of line 148. -/
theorem C31_touch_down_finds_no_active_widget (inputs : List GUI_Input) (W0 W : GUI_World)
    (hinit : W0.initial) (hrun : GUI_World.run inputs W0 = some W)
    (pre : List GUI_TouchData_t) (r : ProcessRun) (touch : GUI_TouchData_t)
    (hloop : GUI_Process_while pre
      { GUI := W.GUI, touchLast := W.statics.start, calls := [] } = some r) :
    (touch.Status = true → r.touchLast.Status = false → r.GUI.ActiveWidget = none) ∧
    (∃ st s, __ProcessTouch touch r.touchLast r.GUI = some (st, s)) ∧
    (touch.Status = true → r.touchLast.Status = false →
      ∃ r1, GUI_Process_sample touch r = some r1) := by
  have hW := GUI_World_run_invariant inputs W0 W hrun (initial_consistent W0 hinit)
    (fun _ => hinit.2.1)
  have hr := GUI_Process_while_consistent pre _ r hloop hW.1 (by
    intro h
    unfold GUI_Statics.start at h
    by_cases hf : W.statics.first = true
    · exact hW.2 (Or.inl hf)
    · simp only [hf, if_false] at h
      exact hW.2 (Or.inr h))
  obtain ⟨st, s, hpt, _⟩ := (ProcessTouch_for_total touch r.touchLast).2 r.GUI.Root []
    { GUI := r.GUI, calls := [] } (fun _ hl => hr.2 hl)
  have hpt1 : __ProcessTouch touch r.touchLast r.GUI = some (st, s) := hpt
  refine ⟨fun _ hl => hr.2 hl, ⟨st, s, hpt1⟩, ?_⟩
  intro _ hlast
  simp [GUI_Process_sample, hlast, hpt1]

theorem C31_touch_down_finds_no_active_widget_witness :
    sampleWorld.initial ∧
    GUI_World.run sampleInputs sampleWorld = some sampleWorldAfter ∧
    sampleWorldAfter.GUI.ActiveWidget = some 12 ∧
    GUI_Process_while [sampleReleased]
        { GUI := sampleWorldAfter.GUI, touchLast := sampleWorldAfter.statics.start,
          calls := [] } = some sampleReleasedRun ∧
    samplePressed.Status = true ∧ sampleReleasedRun.touchLast.Status = false ∧
    (samplePressed.Status = true → sampleReleasedRun.touchLast.Status = false →
      sampleReleasedRun.GUI.ActiveWidget = none) ∧
    (∃ st s, __ProcessTouch samplePressed sampleReleasedRun.touchLast sampleReleasedRun.GUI =
      some (st, s)) ∧
    (samplePressed.Status = true → sampleReleasedRun.touchLast.Status = false →
      ∃ r1, GUI_Process_sample samplePressed sampleReleasedRun = some r1) :=
  have hinit : sampleWorld.initial := by
    refine ⟨rfl, rfl, rfl, ?_, ?_⟩
    · intro y hy
      simp only [sampleWorld, sampleGUI, Widget.hdrsList, Widget.hdrs, List.cons_append,
        List.nil_append, List.mem_cons, List.mem_singleton, List.not_mem_nil, or_false] at hy
      rcases hy with h | h | h <;> subst h <;> exact ⟨rfl, rfl⟩
    · decide
  ⟨hinit, rfl, by decide, rfl, rfl, rfl,
   C31_touch_down_finds_no_active_widget sampleInputs sampleWorld sampleWorldAfter hinit rfl
     [sampleReleased] sampleReleasedRun samplePressed rfl⟩


/-! ## Filling a rectangle under a clip region -/

/-- C35, the code at the failing input, and what it does in general. Under
the clip region `(0, 0)–(100, 100)` the rectangle at `(90, 10)` of size
`20 × 5` is handed to the driver as the rectangle at `(90, 10)` of size
`10 × 5`: the pixel `(100, 10)`, a pixel of the rectangle that
`GUI_DRAW_SetPixel` passes on, is not among its pixels. For every valid clip
region and every rectangle, the pixels `GUI_DRAW_Fill` hands to the driver are
those of the rectangle with `X1 <= px < X2` and `Y1 <= py < Y2`: column `X2`
and row `Y2`, which `GUI_DRAW_SetPixel` accepts, are left out. -/
theorem C35_fill_leaves_out_last_column_and_row :
    GUI_DRAW_Fill (sampleGUI []) ⟨0, 0, 100, 100⟩ 90 10 20 5 7 =
      [GUI_LL_Request.FillRect 1 90 10 10 5 7] ∧
    (GUI_DRAW_Fill (sampleGUI []) ⟨0, 0, 100, 100⟩ 90 10 20 5 7).any
      (GUI_LL_Request.covers 100 10) = false ∧
    GUI_DRAW_SetPixel (sampleGUI []) ⟨0, 0, 100, 100⟩ 100 10 7 =
      [GUI_LL_Request.SetPixel 1 100 10 7] ∧
    (∀ (GUI : GUI_t) (disp : GUI_Display_t) (x y width height : Int) (color : Nat)
        (px py : Int),
      disp.X1 ≤ disp.X2 → disp.Y1 ≤ disp.Y2 → 0 ≤ width → 0 ≤ height →
      ((GUI_DRAW_Fill GUI disp x y width height color).any
          (GUI_LL_Request.covers px py) = true ↔
        x ≤ px ∧ px < x + width ∧ y ≤ py ∧ py < y + height ∧
          disp.X1 ≤ px ∧ px < disp.X2 ∧ disp.Y1 ≤ py ∧ py < disp.Y2)) := by
  refine ⟨by decide, by decide, by decide, ?_⟩
  intro GUI disp x y width height color px py hX hY hw hh
  unfold GUI_DRAW_Fill
  simp only [GUI_USE_CLIPPING, if_true]
  by_cases hrej : (decide (x + width < disp.X1) || decide (y + height < disp.Y1) ||
      decide (x > disp.X2) || decide (y > disp.Y2)) = true
  · rw [if_pos hrej]
    simp only [Bool.or_eq_true, decide_eq_true_eq] at hrej
    simp only [List.any_nil, Bool.false_eq_true, false_iff]
    omega
  · rw [if_neg hrej]
    simp only [Bool.or_eq_true, decide_eq_true_eq, not_or, not_lt] at hrej
    simp only [List.any_cons, List.any_nil, Bool.or_false, GUI_LL_Request.covers,
      decide_eq_true_eq]
    split_ifs <;> omega

/-! ## The corner radius of a rounded rectangle -/

/-- C37, the code at the failing input, and what it does in general. For the
heights 1 and 0 `GUI_DRAW_FilledRoundedRectangle` replaces the radius by
`height / 2 - 1`, which as a `GUI_Dim_t` is 65535, and draws its corners with
it. `GUI_DRAW_RoundedRectangle` draws with a radius of at most `height / 2`
for every height, and so does `GUI_DRAW_FilledRoundedRectangle` for a height
of 2 or more. -/
theorem C37_filled_radius_wraps_for_flat_rectangles :
    (GUI_DRAW_FilledRoundedRectangle 10 10 50 1 3 7).filterMap GUI_DRAW_Call.radius =
      [65535, 65535, 65535, 65535] ∧
    (GUI_DRAW_FilledRoundedRectangle 10 10 50 0 0 7).filterMap GUI_DRAW_Call.radius =
      [65535, 65535, 65535, 65535] ∧
    (GUI_DRAW_RoundedRectangle 10 10 50 1 3 7).filterMap GUI_DRAW_Call.radius = [] ∧
    (∀ (x y width height r : Int) (color : Nat), 0 ≤ height → height < 65536 → 0 ≤ r →
      ∀ c ∈ GUI_DRAW_RoundedRectangle x y width height r color,
        ∀ q, c.radius = some q → 0 ≤ q ∧ q ≤ height / 2) ∧
    (∀ (x y width height r : Int) (color : Nat), 2 ≤ height → height < 65536 → 0 ≤ r →
      ∀ c ∈ GUI_DRAW_FilledRoundedRectangle x y width height r color,
        ∀ q, c.radius = some q → 0 ≤ q ∧ q ≤ height / 2) := by
  refine ⟨by decide, by decide, by decide, ?_, ?_⟩
  · intro x y width height r color h0 h1 hr c hc q hq
    have hclamp : 0 ≤ (if r ≥ height / 2 then toDim (height / 2) else r) ∧
        (if r ≥ height / 2 then toDim (height / 2) else r) ≤ height / 2 := by
      unfold toDim
      split_ifs <;> omega
    have hrad : q = (if r ≥ height / 2 then toDim (height / 2) else r) := by
      unfold GUI_DRAW_RoundedRectangle at hc
      simp only at hc
      by_cases hne : (if r ≥ height / 2 then toDim (height / 2) else r) ≠ 0
      · rw [if_pos hne] at hc
        simp only [List.mem_cons, List.mem_singleton, List.not_mem_nil, or_false] at hc
        rcases hc with rfl | rfl | rfl | rfl | rfl | rfl | rfl | rfl <;>
          simp [GUI_DRAW_Call.radius] at hq <;> exact hq.symm
      · rw [if_neg hne] at hc
        simp only [List.mem_singleton] at hc
        subst hc
        simp [GUI_DRAW_Call.radius] at hq
    rw [hrad]
    exact hclamp
  · intro x y width height r color h0 h1 hr c hc q hq
    have hclamp : 0 ≤ (if r ≥ height / 2 then toDim (height / 2 - 1) else r) ∧
        (if r ≥ height / 2 then toDim (height / 2 - 1) else r) ≤ height / 2 := by
      unfold toDim
      split_ifs <;> omega
    have hrad : q = (if r ≥ height / 2 then toDim (height / 2 - 1) else r) := by
      unfold GUI_DRAW_FilledRoundedRectangle at hc
      simp only at hc
      by_cases hne : (if r ≥ height / 2 then toDim (height / 2 - 1) else r) ≠ 0
      · rw [if_pos hne] at hc
        simp only [List.mem_cons, List.mem_singleton, List.not_mem_nil, or_false] at hc
        rcases hc with rfl | rfl | rfl | rfl | rfl | rfl | rfl <;>
          simp [GUI_DRAW_Call.radius] at hq <;> exact hq.symm
      · rw [if_neg hne] at hc
        simp only [List.mem_singleton] at hc
        subst hc
        simp [GUI_DRAW_Call.radius] at hq
    rw [hrad]
    exact hclamp


/-! ## Writing a text into a box -/

theorem toDim_range (v : Int) : 0 ≤ toDim v ∧ toDim v < 65536 := by
  unfold toDim
  omega

theorem StringWidth_while_range (font : GUI_FONT_t) (str : List Int) :
    ∀ out, 0 ≤ out → out < 65536 →
      0 ≤ __StringWidth_while font str out ∧ __StringWidth_while font str out < 65536 := by
  induction str with
  | nil => intro out h0 h1; exact ⟨h0, h1⟩
  | cons ch rest ih =>
    intro out _ _
    simp only [__StringWidth_while]
    exact ih _ (toDim_range _).1 (toDim_range _).2

theorem StringWidth_while_exact (font : GUI_FONT_t) (str : List Int) :
    ∀ out : Int, 0 ≤ out → out + ((str.map font.advance).sum : Nat) < 65536 →
      __StringWidth_while font str out = out + ((str.map font.advance).sum : Nat) := by
  induction str with
  | nil => intro out _ _; simp [__StringWidth_while]
  | cons ch rest ih =>
    intro out h0 h1
    simp only [List.map_cons, List.sum_cons, GUI_FONT_t.advance, Nat.cast_add] at h1
    have ha : toDim (toDim (out + (font.Data (ch - font.StartChar)).xSize) +
        (font.Data (ch - font.StartChar)).xMargin) =
        out + ((font.Data (ch - font.StartChar)).xSize : Int) +
          (font.Data (ch - font.StartChar)).xMargin := by
      unfold toDim
      omega
    simp only [__StringWidth_while, ha, List.map_cons, List.sum_cons, GUI_FONT_t.advance,
      Nat.cast_add]
    rw [ih _ (by omega) (by omega)]
    omega

/-- The loop of `GUI_DRAW_WriteText`: what it draws is a prefix of the string,
the counter goes down by the advance of what is drawn and stays non-negative,
and a string that fits the counter is drawn whole. -/
theorem WriteText_while_spec (font : GUI_FONT_t) (y : Int) (str : List Int) :
    ∀ x w : Int, 0 ≤ w → w < 65536 →
      (∃ rest, str =
        (GUI_DRAW_WriteText_while font y str x w).calls.filterMap GUI_DRAW_Call.char ++ rest) ∧
      (GUI_DRAW_WriteText_while font y str x w).w =
        w - ((((GUI_DRAW_WriteText_while font y str x w).calls.filterMap
          GUI_DRAW_Call.char).map font.advance).sum : Nat) ∧
      0 ≤ (GUI_DRAW_WriteText_while font y str x w).w ∧
      ((((str.map font.advance).sum : Nat) : Int) ≤ w →
        (GUI_DRAW_WriteText_while font y str x w).calls.filterMap GUI_DRAW_Call.char = str) := by
  induction str with
  | nil =>
    intro x w h0 _
    simp [GUI_DRAW_WriteText_while, h0]
  | cons ch rest ih =>
    intro x w h0 h1
    by_cases hlt : w < ((font.Data (ch - font.StartChar)).xSize : Int) +
        (font.Data (ch - font.StartChar)).xMargin
    · simp only [GUI_DRAW_WriteText_while, if_pos hlt, List.filterMap_nil, List.map_nil,
        List.sum_nil, List.nil_append, Nat.cast_zero, sub_zero, true_and]
      refine ⟨⟨_, rfl⟩, h0, ?_⟩
      intro hfit
      simp only [List.map_cons, List.sum_cons, GUI_FONT_t.advance, Nat.cast_add] at hfit
      omega
    · have hw : toDim (w - (((font.Data (ch - font.StartChar)).xSize : Int) +
          (font.Data (ch - font.StartChar)).xMargin)) =
          w - (((font.Data (ch - font.StartChar)).xSize : Int) +
            (font.Data (ch - font.StartChar)).xMargin) := by
        unfold toDim
        omega
      obtain ⟨⟨tl, htl⟩, i2, i3, i4⟩ := ih
        (toDim (x + (((font.Data (ch - font.StartChar)).xSize : Int) +
          (font.Data (ch - font.StartChar)).xMargin)))
        (w - (((font.Data (ch - font.StartChar)).xSize : Int) +
          (font.Data (ch - font.StartChar)).xMargin)) (by omega) (by omega)
      simp only [GUI_DRAW_WriteText_while, if_neg hlt, hw, List.filterMap_cons,
        GUI_DRAW_Call.char, List.map_cons, List.sum_cons, GUI_FONT_t.advance, Nat.cast_add,
        List.cons_append, List.cons.injEq, true_and]
      refine ⟨⟨tl, htl⟩, ?_, i3, ?_⟩
      · rw [i2]
        omega
      · intro hfit
        exact i4 (by omega)

set_option maxRecDepth 100000 in
/-- The claim C38 fails on a string whose total advance does not fit the
display unit: 129 characters of advance 510 have the total advance 65790,
`__StringWidth` returns 254, which is at most the width 300 of the box, and
`GUI_DRAW_WriteText` draws no character of the string. -/
theorem C38_counterexample :
    __StringWidth sampleWideFont (List.replicate 129 65) = 254 ∧
    (254 : Int) ≤ (sampleBox 300).Width ∧
    (GUI_DRAW_WriteText sampleWideFont (List.replicate 129 65) (sampleBox 300)).calls = [] ∧
    (GUI_DRAW_WriteText sampleWideFont (List.replicate 129 65) (sampleBox 300)).calls.filterMap
      GUI_DRAW_Call.char ≠ List.replicate 129 65 := by
  refine ⟨by decide, by decide, by decide, ?_⟩
  have h : (GUI_DRAW_WriteText sampleWideFont (List.replicate 129 65) (sampleBox 300)).calls =
      [] := by decide
  rw [h]
  decide

/-- C38, amended: `GUI_DRAW_WriteText` draws a prefix of the string whose
total advance is at most `min(__StringWidth(font, str), draw->Width)`; the
counter `w` ends at that minimum less the advance drawn and never goes below
zero; and the whole string is drawn when its total advance fits the display
unit (is below 65536) and is at most `draw->Width`. -/
theorem C38_text_prefix_within_width (font : GUI_FONT_t) (str : List Int)
    (draw : GUI_DRAW_FONT_t) :
    (∃ rest, str =
      (GUI_DRAW_WriteText font str draw).calls.filterMap GUI_DRAW_Call.char ++ rest) ∧
    (((((GUI_DRAW_WriteText font str draw).calls.filterMap GUI_DRAW_Call.char).map
        font.advance).sum : Nat) : Int) ≤ min (__StringWidth font str) draw.Width ∧
    (GUI_DRAW_WriteText font str draw).w =
      min (__StringWidth font str) draw.Width -
        ((((GUI_DRAW_WriteText font str draw).calls.filterMap GUI_DRAW_Call.char).map
          font.advance).sum : Nat) ∧
    0 ≤ (GUI_DRAW_WriteText font str draw).w ∧
    ((str.map font.advance).sum < 65536 → (str.map font.advance).sum ≤ draw.Width →
      (GUI_DRAW_WriteText font str draw).calls.filterMap GUI_DRAW_Call.char = str) := by
  have hsw := StringWidth_while_range font str 0 (le_refl 0) (by norm_num)
  have hmin : (if __StringWidth font str > draw.Width then (draw.Width : Int)
      else __StringWidth font str) = min (__StringWidth font str) draw.Width := by
    unfold __StringWidth
    split_ifs with h
    · exact (min_eq_right (le_of_lt h)).symm
    · exact (min_eq_left (not_lt.1 h)).symm
  have hw0 : 0 ≤ min (__StringWidth font str) (draw.Width : Int) := by
    unfold __StringWidth
    exact le_min hsw.1 (Int.ofNat_nonneg _)
  have hw1 : min (__StringWidth font str) (draw.Width : Int) < 65536 := by
    unfold __StringWidth
    exact lt_of_le_of_lt (min_le_left _ _) hsw.2
  unfold GUI_DRAW_WriteText
  simp only [hmin]
  obtain ⟨i1, i2, i3, i4⟩ := WriteText_while_spec font
    (if draw.VALIGN_CENTER = true then
      toDim ((draw.Y : Int) + Int.tdiv ((draw.Height : Int) - font.Size) 2)
    else if draw.VALIGN_BOTTOM = true then
      toDim ((draw.Y : Int) + ((draw.Height : Int) - font.Size))
    else (draw.Y : Int)) str
    (if draw.HALIGN_CENTER = true then
      toDim ((draw.X : Int) +
        Int.tdiv ((draw.Width : Int) - min (__StringWidth font str) draw.Width) 2)
    else if draw.HALIGN_RIGHT = true then
      toDim ((draw.X : Int) + ((draw.Width : Int) - min (__StringWidth font str) draw.Width))
    else (draw.X : Int))
    (min (__StringWidth font str) draw.Width) hw0 hw1
  refine ⟨i1, ?_, i2, i3, ?_⟩
  · rw [i2] at i3
    omega
  · intro hfit hwidth
    apply i4
    have hex := StringWidth_while_exact font str 0 (le_refl 0) (by omega)
    unfold __StringWidth
    rw [hex]
    simp only [zero_add]
    exact le_min (le_refl _) (by exact_mod_cast hwidth)


/-! ## Drawing a line -/

theorem toInt16_id (v : Int) (h0 : -32768 ≤ v) (h1 : v ≤ 32767) : toInt16 v = v := by
  unfold toInt16
  omega

theorem toInt16_add (a b : Int) : toInt16 (toInt16 a + b) = toInt16 (a + b) := by
  unfold toInt16
  omega

theorem toDim_toInt16 (v : Int) : toDim (toInt16 v) = toDim v := by
  unfold toDim toInt16
  omega

theorem toDim_id (v : Int) (h0 : 0 ≤ v) (h1 : v < 65536) : toDim v = v := by
  unfold toDim
  omega

theorem lineNum_range (den numadd : Int) (i : Nat) (hden : 0 < den) :
    0 ≤ lineNum den numadd i ∧ lineNum den numadd i < den :=
  ⟨Int.emod_nonneg _ (ne_of_gt hden), Int.emod_lt_of_pos _ hden⟩

theorem line_step (den numadd : Int) (i : Nat) (hden : 0 < den) (hna : 0 ≤ numadd)
    (hle : numadd ≤ den) :
    (lineNum den numadd i + numadd ≥ den →
      lineCarries den numadd (i + 1) = lineCarries den numadd i + 1 ∧
      lineNum den numadd (i + 1) = lineNum den numadd i + numadd - den) ∧
    (¬ lineNum den numadd i + numadd ≥ den →
      lineCarries den numadd (i + 1) = lineCarries den numadd i ∧
      lineNum den numadd (i + 1) = lineNum den numadd i + numadd) := by
  have hr := lineNum_range den numadd i hden
  have hsplit : lineNum den numadd i + den * lineCarries den numadd i =
      den / 2 + (i : Int) * numadd := Int.emod_add_ediv _ _
  have hnext : den / 2 + ((i + 1 : Nat) : Int) * numadd = den / 2 + (i : Int) * numadd + numadd := by
    push_cast
    ring
  constructor
  · intro hc
    unfold lineCarries lineNum at *
    rw [hnext]
    exact (Int.ediv_emod_unique hden).2 ⟨by linear_combination hsplit, by omega, by omega⟩
  · intro hc
    unfold lineCarries lineNum at *
    rw [hnext]
    exact (Int.ediv_emod_unique hden).2 ⟨by linear_combination hsplit, by omega, by omega⟩

theorem lineCarries_zero (den numadd : Int) (hden : 0 < den) :
    lineCarries den numadd 0 = 0 ∧ lineNum den numadd 0 = den / 2 := by
  unfold lineCarries lineNum
  simp only [Nat.cast_zero, zero_mul, add_zero]
  exact ⟨Int.ediv_eq_zero_of_lt (by omega) (by omega), Int.emod_eq_of_lt (by omega) (by omega)⟩

theorem lineCarries_mono (den numadd : Int) (i : Nat) (hden : 0 < den) (hna : 0 ≤ numadd)
    (hle : numadd ≤ den) :
    lineCarries den numadd i ≤ lineCarries den numadd (i + 1) ∧
    lineCarries den numadd (i + 1) ≤ lineCarries den numadd i + 1 := by
  have h := line_step den numadd i hden hna hle
  by_cases hc : lineNum den numadd i + numadd ≥ den
  · rw [(h.1 hc).1]
    omega
  · rw [(h.2 hc).1]
    omega

theorem lineCarries_end (den numadd : Int) (n : Nat) (hn : (n : Int) = den) (hden : 0 < den) :
    lineCarries den numadd n = numadd := by
  unfold lineCarries
  rw [hn, mul_comm den numadd, Int.add_mul_ediv_right _ _ (ne_of_gt hden),
    Int.ediv_eq_zero_of_lt (by omega) (by omega), zero_add]

theorem lineCarries_nonneg (den numadd : Int) (hden : 0 < den) (hna : 0 ≤ numadd)
    (hle : numadd ≤ den) : ∀ i : Nat, 0 ≤ lineCarries den numadd i := by
  intro i
  induction i with
  | zero => rw [(lineCarries_zero den numadd hden).1]
  | succ k ih =>
    have := (lineCarries_mono den numadd k hden hna hle).1
    omega

theorem lineCarries_le (den numadd : Int) (n : Nat) (hn : (n : Int) = den) (hden : 0 < den)
    (hna : 0 ≤ numadd) (hle : numadd ≤ den) :
    ∀ k i : Nat, i + k = n → lineCarries den numadd i ≤ numadd := by
  intro k
  induction k with
  | zero =>
    intro i hi
    have : i = n := by omega
    rw [this, lineCarries_end den numadd n hn hden]
  | succ k ih =>
    intro i hi
    have h1 := ih (i + 1) (by omega)
    have h2 := (lineCarries_mono den numadd i hden hna hle).1
    omega

/-- The loop of `GUI_DRAW_Line` in closed form, as long as the error term fits
an `int16_t`: round `k` draws the pixel reached by `k` steps along the long
axis and `lineCarries den numadd k` steps along the short one. -/
theorem line_for_closed (den numadd xinc1 xinc2 yinc1 yinc2 x0 y0 : Int) (hden : 0 < den)
    (hna : 0 ≤ numadd) (hle : numadd ≤ den) (hsum : den + numadd ≤ 32767) :
    ∀ n i : Nat,
      GUI_DRAW_Line_for den numadd xinc1 xinc2 yinc1 yinc2 n
          (toInt16 (x0 + xinc1 * lineCarries den numadd i + xinc2 * i))
          (toInt16 (y0 + yinc1 * lineCarries den numadd i + yinc2 * i))
          (lineNum den numadd i) =
        (List.range' i n).map (fun k =>
          (toDim (x0 + xinc1 * lineCarries den numadd k + xinc2 * k),
           toDim (y0 + yinc1 * lineCarries den numadd k + yinc2 * k))) := by
  intro n
  induction n with
  | zero => intro i; rfl
  | succ n ih =>
    intro i
    have hr := lineNum_range den numadd i hden
    have hnum1 : toInt16 (lineNum den numadd i + numadd) = lineNum den numadd i + numadd :=
      toInt16_id _ (by omega) (by omega)
    have hstep := line_step den numadd i hden hna hle
    simp only [GUI_DRAW_Line_for, List.range'_succ, List.map_cons, hnum1, toDim_toInt16]
    congr 1
    rw [← ih (i + 1)]
    by_cases hc : lineNum den numadd i + numadd ≥ den
    · obtain ⟨hC, hN⟩ := hstep.1 hc
      have hnum2 : toInt16 (lineNum den numadd i + numadd - den) =
          lineNum den numadd i + numadd - den := toInt16_id _ (by omega) (by omega)
      simp only [if_pos hc, hnum2, toInt16_add, hC, hN]
      congr 2 <;> (push_cast; ring)
    · obtain ⟨hC, hN⟩ := hstep.2 hc
      simp only [if_neg hc, toInt16_add, hC, hN]
      congr 2 <;> (push_cast; ring)


/-- The pixels of `GUI_DRAW_Line` when the line is at least as wide as it is
high. -/
theorem GUI_DRAW_Line_long_x (x1 y1 x2 y2 : Int)
    (hsum : __GUI_ABS (x2 - x1) + __GUI_ABS (y2 - y1) < 32767)
    (hge : __GUI_ABS (x2 - x1) ≥ __GUI_ABS (y2 - y1)) :
    GUI_DRAW_Line x1 y1 x2 y2 =
      some ((List.range' 0 ((__GUI_ABS (x2 - x1)).toNat + 1)).map (fun k =>
        (toDim (x1 + 0 * lineCarries (__GUI_ABS (x2 - x1)) (__GUI_ABS (y2 - y1)) k +
            (if x2 ≥ x1 then 1 else -1) * k),
         toDim (y1 + (if y2 ≥ y1 then 1 else -1) *
            lineCarries (__GUI_ABS (x2 - x1)) (__GUI_ABS (y2 - y1)) k + 0 * k)))) := by
  have hdx0 : 0 ≤ __GUI_ABS (x2 - x1) := by unfold __GUI_ABS; split_ifs <;> omega
  have hdy0 : 0 ≤ __GUI_ABS (y2 - y1) := by unfold __GUI_ABS; split_ifs <;> omega
  have hdx : toInt16 (__GUI_ABS (x2 - x1)) = __GUI_ABS (x2 - x1) :=
    toInt16_id _ (by omega) (by omega)
  have hdy : toInt16 (__GUI_ABS (y2 - y1)) = __GUI_ABS (y2 - y1) :=
    toInt16_id _ (by omega) (by omega)
  have hnum : toInt16 (Int.tdiv (__GUI_ABS (x2 - x1)) 2) = __GUI_ABS (x2 - x1) / 2 := by
    rw [Int.tdiv_eq_ediv hdx0 (by norm_num)]
    exact toInt16_id _ (by omega) (by omega)
  have hne : __GUI_ABS (x2 - x1) ≠ 32767 := by omega
  have hcnt : (__GUI_ABS (x2 - x1) + 1).toNat = (__GUI_ABS (x2 - x1)).toNat + 1 := by omega
  unfold GUI_DRAW_Line
  simp only [hdx, hdy, if_pos hge, hnum, if_neg hne, hcnt, Option.some.injEq]
  by_cases hden : 0 < __GUI_ABS (x2 - x1)
  · have h0 := lineCarries_zero (__GUI_ABS (x2 - x1)) (__GUI_ABS (y2 - y1)) hden
    have key := line_for_closed (__GUI_ABS (x2 - x1)) (__GUI_ABS (y2 - y1)) 0
      (if x2 ≥ x1 then 1 else -1) (if y2 ≥ y1 then 1 else -1) 0 x1 y1 hden hdy0 hge
      (by omega) ((__GUI_ABS (x2 - x1)).toNat + 1) 0
    rw [h0.1, h0.2] at key
    simp only [Nat.cast_zero, mul_zero, add_zero] at key
    exact key
  · have hz : __GUI_ABS (x2 - x1) = 0 := by omega
    have hzy : __GUI_ABS (y2 - y1) = 0 := by omega
    simp [hz, hzy, GUI_DRAW_Line_for, lineCarries, toDim_toInt16]

/-- The pixels of `GUI_DRAW_Line` when the line is higher than it is wide. -/
theorem GUI_DRAW_Line_long_y (x1 y1 x2 y2 : Int)
    (hsum : __GUI_ABS (x2 - x1) + __GUI_ABS (y2 - y1) < 32767)
    (hlt : ¬ __GUI_ABS (x2 - x1) ≥ __GUI_ABS (y2 - y1)) :
    GUI_DRAW_Line x1 y1 x2 y2 =
      some ((List.range' 0 ((__GUI_ABS (y2 - y1)).toNat + 1)).map (fun k =>
        (toDim (x1 + (if x2 ≥ x1 then 1 else -1) *
            lineCarries (__GUI_ABS (y2 - y1)) (__GUI_ABS (x2 - x1)) k + 0 * k),
         toDim (y1 + 0 * lineCarries (__GUI_ABS (y2 - y1)) (__GUI_ABS (x2 - x1)) k +
            (if y2 ≥ y1 then 1 else -1) * k)))) := by
  have hdx0 : 0 ≤ __GUI_ABS (x2 - x1) := by unfold __GUI_ABS; split_ifs <;> omega
  have hdy0 : 0 ≤ __GUI_ABS (y2 - y1) := by unfold __GUI_ABS; split_ifs <;> omega
  have hdx : toInt16 (__GUI_ABS (x2 - x1)) = __GUI_ABS (x2 - x1) :=
    toInt16_id _ (by omega) (by omega)
  have hdy : toInt16 (__GUI_ABS (y2 - y1)) = __GUI_ABS (y2 - y1) :=
    toInt16_id _ (by omega) (by omega)
  have hnum : toInt16 (Int.tdiv (__GUI_ABS (y2 - y1)) 2) = __GUI_ABS (y2 - y1) / 2 := by
    rw [Int.tdiv_eq_ediv hdy0 (by norm_num)]
    exact toInt16_id _ (by omega) (by omega)
  have hne : __GUI_ABS (y2 - y1) ≠ 32767 := by omega
  have hcnt : (__GUI_ABS (y2 - y1) + 1).toNat = (__GUI_ABS (y2 - y1)).toNat + 1 := by omega
  have hden : 0 < __GUI_ABS (y2 - y1) := by omega
  unfold GUI_DRAW_Line
  simp only [hdx, hdy, if_neg hlt, hnum, if_neg hne, hcnt, Option.some.injEq]
  have h0 := lineCarries_zero (__GUI_ABS (y2 - y1)) (__GUI_ABS (x2 - x1)) hden
  have key := line_for_closed (__GUI_ABS (y2 - y1)) (__GUI_ABS (x2 - x1))
    (if x2 ≥ x1 then 1 else -1) 0 0 (if y2 ≥ y1 then 1 else -1) x1 y1 hden hdx0 (by omega)
    (by omega) ((__GUI_ABS (y2 - y1)).toNat + 1) 0
  rw [h0.1, h0.2] at key
  simp only [Nat.cast_zero, mul_zero, add_zero] at key
  exact key


theorem range_map_path {α : Type} (f : Nat → α) (n : Nat) (R : α → α → Prop)
    (hstep : ∀ k, k < n → R (f k) (f (k + 1))) :
    ((List.range' 0 (n + 1)).map f).length = n + 1 ∧
    ((List.range' 0 (n + 1)).map f).head? = some (f 0) ∧
    ((List.range' 0 (n + 1)).map f).getLast? = some (f n) ∧
    ∀ i p q, ((List.range' 0 (n + 1)).map f)[i]? = some p →
      ((List.range' 0 (n + 1)).map f)[i + 1]? = some q → R p q := by
  refine ⟨by simp, by simp [List.range'_succ], ?_, ?_⟩
  · rw [List.range'_concat, List.map_append, List.map_singleton, List.getLast?_concat]
    simp
  · intro i p q hp hq
    by_cases hi : i + 1 < n + 1
    · have hi0 : i < n + 1 := by omega
      rw [List.getElem?_map, List.getElem?_range' 0 1 hi0] at hp
      rw [List.getElem?_map, List.getElem?_range' 0 1 hi] at hq
      simp only [Option.map_some', Option.some.injEq, Nat.zero_add, Nat.one_mul] at hp hq
      subst hp
      subst hq
      exact hstep i (by omega)
    · have hlen : ((List.range' 0 (n + 1)).map f).length ≤ i + 1 := by
        simp only [List.length_map, List.length_range']
        omega
      rw [List.getElem?_eq_none hlen] at hq
      cases hq

theorem GUI_ABS_le_one (v : Int) : __GUI_ABS v ≤ 1 ↔ -1 ≤ v ∧ v ≤ 1 := by
  unfold __GUI_ABS
  split_ifs <;> omega

theorem lineCarries_first (den numadd : Int) (hden : 0 ≤ den) :
    lineCarries den numadd 0 = 0 := by
  by_cases h : 0 < den
  · exact (lineCarries_zero den numadd h).1
  · have : den = 0 := by omega
    subst this
    simp [lineCarries]

/-- C36, amended: for end points whose distances `|x2 - x1|` and `|y2 - y1|`
add up to less than 32767, `GUI_DRAW_Line` ends after exactly
`max(|x2 - x1|, |y2 - y1|) + 1` calls of `GUI_DRAW_SetPixel`, the first at
`(x1, y1)`, the last at `(x2, y2)`, each next pixel differing from the one
before by at most 1 in each coordinate. -/
theorem C36_line_reaches_end_point (x1 y1 x2 y2 : Int)
    (hx1 : 0 ≤ x1 ∧ x1 < 65536) (hy1 : 0 ≤ y1 ∧ y1 < 65536)
    (hx2 : 0 ≤ x2 ∧ x2 < 65536) (hy2 : 0 ≤ y2 ∧ y2 < 65536)
    (hsum : __GUI_ABS (x2 - x1) + __GUI_ABS (y2 - y1) < 32767) :
    ∃ px, GUI_DRAW_Line x1 y1 x2 y2 = some px ∧
      (px.length : Int) = max (__GUI_ABS (x2 - x1)) (__GUI_ABS (y2 - y1)) + 1 ∧
      px.head? = some (x1, y1) ∧ px.getLast? = some (x2, y2) ∧
      ∀ i p q, px[i]? = some p → px[i + 1]? = some q →
        __GUI_ABS (q.1 - p.1) ≤ 1 ∧ __GUI_ABS (q.2 - p.2) ≤ 1 := by
  have hdx0 : 0 ≤ __GUI_ABS (x2 - x1) := by unfold __GUI_ABS; split_ifs <;> omega
  have hdy0 : 0 ≤ __GUI_ABS (y2 - y1) := by unfold __GUI_ABS; split_ifs <;> omega
  have hdxv : (x2 ≥ x1 ∧ __GUI_ABS (x2 - x1) = x2 - x1) ∨
      (¬ x2 ≥ x1 ∧ __GUI_ABS (x2 - x1) = x1 - x2) := by
    unfold __GUI_ABS; split_ifs <;> omega
  have hdyv : (y2 ≥ y1 ∧ __GUI_ABS (y2 - y1) = y2 - y1) ∨
      (¬ y2 ≥ y1 ∧ __GUI_ABS (y2 - y1) = y1 - y2) := by
    unfold __GUI_ABS; split_ifs <;> omega
  by_cases hge : __GUI_ABS (x2 - x1) ≥ __GUI_ABS (y2 - y1)
  · refine ⟨_, GUI_DRAW_Line_long_x x1 y1 x2 y2 hsum hge, ?_⟩
    have hn : (((__GUI_ABS (x2 - x1)).toNat : Nat) : Int) = __GUI_ABS (x2 - x1) :=
      Int.toNat_of_nonneg hdx0
    have hfirst := lineCarries_first (__GUI_ABS (x2 - x1)) (__GUI_ABS (y2 - y1)) hdx0
    have hlast : lineCarries (__GUI_ABS (x2 - x1)) (__GUI_ABS (y2 - y1))
        (__GUI_ABS (x2 - x1)).toNat = __GUI_ABS (y2 - y1) := by
      by_cases hden : 0 < __GUI_ABS (x2 - x1)
      · exact lineCarries_end _ _ _ hn hden
      · have hz : __GUI_ABS (x2 - x1) = 0 := by omega
        rw [hz] at hfirst ⊢
        simp only [Int.toNat_zero]
        rw [hfirst]
        omega
    obtain ⟨p1, p2, p3, p4⟩ := range_map_path
      (fun k : Nat =>
        (toDim (x1 + 0 * lineCarries (__GUI_ABS (x2 - x1)) (__GUI_ABS (y2 - y1)) k +
            (if x2 ≥ x1 then 1 else -1) * k),
         toDim (y1 + (if y2 ≥ y1 then 1 else -1) *
            lineCarries (__GUI_ABS (x2 - x1)) (__GUI_ABS (y2 - y1)) k + 0 * k)))
      (__GUI_ABS (x2 - x1)).toNat
      (fun p q => __GUI_ABS (q.1 - p.1) ≤ 1 ∧ __GUI_ABS (q.2 - p.2) ≤ 1)
      (by
        intro k hk
        have hden : 0 < __GUI_ABS (x2 - x1) := by omega
        have hc0 := lineCarries_nonneg _ _ hden hdy0 hge k
        have hc1 := lineCarries_le _ _ _ hn hden hdy0 hge
          ((__GUI_ABS (x2 - x1)).toNat - k) k (by omega)
        have hc2 := lineCarries_le _ _ _ hn hden hdy0 hge
          ((__GUI_ABS (x2 - x1)).toNat - (k + 1)) (k + 1) (by omega)
        have hm := lineCarries_mono _ _ k hden hdy0 hge
        have hk1 : (((k + 1 : Nat)) : Int) = (k : Int) + 1 := by push_cast; ring
        simp only [hk1, GUI_ABS_le_one]
        unfold toDim
        rcases hdxv with ⟨hs, hv⟩ | ⟨hs, hv⟩ <;> rcases hdyv with ⟨ht, hu⟩ | ⟨ht, hu⟩ <;>
          simp only [hs, ht, if_true, if_false] <;> omega)
    refine ⟨?_, ?_, ?_, p4⟩
    · rw [p1, max_eq_left hge]
      push_cast
      omega
    · rw [p2]
      simp only [hfirst, Nat.cast_zero, mul_zero, add_zero]
      rw [toDim_id _ hx1.1 hx1.2, toDim_id _ hy1.1 hy1.2]
    · rw [p3]
      simp only [hlast, hn]
      congr 1
      unfold toDim
      rcases hdxv with ⟨hs, hv⟩ | ⟨hs, hv⟩ <;> rcases hdyv with ⟨ht, hu⟩ | ⟨ht, hu⟩ <;>
        simp only [hs, ht, if_true, if_false, Prod.mk.injEq] <;> constructor <;> omega
  · refine ⟨_, GUI_DRAW_Line_long_y x1 y1 x2 y2 hsum hge, ?_⟩
    have hlt : __GUI_ABS (x2 - x1) < __GUI_ABS (y2 - y1) := by omega
    have hden : 0 < __GUI_ABS (y2 - y1) := by omega
    have hle : __GUI_ABS (x2 - x1) ≤ __GUI_ABS (y2 - y1) := by omega
    have hn : (((__GUI_ABS (y2 - y1)).toNat : Nat) : Int) = __GUI_ABS (y2 - y1) :=
      Int.toNat_of_nonneg hdy0
    have hfirst := lineCarries_first (__GUI_ABS (y2 - y1)) (__GUI_ABS (x2 - x1)) hdy0
    have hlast : lineCarries (__GUI_ABS (y2 - y1)) (__GUI_ABS (x2 - x1))
        (__GUI_ABS (y2 - y1)).toNat = __GUI_ABS (x2 - x1) :=
      lineCarries_end _ _ _ hn hden
    obtain ⟨p1, p2, p3, p4⟩ := range_map_path
      (fun k : Nat =>
        (toDim (x1 + (if x2 ≥ x1 then 1 else -1) *
            lineCarries (__GUI_ABS (y2 - y1)) (__GUI_ABS (x2 - x1)) k + 0 * k),
         toDim (y1 + 0 * lineCarries (__GUI_ABS (y2 - y1)) (__GUI_ABS (x2 - x1)) k +
            (if y2 ≥ y1 then 1 else -1) * k)))
      (__GUI_ABS (y2 - y1)).toNat
      (fun p q => __GUI_ABS (q.1 - p.1) ≤ 1 ∧ __GUI_ABS (q.2 - p.2) ≤ 1)
      (by
        intro k hk
        have hc0 := lineCarries_nonneg _ _ hden hdx0 hle k
        have hc1 := lineCarries_le _ _ _ hn hden hdx0 hle
          ((__GUI_ABS (y2 - y1)).toNat - k) k (by omega)
        have hc2 := lineCarries_le _ _ _ hn hden hdx0 hle
          ((__GUI_ABS (y2 - y1)).toNat - (k + 1)) (k + 1) (by omega)
        have hm := lineCarries_mono _ _ k hden hdx0 hle
        have hk1 : (((k + 1 : Nat)) : Int) = (k : Int) + 1 := by push_cast; ring
        simp only [hk1, GUI_ABS_le_one]
        unfold toDim
        rcases hdxv with ⟨hs, hv⟩ | ⟨hs, hv⟩ <;> rcases hdyv with ⟨ht, hu⟩ | ⟨ht, hu⟩ <;>
          simp only [hs, ht, if_true, if_false] <;> omega)
    refine ⟨?_, ?_, ?_, p4⟩
    · rw [p1, max_eq_right hle]
      push_cast
      omega
    · rw [p2]
      simp only [hfirst, Nat.cast_zero, mul_zero, add_zero]
      rw [toDim_id _ hx1.1 hx1.2, toDim_id _ hy1.1 hy1.2]
    · rw [p3]
      simp only [hlast, hn]
      congr 1
      unfold toDim
      rcases hdxv with ⟨hs, hv⟩ | ⟨hs, hv⟩ <;> rcases hdyv with ⟨ht, hu⟩ | ⟨ht, hu⟩ <;>
        simp only [hs, ht, if_true, if_false, Prod.mk.injEq] <;> constructor <;> omega

theorem C36_line_reaches_end_point_witness :
    ((0 : Int) ≤ 0 ∧ (0 : Int) < 65536) ∧ ((0 : Int) ≤ 5 ∧ (5 : Int) < 65536) ∧
    ((0 : Int) ≤ 2 ∧ (2 : Int) < 65536) ∧
    __GUI_ABS (5 - 0) + __GUI_ABS (2 - 0) < 32767 ∧
    GUI_DRAW_Line 0 0 5 2 = some [(0, 0), (1, 0), (2, 1), (3, 1), (4, 2), (5, 2)] ∧
    ∃ px, GUI_DRAW_Line 0 0 5 2 = some px ∧
      (px.length : Int) = max (__GUI_ABS (5 - 0)) (__GUI_ABS (2 - 0)) + 1 ∧
      px.head? = some (0, 0) ∧ px.getLast? = some (5, 2) ∧
      ∀ i p q, px[i]? = some p → px[i + 1]? = some q →
        __GUI_ABS (q.1 - p.1) ≤ 1 ∧ __GUI_ABS (q.2 - p.2) ≤ 1 :=
  ⟨by decide, by decide, by decide, by decide, by decide,
   C36_line_reaches_end_point 0 0 5 2 (by decide) (by decide) (by decide) (by decide)
     (by decide)⟩


theorem line_for_succ (den numadd xinc1 xinc2 yinc1 yinc2 : Int) (n : Nat) (x y num : Int) :
    GUI_DRAW_Line_for den numadd xinc1 xinc2 yinc1 yinc2 (n + 1) x y num =
      (toDim x, toDim y) ::
        GUI_DRAW_Line_for den numadd xinc1 xinc2 yinc1 yinc2 n
          (toInt16 ((if toInt16 (num + numadd) ≥ den then toInt16 (x + xinc1) else x) + xinc2))
          (toInt16 ((if toInt16 (num + numadd) ≥ den then toInt16 (y + yinc1) else y) + yinc2))
          (if toInt16 (num + numadd) ≥ den then toInt16 (toInt16 (num + numadd) - den)
           else toInt16 (num + numadd)) := rfl

/-- A line that steps along `x` moves up by at most one row per round. -/
theorem line_for_row_bound (den numadd xinc1 xinc2 : Int) :
    ∀ (n : Nat) (x y num : Int), 0 ≤ y → y + n ≤ 32767 →
      ∀ p ∈ GUI_DRAW_Line_for den numadd xinc1 xinc2 1 0 n x y num, p.2 < y + n := by
  intro n
  induction n with
  | zero =>
    intro x y num _ _ p hp
    simp [GUI_DRAW_Line_for] at hp
  | succ n ih =>
    intro x y num h0 h1 p hp
    rw [line_for_succ, List.mem_cons] at hp
    rcases hp with hp | hp
    · subst hp
      show toDim y < y + ((n + 1 : Nat) : Int)
      unfold toDim
      push_cast
      omega
    · have hy : 0 ≤ toInt16 ((if toInt16 (num + numadd) ≥ den then toInt16 (y + 1) else y) + 0) ∧
          toInt16 ((if toInt16 (num + numadd) ≥ den then toInt16 (y + 1) else y) + 0) ≤ y + 1 := by
        push_cast at h1
        unfold toInt16
        split_ifs <;> omega
      have := ih _ _ _ hy.1 (by push_cast at h1; omega) p hp
      push_cast
      omega

theorem line_for_length (den numadd xinc1 xinc2 yinc1 yinc2 : Int) :
    ∀ (n : Nat) (x y num : Int),
      (GUI_DRAW_Line_for den numadd xinc1 xinc2 yinc1 yinc2 n x y num).length = n := by
  intro n
  induction n with
  | zero => intro x y num; rfl
  | succ n ih =>
    intro x y num
    rw [line_for_succ, List.length_cons, ih]

/-- The claim C36 fails on the line from `(0, 0)` to `(30000, 30000)`, both
distances being below 32767: the error term of the first round, 15000 + 30000,
does not fit an `int16_t`, that round takes no step along `y`, and the last
pixel of the line is not `(30000, 30000)`. -/
theorem C36_counterexample :
    __GUI_ABS (30000 - 0) < 32767 ∧
    ∃ px, GUI_DRAW_Line 0 0 30000 30000 = some px ∧ px.length = 30001 ∧
      px.getLast? ≠ some (30000, 30000) := by
  refine ⟨by decide, GUI_DRAW_Line_for 30000 30000 0 1 1 0 (30000 + 1) 0 0 15000, rfl,
    line_for_length _ _ _ _ _ _ _ _ _ _, ?_⟩
  intro hlast
  have hmem := List.mem_of_getLast?_eq_some hlast
  rw [line_for_succ, List.mem_cons] at hmem
  rcases hmem with hmem | hmem
  · exact absurd (congrArg Prod.fst hmem) (by decide)
  · have hy : toInt16 ((if toInt16 (15000 + 30000) ≥ 30000 then toInt16 (0 + 1) else 0) + 0) =
        0 := by decide
    rw [hy] at hmem
    have := line_for_row_bound 30000 30000 0 1 30000 _ 0 _ (le_refl 0) (by norm_num) _ hmem
    simp at this

end EGUI
